import Mathlib

/-!
CPP-Actor-framework: mailbox, trigger, pump/pool channel and delegation chain.

A shallow embedding of `common_code/actor_framework.h`.  Objects that the C++
code reaches through pointers are kept in explicit state records; a method
that writes through a destination reference appends to a write log; a method
guarded by `assert` returns `Except Err`, the error standing for the failed
assertion of a debug build.

Assertions of the form `assert(_strand->running_in_this_thread())` are not
modelled as failures: every embedded method is invoked from the strand the
source requires, which is part of how the state records are driven.
-/

namespace ActorFramework

variable {M : Type}

/-! ## Definitions -/

/-- Ways in which an embedded method can abort. -/
inductive Err where
  | assert_failed
  | null_deref
  | out_of_fuel
  deriving DecidableEq, Repr

/-- Modelled from the spec: `msg_queue<T>` of `msg_queue.h`, which is not among the
sources.  It is the FIFO container behind `_msgBuff`; the handle code only uses
`push_back`, `front`, `pop_front`, `empty`, `size` and `clear`.  The constructor
argument `fixedSize` is documented in `actor_framework.h` as the length of the
queue's memory pool, so it does not limit how many messages are stored. -/
abbrev msg_queue (M : Type) := List M

/-- Appends at the back: `msg_queue::push_back`. -/
def msg_queue.push_back (q : msg_queue M) (m : M) : msg_queue M := q ++ [m]

/-- Oldest element: `msg_queue::front`. -/
def msg_queue.front (q : msg_queue M) : Option M := q.head?

/-- Drops the oldest element: `msg_queue::pop_front`. -/
def msg_queue.pop_front (q : msg_queue M) : msg_queue M := q.tail

/-- Emptiness test: `msg_queue::empty`. -/
def msg_queue.empty (q : msg_queue M) : Bool := q.isEmpty

/-- Number of stored elements: `msg_queue::size`. -/
def msg_queue.size (q : msg_queue M) : Nat := q.length

/-- Removes every element: `msg_queue::clear`. -/
def msg_queue.clear (_q : msg_queue M) : msg_queue M := []

/-- The closures the source hands to `delay_trig`.  `frame` identifies the
activation of the wait whose local `timeout` flag the closure captured by
reference. -/
inductive delay_cb where
  /-- The closure of `_timed_wait_msg`: sets `timeout` and calls `run_one`. -/
  | wait_timeout (frame : Nat)
  /-- The closure of `_timed_pump_msg`: if the actor has not quited, sets `timeOut`
  and calls `pull_yield`. -/
  | pump_timeout (frame : Nat)
  /-- Any other handler `h`. -/
  | handler (id : Nat)
  deriving DecidableEq, Repr

/-- Modelled from the spec: `timer_pck`, declared but not defined in the header.
The spec describes one outstanding delay per actor; `_h` is the pending callback. -/
structure timer_pck where
  _h : Option delay_cb
  deriving DecidableEq, Repr

/-- The fields of `my_actor` used by the waits.  `_timer` is the pointer to the timer
record (`none` for `NULL`).  `frames` counts the wait activations created so far,
`timeoutSet` lists the activations whose local timeout flag has been set, and
`resumes` counts how often the actor has been switched back in (`run_one`,
`pull_yield`). -/
structure my_actor where
  _selfID : Nat
  _quited : Bool
  _lockQuit : Nat
  _timer : Option timer_pck
  frames : Nat
  timeoutSet : List Nat
  resumes : Nat
  deriving DecidableEq, Repr

/-- State of `actor_msg_notifer`: the raw pointer to the handle (only its being
non-null matters), the host actor and the shared `closed` cell. -/
structure actor_msg_notifer where
  _msgHandle : Bool
  _hostActor : Option Nat
  _closed : Option Nat
  deriving DecidableEq, Repr

/-- State of `actor_trig_notifer`. -/
structure actor_trig_notifer where
  _trigHandle : Bool
  _hostActor : Option Nat
  _closed : Option Nat
  deriving DecidableEq, Repr

/-- State of `actor_msg_handle<T...>` together with the fields of its base class.
`_closed` is the index of the shared boolean cell, `_dstRef` the address of the
registered destination. -/
structure actor_msg_handle (M : Type) where
  _waiting : Bool
  _hostActor : Option Nat
  _closed : Option Nat
  _dstRef : Option Nat
  _msgBuff : msg_queue M

/-- State of `actor_trig_handle<T...>`.  `_msgBuff` is the raw storage of the single
slot: it holds a message exactly while one has been constructed in place. -/
structure actor_trig_handle (M : Type) where
  _waiting : Bool
  _hostActor : Option Nat
  _closed : Option Nat
  _dstRef : Option Nat
  _hasMsg : Bool
  _msgBuff : Option M

/-- A task posted on the host actor's strand. -/
inductive strand_task (M : Type) where
  /-- The lambda posted by `actor_msg_notifer::operator()`. -/
  | msg_notify (n : actor_msg_notifer) (m : M)
  /-- The lambda posted by `actor_trig_notifer::operator()`. -/
  | trig_notify (n : actor_trig_notifer) (m : M)
  /-- A handler posted by `delay_trig(0, h)`. -/
  | delay (h : delay_cb)

/-- A consuming actor with one mailbox and one trigger.
* `strand`: tasks posted on the actor's strand, oldest first;
* `closed`, `closedCount`: the boolean cells behind `std::shared_ptr<bool>` and how
  many have been allocated;
* `out`: the writes made through destination references, oldest first, as
  (address, message);
* `msgPushed`, `trigPushed`: the arguments of the calls of `push_msg` so far. -/
structure HostWorld (M : Type) where
  self : my_actor
  strand : List (strand_task M)
  closed : Nat → Bool
  closedCount : Nat
  out : List (Nat × M)
  msgPushed : List M
  trigPushed : List M
  amh : actor_msg_handle M
  ath : actor_trig_handle M

/-- Modelled from the spec: `actor_msg_handle_base::run_one` and `my_actor::run_one` /
`pull_yield`, defined in the absent `actor_framework.cpp`; they switch the suspended
host actor back in. -/
def my_actor.pull_yield (a : my_actor) : my_actor := { a with resumes := a.resumes + 1 }

/-- The host is resumed from a handle: `actor_msg_handle_base::run_one`. -/
def HostWorld.run_one (w : HostWorld M) : HostWorld M := { w with self := w.self.pull_yield }

/-- Constructor `actor_msg_handle(fixedSize)`. -/
def actor_msg_handle.new : actor_msg_handle M :=
  { _waiting := false, _hostActor := none, _closed := none, _dstRef := none, _msgBuff := [] }

/-- Constructor `actor_trig_handle()`. -/
def actor_trig_handle.new : actor_trig_handle M :=
  { _waiting := false, _hostActor := none, _closed := none, _dstRef := none,
    _hasMsg := false, _msgBuff := none }

/-- The method `actor_msg_handle::close`. -/
def actor_msg_handle.close (w : HostWorld M) : HostWorld M :=
  let closed := match w.amh._closed with
    | some c => Function.update w.closed c true
    | none => w.closed
  { w with
    closed := closed
    amh := { w.amh with _dstRef := none, _waiting := false,
                        _msgBuff := msg_queue.clear w.amh._msgBuff, _hostActor := none } }

/-- The method `actor_msg_handle::make_notifer`.  `set_actor` stores the host; the new
`closed` cell is the next free one and starts as `false`. -/
def actor_msg_handle.make_notifer (w : HostWorld M) (hostActor : Nat) :
    actor_msg_notifer × HostWorld M :=
  let w1 := actor_msg_handle.close w
  let c := w1.closedCount
  let w2 : HostWorld M :=
    { w1 with
      closed := Function.update w1.closed c false
      closedCount := c + 1
      amh := { w1.amh with _hostActor := some hostActor, _closed := some c, _waiting := false } }
  ({ _msgHandle := true, _hostActor := w2.amh._hostActor, _closed := w2.amh._closed }, w2)

/-- The method `actor_msg_handle::push_msg`. -/
def actor_msg_handle.push_msg (w : HostWorld M) (msg : M) : Except Err (HostWorld M) :=
  let w := { w with msgPushed := w.msgPushed ++ [msg] }
  if w.amh._waiting then
    if !(msg_queue.empty w.amh._msgBuff) then .error .assert_failed
    else match w.amh._dstRef with
      | none => .error .assert_failed
      | some d =>
        .ok (HostWorld.run_one
          { w with out := w.out ++ [(d, msg)]
                   amh := { w.amh with _waiting := false, _dstRef := none } })
  else
    .ok { w with amh := { w.amh with _msgBuff := msg_queue.push_back w.amh._msgBuff msg } }

/-- The method `actor_msg_handle::read_msg`; `dst` is the address of the destination. -/
def actor_msg_handle.read_msg (w : HostWorld M) (dst : Nat) : Bool × HostWorld M :=
  match msg_queue.front w.amh._msgBuff with
  | some m =>
    (true, { w with out := w.out ++ [(dst, m)]
                    amh := { w.amh with _msgBuff := msg_queue.pop_front w.amh._msgBuff } })
  | none =>
    (false, { w with amh := { w.amh with _dstRef := some dst, _waiting := true } })

/-- The method `actor_msg_handle::size`. -/
def actor_msg_handle.size (w : HostWorld M) : Nat := msg_queue.size w.amh._msgBuff

/-- The method `actor_trig_handle::close`. -/
def actor_trig_handle.close (w : HostWorld M) : HostWorld M :=
  let closed := match w.ath._closed with
    | some c => Function.update w.closed c true
    | none => w.closed
  { w with
    closed := closed
    ath := { w.ath with _hasMsg := false,
                        _msgBuff := if w.ath._hasMsg then none else w.ath._msgBuff,
                        _dstRef := none, _waiting := false, _hostActor := none } }

/-- The method `actor_trig_handle::make_notifer`. -/
def actor_trig_handle.make_notifer (w : HostWorld M) (hostActor : Nat) :
    actor_trig_notifer × HostWorld M :=
  let w1 := actor_trig_handle.close w
  let c := w1.closedCount
  let w2 : HostWorld M :=
    { w1 with
      closed := Function.update w1.closed c false
      closedCount := c + 1
      ath := { w1.ath with _hostActor := some hostActor, _closed := some c,
                           _waiting := false, _hasMsg := false } }
  ({ _trigHandle := true, _hostActor := w2.ath._hostActor, _closed := w2.ath._closed }, w2)

/-- The method `actor_trig_handle::push_msg`. -/
def actor_trig_handle.push_msg (w : HostWorld M) (msg : M) : Except Err (HostWorld M) :=
  match w.ath._closed with
  | none => .error .null_deref
  | some c =>
    let w := { w with trigPushed := w.trigPushed ++ [msg], closed := Function.update w.closed c true }
    if w.ath._waiting then
      match w.ath._dstRef with
      | none => .error .assert_failed
      | some d =>
        .ok (HostWorld.run_one
          { w with out := w.out ++ [(d, msg)]
                   ath := { w.ath with _waiting := false, _dstRef := none } })
    else
      .ok { w with ath := { w.ath with _hasMsg := true, _msgBuff := some msg } }

/-- The method `actor_trig_handle::read_msg`. -/
def actor_trig_handle.read_msg (w : HostWorld M) (dst : Nat) : Bool × HostWorld M :=
  if w.ath._hasMsg then
    (true, { w with out := w.out ++ (w.ath._msgBuff.toList.map fun m => (dst, m))
                    ath := { w.ath with _hasMsg := false, _msgBuff := none } })
  else
    (false, { w with ath := { w.ath with _dstRef := some dst, _waiting := true } })

/-- The call `actor_msg_notifer::operator()`: posts the guarded push on the host strand. -/
def actor_msg_notifer.call (n : actor_msg_notifer) (w : HostWorld M) (m : M) : HostWorld M :=
  { w with strand := w.strand ++ [.msg_notify n m] }

/-- The call `actor_trig_notifer::operator()`. -/
def actor_trig_notifer.call (n : actor_trig_notifer) (w : HostWorld M) (m : M) : HostWorld M :=
  { w with strand := w.strand ++ [.trig_notify n m] }

/-- Body of the lambda posted by `actor_msg_notifer::operator()`:
`if (!hostActor_->is_quited() && !(*closed_)) msgHandle_->push_msg(...)`. -/
def actor_msg_notifer.task (n : actor_msg_notifer) (w : HostWorld M) (m : M) :
    Except Err (HostWorld M) :=
  match n._hostActor, n._closed with
  | some _, some c =>
    if !w.self._quited && !(w.closed c) then
      if n._msgHandle then actor_msg_handle.push_msg w m else .error .null_deref
    else .ok w
  | _, _ => .error .null_deref

/-- Body of the lambda posted by `actor_trig_notifer::operator()`. -/
def actor_trig_notifer.task (n : actor_trig_notifer) (w : HostWorld M) (m : M) :
    Except Err (HostWorld M) :=
  match n._hostActor, n._closed with
  | some _, some c =>
    if !w.self._quited && !(w.closed c) then
      if n._trigHandle then actor_trig_handle.push_msg w m else .error .null_deref
    else .ok w
  | _, _ => .error .null_deref

/-! ### Timer, delayed triggers and the timed waits on a mailbox -/

/-- Modelled from the spec: `my_actor::time_out`, defined in the absent
`actor_framework.cpp`; it arms the actor's single timer slot with `h`. -/
def my_actor.time_out (a : my_actor) (_ms : Int) (h : delay_cb) : my_actor :=
  { a with _timer := a._timer.map fun _ => { _h := some h } }

/-- Modelled from the spec: `my_actor::cancel_delay_trig`, defined in the absent
`actor_framework.cpp`; it drops the pending timer.  A handler that `delay_trig`
posted on the strand is not a timer and is not touched. -/
def my_actor.cancel_delay_trig (a : my_actor) : my_actor :=
  { a with _timer := a._timer.map fun _ => { _h := none } }

/-- The method `my_actor::delay_trig(ms, h)`.  The result is the new actor state and,
for `ms == 0`, the handler that was posted on the actor's own strand. -/
def my_actor.delay_trig (a : my_actor) (ms : Int) (h : delay_cb) :
    Except Err (my_actor × Option delay_cb) :=
  if ms > 0 then
    match a._timer with
    | none => .error .assert_failed
    | some _ => .ok (a.time_out ms h, none)
  else if ms = 0 then .ok (a, some h)
  else .error .assert_failed

/-- Execution of a closure handed to `delay_trig`, on the actor's strand. -/
def my_actor.run_delay_cb (a : my_actor) : delay_cb → my_actor
  | .wait_timeout f => ({ a with timeoutSet := f :: a.timeoutSet }).pull_yield
  | .pump_timeout f =>
    if !a._quited then ({ a with timeoutSet := f :: a.timeoutSet }).pull_yield else a
  | .handler _ => a

/-- Modelled from the spec: expiry of the armed timer (`my_actor::expires_timer` is
declared only); the pending handler is taken out of the slot and run. -/
def my_actor.expires_timer (a : my_actor) : my_actor :=
  match a._timer with
  | some ⟨some h⟩ => ({ a with _timer := some ⟨none⟩ }).run_delay_cb h
  | _ => a

/-- Outcome of the part of a yielding method that runs before `push_yield`: it either
returned already, or the actor is suspended in activation `frame`. -/
inductive wait_result (W : Type) where
  | returned (r : Bool) (w : W)
  | yielded (frame : Nat) (w : W)

/-- The method `my_actor::_timed_wait_msg` for `AMH = actor_msg_handle`, up to
`push_yield()`. -/
def my_actor._timed_wait_msg_enter (w : HostWorld M) (dst : Nat) (tm : Int) :
    Except Err (wait_result (HostWorld M)) :=
  if w.amh._hostActor ≠ some w.self._selfID then .error .assert_failed
  else
    let rw := actor_msg_handle.read_msg w dst
    if rw.1 then .ok (.returned true rw.2)
    else
      let f := rw.2.self.frames
      let w2 : HostWorld M := { rw.2 with self := { rw.2.self with frames := f + 1 } }
      if tm ≥ 0 then
        match w2.self.delay_trig tm (.wait_timeout f) with
        | .error e => .error e
        | .ok (a, posted) =>
          .ok (.yielded f { w2 with self := a
                                    strand := w2.strand ++ posted.toList.map .delay })
      else .ok (.yielded f w2)

/-- The method `my_actor::_timed_wait_msg` for `AMH = actor_msg_handle`, from the
return of `push_yield()` on. -/
def my_actor._timed_wait_msg_resume (w : HostWorld M) (frame : Nat) (tm : Int) :
    Bool × HostWorld M :=
  if frame ∉ w.self.timeoutSet then
    (true, if tm ≥ 0 then { w with self := w.self.cancel_delay_trig } else w)
  else
    (false, { w with amh := { w.amh with _dstRef := none, _waiting := false } })

/-- The entry assertion `assert(amh._closed && !(*amh._closed))` of `timed_wait_msg`. -/
def my_actor.timed_wait_msg_assert (w : HostWorld M) : Bool :=
  match w.amh._closed with
  | some c => !(w.closed c)
  | none => false

/-- The method `my_actor::timed_wait_msg(tm, amh, r0)`, up to `push_yield()`. -/
def my_actor.timed_wait_msg_enter (w : HostWorld M) (dst : Nat) (tm : Int) :
    Except Err (wait_result (HostWorld M)) :=
  if my_actor.timed_wait_msg_assert w then my_actor._timed_wait_msg_enter w dst tm
  else .error .assert_failed

/-- Execution of one task of the host strand. -/
def HostWorld.run_task (w : HostWorld M) : strand_task M → Except Err (HostWorld M)
  | .msg_notify n m => n.task w m
  | .trig_notify n m => n.task w m
  | .delay h => .ok { w with self := w.self.run_delay_cb h }

/-- What can happen around a suspended host actor. -/
inductive HostEvent (M : Type) where
  /-- A producer invokes a mailbox notifier. -/
  | msg_send (n : actor_msg_notifer) (m : M)
  /-- A producer invokes a trigger notifier. -/
  | trig_send (n : actor_trig_notifer) (m : M)
  /-- The host strand runs its oldest task. -/
  | run_strand
  /-- The armed timer expires. -/
  | timer_expire

/-- Effect of one event. -/
def HostWorld.step (w : HostWorld M) : HostEvent M → Except Err (HostWorld M)
  | .msg_send n m => .ok (n.call w m)
  | .trig_send n m => .ok (n.call w m)
  | .run_strand =>
    match w.strand with
    | [] => .ok w
    | t :: ts => HostWorld.run_task { w with strand := ts } t
  | .timer_expire => .ok { w with self := w.self.expires_timer }

/-- The suspended activation `frame` of `_timed_wait_msg` while the events `es` happen:
the first event that switches the actor back in makes the wait return.  `none` means
the actor is still suspended after all of `es`. -/
def my_actor.await_msg (w : HostWorld M) (frame : Nat) (tm : Int) :
    List (HostEvent M) → Except Err (Option (Bool × HostWorld M))
  | [] => .ok none
  | e :: es =>
    match w.step e with
    | .error err => .error err
    | .ok w1 =>
      if w1.self.resumes ≠ w.self.resumes then
        .ok (some (my_actor._timed_wait_msg_resume w1 frame tm))
      else my_actor.await_msg w1 frame tm es

/-- A whole call `timed_wait_msg(tm, amh, r0)` with the events that happen while the
actor is suspended in it. -/
def my_actor.timed_wait_msg (w : HostWorld M) (dst : Nat) (tm : Int)
    (es : List (HostEvent M)) : Except Err (Option (Bool × HostWorld M)) :=
  match my_actor.timed_wait_msg_enter w dst tm with
  | .error e => .error e
  | .ok (.returned r w1) => .ok (some (r, w1))
  | .ok (.yielded f w1) => my_actor.await_msg w1 f tm es

/-- The method `my_actor::wait_msg(amh, r0)`: `timed_wait_msg(-1, amh, r0)`. -/
def my_actor.wait_msg (w : HostWorld M) (dst : Nat) (es : List (HostEvent M)) :
    Except Err (Option (Bool × HostWorld M)) :=
  my_actor.timed_wait_msg w dst (-1) es

/-! ### Scenario functions for the mailbox and the trigger -/

/-- Calls `push_msg` for every message of `ms`, in order. -/
def actor_msg_handle.push_all (w : HostWorld M) : List M → Except Err (HostWorld M)
  | [] => .ok w
  | m :: ms =>
    match actor_msg_handle.push_msg w m with
    | .error e => .error e
    | .ok w1 => actor_msg_handle.push_all w1 ms

/-- Calls `read_msg` once for every destination of `ds`, in order, and collects the
returned booleans. -/
def actor_msg_handle.read_all (w : HostWorld M) : List Nat → List Bool × HostWorld M
  | [] => ([], w)
  | d :: ds =>
    let rw := actor_msg_handle.read_msg w d
    let rest := actor_msg_handle.read_all rw.2 ds
    (rw.1 :: rest.1, rest.2)

/-- What can happen to a trigger handle after `make_notifer` returned `n`. -/
inductive TrigEvent (M : Type) where
  /-- The notifier is invoked with `m`. -/
  | fire (m : M)
  /-- The host strand runs its oldest task. -/
  | run
  /-- The consumer, not suspended, calls `read_msg` with destination `dst`. -/
  | read (dst : Nat)
  /-- The consumer's wait ends by timeout: `_dstRef = NULL; _waiting = false`. -/
  | timeout
  /-- The host actor quits. -/
  | quit

/-- Effect of one trigger event.  A `read` while the consumer is suspended and a
`timeout` while it is not cannot happen and leave the state as it is. -/
def actor_trig_handle.step (n : actor_trig_notifer) (w : HostWorld M) :
    TrigEvent M → Except Err (HostWorld M)
  | .fire m => .ok (n.call w m)
  | .run =>
    match w.strand with
    | [] => .ok w
    | t :: ts => HostWorld.run_task { w with strand := ts } t
  | .read dst => .ok (if w.ath._waiting then w else (actor_trig_handle.read_msg w dst).2)
  | .timeout =>
    .ok (if w.ath._waiting then { w with ath := { w.ath with _dstRef := none, _waiting := false } }
         else w)
  | .quit => .ok { w with self := { w.self with _quited := true } }

/-- Effect of a sequence of trigger events. -/
def actor_trig_handle.run (n : actor_trig_notifer) (w : HostWorld M) :
    List (TrigEvent M) → Except Err (HostWorld M)
  | [] => .ok w
  | e :: es =>
    match actor_trig_handle.step n w e with
    | .error err => .error err
    | .ok w1 => actor_trig_handle.run n w1 es

/-- The messages of the `fire` events of a trace, in order. -/
def TrigEvent.fired : List (TrigEvent M) → List M
  | [] => []
  | .fire m :: es => m :: TrigEvent.fired es
  | _ :: es => TrigEvent.fired es


/-- A newly created actor `selfID` with an open, idle timer, one unused mailbox and one
unused trigger: nothing posted, nothing written, no `closed` cell allocated. -/
def HostWorld.create (selfID : Nat) : HostWorld M :=
  { self := { _selfID := selfID, _quited := false, _lockQuit := 0, _timer := some ⟨none⟩,
              frames := 0, timeoutSet := [], resumes := 0 }
    strand := [], closed := fun _ => false, closedCount := 0, out := [],
    msgPushed := [], trigPushed := []
    amh := actor_msg_handle.new, ath := actor_trig_handle.new }


/-! ### Pump and pool -/

/-- The linkage `msg_pool::pump_handler`: the pool and the pump it connects, as object
identities (`none` for an empty `shared_ptr`). -/
structure pump_handler where
  _thisPool : Option Nat
  _msgPump : Option Nat
  deriving DecidableEq, Repr

/-- The method `pump_handler::empty`. -/
def pump_handler.empty (ph : pump_handler) : Bool := ph._thisPool.isNone

/-- The method `pump_handler::clear`. -/
def pump_handler.clear (_ph : pump_handler) : pump_handler :=
  { _thisPool := none, _msgPump := none }

/-- State of `msg_pump<T...>`.  `_msgSpace` is the raw storage of the stash slot;
`_pumpCount` is a `BYTE`. -/
structure msg_pump (M : Type) where
  _hostActor : Option Nat
  _msgSpace : Option M
  _pumpHandler : pump_handler
  _dstRef : Option Nat
  _pumpCount : Nat
  _hasMsg : Bool
  _waiting : Bool
  _checkDis : Bool

/-- State of `msg_pool<T...>`.  `_msgPump` is the identity of the connected pump;
`_sendCount` is a `BYTE`. -/
structure msg_pool (M : Type) where
  _msgPump : Option Nat
  _msgBuff : msg_queue M
  _sendCount : Nat
  _waiting : Bool

/-- The factory `msg_pump::make(hostActor)`. -/
def msg_pump.make (hostActor : Nat) : msg_pump M :=
  { _hostActor := some hostActor, _msgSpace := none, _pumpHandler := ⟨none, none⟩,
    _dstRef := none, _pumpCount := 0, _hasMsg := false, _waiting := false, _checkDis := false }

/-- The factory `msg_pool::make(strand, fixedSize)`. -/
def msg_pool.make : msg_pool M :=
  { _msgPump := none, _msgBuff := [], _sendCount := 0, _waiting := false }

/-- The method `msg_pool::connect_pump(msgPump)`; `thisPool` is the pool's own identity
(`_weakThis.lock()`). -/
def msg_pool.connect_pump (p : msg_pool M) (thisPool msgPump : Nat) :
    pump_handler × msg_pool M :=
  ({ _thisPool := some thisPool, _msgPump := some msgPump },
   { p with _msgPump := some msgPump, _sendCount := 0, _waiting := false })

/-- The method `msg_pool::disconnect`. -/
def msg_pool.disconnect (p : msg_pool M) : msg_pool M :=
  { p with _msgPump := none, _waiting := false }

/-- The method `msg_pump::connect(pumpHandler)`.  The second component is the request
`post_pump(_pumpCount)` posted on the pool strand when the pump is waiting. -/
def msg_pump.connect (p : msg_pump M) (ph : pump_handler) :
    msg_pump M × Option (pump_handler × Nat) :=
  if p._hostActor.isSome then
    (({ p with _pumpHandler := ph, _pumpCount := 0 } : msg_pump M),
      if p._waiting then some (ph, 0) else none)
  else (p, none)

/-- The method `msg_pump::clear`.  `debug` says whether assertions are compiled in; the
boolean result says whether `run_one()` was called. -/
def msg_pump.clear (debug : Bool) (p : msg_pump M) : Except Err (msg_pump M × Bool) :=
  if debug && p._hostActor.isNone then .error .assert_failed
  else
    let p1 : msg_pump M := { p with _pumpHandler := p._pumpHandler.clear }
    if p1._checkDis then
      if debug && !p1._waiting then .error .assert_failed
      else .ok ({ p1 with _waiting := false, _dstRef := none }, true)
    else .ok (p1, false)

/-- The method `msg_pump::close`. -/
def msg_pump.close (p : msg_pump M) : msg_pump M :=
  { p with _msgSpace := if p._hasMsg then none else p._msgSpace, _hasMsg := false,
           _dstRef := none, _pumpCount := 0, _waiting := false, _checkDis := false,
           _pumpHandler := p._pumpHandler.clear, _hostActor := none }

/-- The method `msg_pump::isDisconnected`. -/
def msg_pump.isDisconnected (p : msg_pump M) : Bool := p._pumpHandler.empty

/-- A task posted on the pool strand or on the pump strand. -/
inductive chan_task (M : Type) where
  /-- Posted by `msg_pool::push_msg`: runs `send_msg(mt, false)`. -/
  | send_msg (mt : M)
  /-- Posted by `pump_handler::operator()` or `post_pump`: runs the handler again. -/
  | pump_handler (ph : pump_handler) (pumpID : Nat)
  /-- Posted by `msg_pump::receive_msg_post`: runs `receiver(msg)`. -/
  | receiver (msg : M)
  /-- A handler posted by `delay_trig(0, h)`. -/
  | delay (h : delay_cb)

/-- One pool, one pump, the pump's host actor and the two strands.
* `debug`: assertions are compiled in;
* `sameStrand`: the pool lives on the strand of the pump's host actor; then `poolQ` is
  the queue of that one strand and `pumpQ` stays empty;
* `prodInPool`: the producer calls `push_msg` from a task of the pool strand;
* `poolId`, `pumpId`: the identities of the two objects;
* `out`: the writes made through destination references, oldest first;
* `pushed`: the arguments of the calls of `push_msg`, oldest first. -/
structure Sys (M : Type) where
  debug : Bool
  sameStrand : Bool
  prodInPool : Bool
  poolId : Nat
  pumpId : Nat
  pool : msg_pool M
  pump : msg_pump M
  host : my_actor
  poolQ : List (chan_task M)
  pumpQ : List (chan_task M)
  out : List (Nat × M)
  pushed : List M

/-- Posts a task on the pool strand. -/
def Sys.post_pool (s : Sys M) (t : chan_task M) : Sys M := { s with poolQ := s.poolQ ++ [t] }

/-- Posts a task on the pump strand. -/
def Sys.post_pump (s : Sys M) (t : chan_task M) : Sys M :=
  if s.sameStrand then { s with poolQ := s.poolQ ++ [t] } else { s with pumpQ := s.pumpQ ++ [t] }

/-- The method `msg_pump::receiver(msg)`. -/
def msg_pump.receiver (s : Sys M) (msg : M) : Except Err (Sys M) :=
  if s.pump._hostActor.isSome then
    if s.debug && s.pump._hasMsg then .error .assert_failed
    else
      let s1 : Sys M := { s with pump := { s.pump with _pumpCount := (s.pump._pumpCount + 1) % 256 } }
      match s1.pump._dstRef with
      | some d =>
        let s2 : Sys M := { s1 with out := s1.out ++ [(d, msg)]
                                    pump := { s1.pump with _dstRef := none } }
        if s2.pump._waiting then
          .ok { s2 with pump := { s2.pump with _waiting := false, _checkDis := false }
                        host := s2.host.pull_yield }
        else .ok s2
      | none =>
        if s1.debug && s1.pump._waiting then .error .assert_failed
        else .ok { s1 with pump := { s1.pump with _hasMsg := true, _msgSpace := some msg } }
  else .ok s

/-- The method `msg_pump::receive_msg_post(msg)`. -/
def msg_pump.receive_msg_post (s : Sys M) (msg : M) : Sys M := s.post_pump (.receiver msg)

/-- The method `msg_pump::receive_msg(msg)`, called from a task of the pool strand: the
pump strand is running in this thread exactly when it is the pool strand. -/
def msg_pump.receive_msg (s : Sys M) (msg : M) : Except Err (Sys M) :=
  if s.sameStrand then msg_pump.receiver s msg else .ok (msg_pump.receive_msg_post s msg)

/-- A call through the pool's pointer `_msgPump`: a null pointer cannot be followed, and
a pump other than the one of this system is outside of it. -/
def msg_pool.with_pump (s : Sys M) (f : Sys M → Except Err (Sys M)) : Except Err (Sys M) :=
  match s.pool._msgPump with
  | none => .error .null_deref
  | some p => if p = s.pumpId then f s else .ok s

/-- The call `pump_handler::operator()(pumpID)`; `inPoolStrand` says whether the pool
strand is running in the calling thread.  Both counters are `BYTE`s, and the second
assertion is evaluated after integer promotion, so `pumpID + 1` is not reduced. -/
def pump_handler.call (s : Sys M) (ph : pump_handler) (pumpID : Nat) (inPoolStrand : Bool) :
    Except Err (Sys M) :=
  match ph._thisPool with
  | none => .error (if s.debug then .assert_failed else .null_deref)
  | some pl =>
    if pl ≠ s.poolId then .ok s
    else if inPoolStrand then
      if ph._msgPump = s.pool._msgPump then
        if pumpID = s.pool._sendCount then
          match s.pool._msgBuff with
          | mt :: rest =>
            msg_pool.with_pump
              { s with pool := { s.pool with _msgBuff := rest
                                             _sendCount := (s.pool._sendCount + 1) % 256 } }
              (fun s1 => msg_pump.receive_msg s1 mt)
          | [] => .ok { s with pool := { s.pool with _waiting := true } }
        else
          if s.debug && (s.pool._waiting || !(pumpID + 1 == s.pool._sendCount)) then
            .error .assert_failed
          else .ok s
      else .ok s
    else .ok (s.post_pool (.pump_handler ph pumpID))

/-- The method `pump_handler::post_pump(pumpID)`. -/
def pump_handler.post_pump (s : Sys M) (ph : pump_handler) (pumpID : Nat) : Sys M :=
  s.post_pool (.pump_handler ph pumpID)

/-- The method `msg_pump::read_msg(dst)`, called by the host actor on the pump strand. -/
def msg_pump.read_msg (s : Sys M) (dst : Nat) : Except Err (Bool × Sys M) :=
  if s.debug && (s.pump._dstRef.isSome || s.pump._waiting) then .error .assert_failed
  else if s.pump._hasMsg then
    .ok (true, { s with out := s.out ++ s.pump._msgSpace.toList.map (fun m => (dst, m))
                        pump := { s.pump with _hasMsg := false, _msgSpace := none } })
  else
    let s1 : Sys M := { s with pump := { s.pump with _dstRef := some dst } }
    if !s1.pump._pumpHandler.empty then
      match pump_handler.call s1 s1.pump._pumpHandler s1.pump._pumpCount s1.sameStrand with
      | .error e => .error e
      | .ok s2 =>
        .ok (!s2.pump._dstRef.isSome,
             { s2 with pump := { s2.pump with _waiting := s2.pump._dstRef.isSome } })
    else .ok (false, { s1 with pump := { s1.pump with _waiting := true } })

/-- The method `msg_pool::send_msg(mt, post)`. -/
def msg_pool.send_msg (s : Sys M) (mt : M) (post : Bool) : Except Err (Sys M) :=
  if s.pool._waiting then
    if s.debug && s.pool._msgPump.isNone then .error .assert_failed
    else
      let s1 : Sys M :=
        { s with pool := { s.pool with _waiting := false
                                       _sendCount := (s.pool._sendCount + 1) % 256 } }
      match s1.pool._msgBuff with
      | [] =>
        msg_pool.with_pump s1 (fun s2 =>
          if post then .ok (msg_pump.receive_msg_post s2 mt) else msg_pump.receive_msg s2 mt)
      | front :: rest =>
        msg_pool.with_pump
          { s1 with pool := { s1.pool with
              _msgBuff := msg_queue.pop_front (msg_queue.push_back (front :: rest) mt) } }
          (fun s2 =>
            if post then .ok (msg_pump.receive_msg_post s2 front)
            else msg_pump.receive_msg s2 front)
  else
    .ok { s with pool := { s.pool with _msgBuff := msg_queue.push_back s.pool._msgBuff mt } }

/-- The method `msg_pool::push_msg(mt)`, called by the producer. -/
def msg_pool.push_msg (s : Sys M) (mt : M) : Except Err (Sys M) :=
  let s1 : Sys M := { s with pushed := s.pushed ++ [mt] }
  if s1.prodInPool then msg_pool.send_msg s1 mt true
  else .ok (s1.post_pool (.send_msg mt))

/-- The pump is cleared on its strand: `msg_pump::clear`, with `run_one` resuming the host. -/
def Sys.clear (s : Sys M) : Except Err (Sys M) :=
  match msg_pump.clear s.debug s.pump with
  | .error e => .error e
  | .ok (p, resumed) =>
    .ok { s with pump := p, host := if resumed then s.host.pull_yield else s.host }

/-- Execution of one task. -/
def Sys.run_task (s : Sys M) : chan_task M → Except Err (Sys M)
  | .send_msg mt => msg_pool.send_msg s mt false
  | .pump_handler ph pumpID => pump_handler.call s ph pumpID true
  | .receiver msg => msg_pump.receiver s msg
  | .delay h => .ok { s with host := s.host.run_delay_cb h }

/-- A pool and a pump that have just been made, not yet connected. -/
def Sys.create (debug sameStrand prodInPool : Bool) (poolId pumpId hostActor : Nat) : Sys M :=
  { debug := debug, sameStrand := sameStrand, prodInPool := prodInPool
    poolId := poolId, pumpId := pumpId
    pool := msg_pool.make, pump := msg_pump.make hostActor
    host := { _selfID := hostActor, _quited := false, _lockQuit := 0, _timer := some ⟨none⟩,
              frames := 0, timeoutSet := [], resumes := 0 }
    poolQ := [], pumpQ := [], out := [], pushed := [] }

/-- The connection made by the chain operations: `connect_pump` on the pool strand, then
`connect` on the pump strand. -/
def Sys.connect (s : Sys M) : Sys M :=
  let pc := s.pool.connect_pump s.poolId s.pumpId
  let uc := s.pump.connect pc.1
  let s1 : Sys M := { s with pool := pc.2, pump := uc.1 }
  match uc.2 with
  | some (ph, pumpID) => pump_handler.post_pump s1 ph pumpID
  | none => s1

/-- What can happen to a connected pool and pump. -/
inductive ChanEvent (M : Type) where
  /-- The producer calls `push_msg(m)` on the pool. -/
  | push (m : M)
  /-- The pool strand runs its oldest task. -/
  | run_pool
  /-- The pump strand runs its oldest task. -/
  | run_pump
  /-- The reader, not suspended, calls `read_msg` with destination `dst`. -/
  | read (dst : Nat)
  /-- The suspended reader's wait times out: the timeout exit of `_timed_pump_msg`. -/
  | timeout

/-- Effect of one event.  The reader is suspended exactly while the pump is `_waiting`;
a `read` while it is suspended and a `timeout` while it is not cannot happen and leave
the state as it is. -/
def Sys.step (s : Sys M) : ChanEvent M → Except Err (Sys M)
  | .push m => msg_pool.push_msg s m
  | .run_pool =>
    match s.poolQ with
    | [] => .ok s
    | t :: ts => Sys.run_task { s with poolQ := ts } t
  | .run_pump =>
    match s.pumpQ with
    | [] => .ok s
    | t :: ts => Sys.run_task { s with pumpQ := ts } t
  | .read dst =>
    if s.pump._waiting then .ok s
    else
      match msg_pump.read_msg s dst with
      | .error e => .error e
      | .ok rs => .ok rs.2
  | .timeout =>
    if s.pump._waiting then
      .ok { s with pump := { s.pump with _checkDis := false, _waiting := false, _dstRef := none } }
    else .ok s

/-- Effect of a sequence of events; a failed assertion ends the run. -/
def Sys.run (s : Sys M) : List (ChanEvent M) → Except Err (Sys M)
  | [] => .ok s
  | e :: es =>
    match s.step e with
    | .error err => .error err
    | .ok s1 => Sys.run s1 es

/-- The messages of the `push` events of a trace, in order. -/
def ChanEvent.pushes : List (ChanEvent M) → List M
  | [] => []
  | .push m :: es => m :: ChanEvent.pushes es
  | _ :: es => ChanEvent.pushes es

/-- The messages handed to the reader so far, oldest first. -/
def Sys.handed (s : Sys M) : List M := s.out.map Prod.snd

/-- The start of the traces: the pool is made, `pre` is pushed onto it by a producer of
its strand before any pump is connected, the pump is made, and the two are connected. -/
def Sys.start (debug sameStrand prodInPool : Bool) (poolId pumpId hostActor : Nat)
    (pre : List M) : Sys M :=
  let s0 : Sys M := Sys.create debug sameStrand prodInPool poolId pumpId hostActor
  Sys.connect { s0 with pool := { s0.pool with _msgBuff := s0.pool._msgBuff ++ pre }
                        pushed := pre }


/-! ### Timed wait on a pump -/

/-- Outcome of a part of `_timed_pump_msg`: it returned `r`, or the actor is suspended
in activation `frame`, or `pump_disconnected_exception` was thrown. -/
inductive pump_wait_result (M : Type) where
  | returned (r : Bool) (s : Sys M)
  | yielded (frame : Nat) (s : Sys M)
  | thrown (s : Sys M)

/-- The method `my_actor::_timed_pump_msg(pump, dstRef, tm, checkDis)`, up to
`push_yield()`. -/
def my_actor._timed_pump_msg_enter (s : Sys M) (dst : Nat) (tm : Int) (checkDis : Bool) :
    Except Err (pump_wait_result M) :=
  if s.debug && !(s.pump._hostActor == some s.host._selfID) then .error .assert_failed
  else
    match msg_pump.read_msg s dst with
    | .error e => .error e
    | .ok rs =>
      if rs.1 then .ok (.returned true rs.2)
      else if checkDis && rs.2.pump.isDisconnected then
        .ok (.thrown { rs.2 with pump := { rs.2.pump with _waiting := false, _dstRef := none } })
      else
        let f := rs.2.host.frames
        let s2 : Sys M := { rs.2 with pump := { rs.2.pump with _checkDis := checkDis }
                                      host := { rs.2.host with frames := f + 1 } }
        if tm ≥ 0 then
          match s2.host.delay_trig tm (.pump_timeout f) with
          | .error e => .error e
          | .ok ap =>
            let s3 : Sys M := { s2 with host := ap.1 }
            .ok (.yielded f (match ap.2 with
              | some h => s3.post_pump (.delay h)
              | none => s3))
        else .ok (.yielded f s2)

/-- The method `my_actor::_timed_pump_msg`, from the return of `push_yield()` on. -/
def my_actor._timed_pump_msg_resume (s : Sys M) (frame : Nat) (tm : Int) (checkDis : Bool) :
    Except Err (pump_wait_result M) :=
  if frame ∉ s.host.timeoutSet then
    let s1 : Sys M := if tm ≥ 0 then { s with host := s.host.cancel_delay_trig } else s
    if s1.pump._checkDis then
      if s1.debug && !checkDis then .error .assert_failed
      else .ok (.thrown { s1 with pump := { s1.pump with _checkDis := false } })
    else .ok (.returned true s1)
  else
    .ok (.returned false
      { s with pump := { s.pump with _checkDis := false, _waiting := false, _dstRef := none } })

/-- The timeout closure of activation `frame` of `_timed_pump_msg` is still going to
run: it is armed in the actor's timer or queued on a strand. -/
def Sys.timeout_pending (s : Sys M) (frame : Nat) : Prop :=
  s.host._timer = some ⟨some (.pump_timeout frame)⟩ ∨
  chan_task.delay (.pump_timeout frame) ∈ s.poolQ ++ s.pumpQ


/-! ### Delegation chain -/

/-- State of `msg_pool_status::pck<T...>` with its base `pck_base`: the head flag and
the identities of the packet's pool, of its pump and of the next packet of the chain. -/
structure pck where
  _isHead : Bool
  _msgPool : Option Nat
  _msgPump : Option Nat
  _next : Option Nat
  deriving DecidableEq, Repr

/-- Constructor `pck(strand)`. -/
def pck.new : pck := { _isHead := true, _msgPool := none, _msgPump := none, _next := none }

/-- What a chain operation does to the packet mutexes and to the quit lock. -/
inductive chain_event where
  | lock (pck : Nat)
  | unlock (pck : Nat)
  | lock_quit
  | unlock_quit
  deriving DecidableEq, Repr

/-- The actors of a program and their packets of one message type `T...`.
* `debug`: assertions are compiled in;
* `pcks a`: the type-`T` packet of actor `a` (what `a->msg_pool_pck<T...>()` returns); an
  actor that has not used the type has the packet as `pck(strand)` makes it;
* `pools`, `pumps`: the pool and pump objects by identity; `poolCount` is the next unused
  pool identity;
* `parent a`: `a->parent_actor()`; `quited a`: `a->is_quited()`;
* `posted`: the pump requests posted on pool strands by `msg_pump::connect`;
* `resumed`: the pumps whose host actor `msg_pump::clear` has resumed;
* `log`: the mutex and quit-lock operations so far, oldest first;
* `pumpCount`: the next unused pump identity;
* `dispatched`: the messages that pools have handed to `receive_msg` of their connected
  pump, oldest first, each with the identity of that pump. -/
structure ChainWorld (M : Type) where
  debug : Bool
  pcks : Nat → pck
  pools : Nat → msg_pool M
  pumps : Nat → msg_pump M
  poolCount : Nat
  parent : Nat → Option Nat
  quited : Nat → Bool
  posted : List (pump_handler × Nat)
  resumed : List Nat
  log : List chain_event
  pumpCount : Nat
  dispatched : List (Nat × M)

/-- The method `pck_base::lock(self)`. -/
def ChainWorld.lock (w : ChainWorld M) (k : Nat) : ChainWorld M :=
  { w with log := w.log ++ [.lock k] }

/-- The method `pck_base::unlock(self)`. -/
def ChainWorld.unlock (w : ChainWorld M) (k : Nat) : ChainWorld M :=
  { w with log := w.log ++ [.unlock k] }

/-- Modelled from the spec: `my_actor::lock_quit`, defined in the absent
`actor_framework.cpp`: the quit-lock depth goes up by one. -/
def ChainWorld.lock_quit (w : ChainWorld M) : ChainWorld M :=
  { w with log := w.log ++ [.lock_quit] }

/-- Modelled from the spec: `my_actor::unlock_quit`: the quit-lock depth goes down by one. -/
def ChainWorld.unlock_quit (w : ChainWorld M) : ChainWorld M :=
  { w with log := w.log ++ [.unlock_quit] }

/-- The assignment `pck->_msgPool = p`. -/
def ChainWorld.set_pool (w : ChainWorld M) (k : Nat) (p : Option Nat) : ChainWorld M :=
  { w with pcks := Function.update w.pcks k { w.pcks k with _msgPool := p } }

/-- The assignment `pck->_next = n`. -/
def ChainWorld.set_next (w : ChainWorld M) (k : Nat) (n : Option Nat) : ChainWorld M :=
  { w with pcks := Function.update w.pcks k { w.pcks k with _next := n } }

/-- The assignment `pck->_isHead = b`. -/
def ChainWorld.set_head (w : ChainWorld M) (k : Nat) (b : Bool) : ChainWorld M :=
  { w with pcks := Function.update w.pcks k { w.pcks k with _isHead := b } }

/-- The call `msgPool_->disconnect()` sent to the pool's strand. -/
def ChainWorld.pool_disconnect (w : ChainWorld M) (pl : Nat) : ChainWorld M :=
  { w with pools := Function.update w.pools pl (w.pools pl).disconnect }

/-- The call `msgPump_->clear()` sent to the pump's strand. -/
def ChainWorld.pump_clear (w : ChainWorld M) (pm : Nat) : Except Err (ChainWorld M) :=
  match msg_pump.clear w.debug (w.pumps pm) with
  | .error e => .error e
  | .ok pr =>
    .ok { w with pumps := Function.update w.pumps pm pr.1
                 resumed := if pr.2 then w.resumed ++ [pm] else w.resumed }

/-- The two calls by which `update_msg_list` connects the pump `pm` to the pool `np`:
`newPool->connect_pump(msgPump_)` on the pool's strand, then, on the pump's strand,
`msgPump_->connect(ph)` if the pump has a host actor that has not quited. -/
def ChainWorld.pump_connect (w : ChainWorld M) (np pm : Nat) : ChainWorld M :=
  let pc := (w.pools np).connect_pump np pm
  let w1 : ChainWorld M := { w with pools := Function.update w.pools np pc.2 }
  match (w1.pumps pm)._hostActor with
  | some a =>
    if !(w1.quited a) then
      let uc := (w1.pumps pm).connect pc.1
      { w1 with pumps := Function.update w1.pumps pm uc.1
                posted := w1.posted ++ uc.2.toList }
    else w1
  | none => w1

/-- The method `my_actor::clear_msg_list(msgPck)`.  `fuel` bounds the depth of the
recursion, as the actor's stack does (`check_stack`). -/
def my_actor.clear_msg_list : Nat → ChainWorld M → Nat → Except Err (ChainWorld M)
  | 0, _, _ => .error .out_of_fuel
  | fuel + 1, w, msgPck =>
    match (w.pcks msgPck)._next with
    | some nx =>
      match my_actor.clear_msg_list fuel (w.lock nx) nx with
      | .error e => .error e
      | .ok w1 =>
        match (w1.pcks msgPck)._next with
        | none => .error .null_deref
        | some nx1 => .ok ((w1.unlock nx1).set_pool msgPck none)
    | none =>
      let w1 : ChainWorld M :=
        match (w.pcks msgPck)._msgPool with
        | some pl => w.pool_disconnect pl
        | none => w
      match (w1.pcks msgPck)._msgPump with
      | some pm =>
        match w1.pump_clear pm with
        | .error e => .error e
        | .ok w2 => .ok (w2.set_pool msgPck none)
      | none => .ok (w1.set_pool msgPck none)

/-- The method `my_actor::update_msg_list(msgPck, newPool)`. -/
def my_actor.update_msg_list : Nat → ChainWorld M → Nat → Option Nat → Except Err (ChainWorld M)
  | 0, _, _, _ => .error .out_of_fuel
  | fuel + 1, w, msgPck, newPool =>
    match (w.pcks msgPck)._next with
    | some nx =>
      match my_actor.update_msg_list fuel (w.lock nx) nx newPool with
      | .error e => .error e
      | .ok w1 =>
        match (w1.pcks msgPck)._next with
        | none => .error .null_deref
        | some nx1 => .ok ((w1.unlock nx1).set_pool msgPck newPool)
    | none =>
      let w1 : ChainWorld M :=
        match (w.pcks msgPck)._msgPool with
        | some pl => w.pool_disconnect pl
        | none => w
      match (w1.pcks msgPck)._msgPump with
      | some pm =>
        match newPool with
        | some np => .ok ((w1.pump_connect np pm).set_pool msgPck newPool)
        | none =>
          match w1.pump_clear pm with
          | .error e => .error e
          | .ok w2 => .ok (w2.set_pool msgPck newPool)
      | none => .ok (w1.set_pool msgPck newPool)

/-- The method `my_actor::msg_agent_to<T...>(childActor)` called by actor `self`. -/
def my_actor.msg_agent_to (fuel : Nat) (w : ChainWorld M) (self childActor : Nat) :
    Except Err (ChainWorld M) :=
  if w.parent childActor = some self then
    let msgPck := self
    let w0 : ChainWorld M := (w.lock_quit).lock msgPck
    let cleared : Except Err (ChainWorld M) :=
      match (w0.pcks msgPck)._next with
      | some nx =>
        match my_actor.clear_msg_list fuel (w0.lock nx) nx with
        | .error e => .error e
        | .ok w1 =>
          match (w1.pcks msgPck)._next with
          | none => .error .null_deref
          | some nx1 => .ok (w1.unlock nx1)
      | none => .ok w0
    match cleared with
    | .error e => .error e
    | .ok w1 =>
      let childPck := childActor
      let w2 : ChainWorld M := w1.set_next msgPck (some childPck)
      let w3 : ChainWorld M := w2.lock childPck
      let w4 : ChainWorld M := w3.set_head childPck false
      match my_actor.update_msg_list fuel w4 childPck (w4.pcks msgPck)._msgPool with
      | .error e => .error e
      | .ok w5 => .ok (((w5.unlock childPck).unlock msgPck).unlock_quit)
  else if w.debug then .error .assert_failed else .ok w

/-- The packets reached from `k` through `_next`, `k` first, if the last one is reached
within `fuel` steps. -/
def pck.chain (pcks : Nat → pck) : Nat → Nat → Option (List Nat)
  | 0, _ => none
  | fuel + 1, k =>
    match (pcks k)._next with
    | none => some [k]
    | some nx => (pck.chain pcks fuel nx).map (k :: ·)


/-! ### Predicates used by the statements and their invariants -/

/-- Invariant of a trigger after `make_notifer` returned the notifier `n` with cell `c`:
`F` are the messages fired so far, `out0` and `pushed0` the logs at `make_notifer`. -/
structure TrigInv (n : actor_trig_notifer) (c : Nat) (out0 : List (Nat × M))
    (pushed0 : List M) (F : List M) (w : HostWorld M) : Prop where
  notifier : n._trigHandle = true ∧ n._closed = some c
  host : n._hostActor.isSome = true
  cell : w.ath._closed = some c
  dst : w.ath._waiting = true → w.ath._dstRef.isSome = true
  noStash : w.ath._waiting = true → w.ath._hasMsg = false
  queue : ∃ done pending, F = done ++ pending ∧
    w.strand = pending.map (strand_task.trig_notify n) ∧
    ((w.trigPushed = pushed0 ∧ w.closed c = false ∧ w.ath._hasMsg = false ∧ w.out = out0 ∧
        (done ≠ [] → w.self._quited = true)) ∨
     (∃ m r, F.head? = some m ∧ w.trigPushed = pushed0 ++ [m] ∧ w.closed c = true ∧
        w.out = out0 ++ r ∧
        r.map Prod.snd ++ (if w.ath._hasMsg then w.ath._msgBuff.toList else []) = [m]))

/-- A mailbox notifier none of whose members is null. -/
def actor_msg_notifer.valid (n : actor_msg_notifer) : Prop :=
  n._msgHandle = true ∧ n._hostActor.isSome = true ∧ n._closed.isSome = true

/-- The task is the posted lambda of a valid mailbox notifier. -/
def strand_task.is_msg : strand_task M → Prop
  | .msg_notify n _ => n.valid
  | _ => False

/-- The task is the posted lambda of a valid mailbox notifier or the timeout closure of
the wait activation `frame`. -/
def strand_task.is_msg_or_timeout (frame : Nat) : strand_task M → Prop
  | .msg_notify n _ => n.valid
  | .delay h => h = .wait_timeout frame
  | _ => False

/-- The event is a send through a valid mailbox notifier, a strand step or a timer
expiry. -/
def HostEvent.is_msg : HostEvent M → Prop
  | .msg_send n _ => n.valid
  | .trig_send _ _ => False
  | _ => True

/-- What `timed_wait_msg` requires of its caller: the handle belongs to the calling actor
and has a notifier that is not closed (the entry assertions), no consumer is registered,
the actor's timer exists and no delayed trigger is pending (`delay_trig` must not be
called again before the previous one has fired), the strand holds only notifier tasks,
and the activation about to be created is new. -/
structure WaitReady (w : HostWorld M) : Prop where
  host : w.amh._hostActor = some w.self._selfID
  opened : my_actor.timed_wait_msg_assert w = true
  idle : w.amh._waiting = false
  timer : w.self._timer = some ⟨none⟩
  tasks : ∀ t ∈ w.strand, t.is_msg
  frames : ∀ f ∈ w.self.timeoutSet, f < w.self.frames

/-- State of the world while the actor of `w0` is suspended in the activation
`w0.self.frames` of `_timed_wait_msg` with destination `dst`. -/
structure AwaitInv (w0 : HostWorld M) (dst : Nat) (tm : Int) (w : HostWorld M) : Prop where
  waiting : w.amh._waiting = true
  dstRef : w.amh._dstRef = some dst
  buff : w.amh._msgBuff = []
  out : w.out = w0.out
  flag : w0.self.frames ∉ w.self.timeoutSet
  tasks : ∀ t ∈ w.strand, t.is_msg_or_timeout w0.self.frames
  timer : w.self._timer = some ⟨none⟩ ∨
    w.self._timer = some ⟨some (.wait_timeout w0.self.frames)⟩
  noTimeout : tm < 0 → (∀ t ∈ w.strand, t.is_msg) ∧ w.self._timer = some ⟨none⟩
  host : w.amh._hostActor = some w.self._selfID
  opened : my_actor.timed_wait_msg_assert w = true

/-- What holds when a call of `timed_wait_msg` on `w0` has returned `r` in state `w`:
either it returned true, one message was written to `dst` and the timeout closure has
not run, or it returned false, nothing was written, the timeout closure has run, and
the handle is left without a consumer. -/
def WaitPost (w0 : HostWorld M) (dst : Nat) (tm : Int) :
    Option (Bool × HostWorld M) → Prop
  | none => True
  | some rw =>
    (rw.1 = true ∧ (∃ m, rw.2.out = w0.out ++ [(dst, m)]) ∧
      w0.self.frames ∉ rw.2.self.timeoutSet) ∨
    (rw.1 = false ∧ 0 ≤ tm ∧ rw.2.out = w0.out ∧ w0.self.frames ∈ rw.2.self.timeoutSet ∧
      rw.2.amh._waiting = false ∧ rw.2.amh._dstRef = none ∧ rw.2.amh._msgBuff = [] ∧
      rw.2.amh._hostActor = some rw.2.self._selfID ∧
      my_actor.timed_wait_msg_assert rw.2 = true)


/-- The message of a posted `receiver` task. -/
def chan_task.recv? : chan_task M → Option M
  | .receiver m => some m
  | _ => none

/-- The message of a posted `send_msg` task. -/
def chan_task.send? : chan_task M → Option M
  | .send_msg m => some m
  | _ => none

/-- The counter carried by a posted pump-handler request. -/
def chan_task.hid? : chan_task M → Option Nat
  | .pump_handler _ i => some i
  | _ => none

/-- The messages of the `receiver` tasks of a queue, oldest first: dispatched by the
pool and not yet received by the pump. -/
def chan_task.recvs (q : List (chan_task M)) : List M := q.filterMap chan_task.recv?

/-- The messages of the `send_msg` tasks of a queue, oldest first: pushed by a producer
outside the pool strand and not yet taken in by the pool. -/
def chan_task.sends (q : List (chan_task M)) : List M := q.filterMap chan_task.send?

/-- The counters of the pump requests of a queue, oldest first. -/
def chan_task.hids (q : List (chan_task M)) : List Nat := q.filterMap chan_task.hid?

/-- The content of the pump's stash slot, as a list. -/
def msg_pump.stash (p : msg_pump M) : List M := if p._hasMsg then p._msgSpace.toList else []

/-- The queued request counters are some copies of the previous value of `_pumpCount`
followed by some copies of its current value `p`. -/
def IdsOk (p : Nat) : List Nat → Prop
  | [] => True
  | x :: l => (x = p ∧ ∀ i ∈ l, i = p) ∨ (x = (p + 255) % 256 ∧ IdsOk p l)

/-- Invariant of a connected pool and pump.  `fl` is a message that the pool has taken
out and has not yet handed to `receive_msg`, `pend` a message that `push_msg` has
accepted and `send_msg` has not yet stored, `hd` the counter of a pump request that has
been taken off the queue and is being handled (each list has at most one element). -/
structure ChanCore (s : Sys M) (fl pend : List M) (hd : List Nat) : Prop where
  order : s.pushed =
    s.out.map Prod.snd ++ s.pump.stash ++ (fl ++ chan_task.recvs (s.poolQ ++ s.pumpQ)) ++
      s.pool._msgBuff ++ pend ++ chan_task.sends s.poolQ
  flight : (fl ++ chan_task.recvs (s.poolQ ++ s.pumpQ)).length ≤ 1
  count : s.pool._sendCount =
    (s.pump._pumpCount + (fl ++ chan_task.recvs (s.poolQ ++ s.pumpQ)).length) % 256
  bound : s.pump._pumpCount < 256
  inFlight : fl ++ chan_task.recvs (s.poolQ ++ s.pumpQ) ≠ [] →
    s.pool._waiting = false ∧ s.pump._hasMsg = false ∧
      ∀ i ∈ hd ++ chan_task.hids s.poolQ, i = s.pump._pumpCount
  ids : IdsOk s.pump._pumpCount (hd ++ chan_task.hids s.poolQ)
  poolWaiting : s.pool._waiting = true →
    s.pool._msgBuff = [] ∧ ∀ i ∈ hd ++ chan_task.hids s.poolQ, i = s.pump._pumpCount
  stashed : s.pump._hasMsg = true →
    s.pool._waiting = false ∧ s.pump._dstRef = none ∧ s.pump._msgSpace.isSome = true ∧
      ∀ i ∈ hd ++ chan_task.hids s.poolQ, i = (s.pump._pumpCount + 255) % 256
  host : s.pump._hostActor.isSome = true
  link : s.pump._pumpHandler = ⟨some s.poolId, some s.pumpId⟩ ∧
    s.pool._msgPump = some s.pumpId
  handlers : ∀ ph i, chan_task.pump_handler ph i ∈ s.poolQ →
    ph = ⟨some s.poolId, some s.pumpId⟩
  pumpTasks : ∀ t ∈ s.pumpQ, t.send? = none ∧ t.hid? = none
  producer : s.prodInPool = true → chan_task.sends s.poolQ = []
  inline : s.sameStrand = true → chan_task.hids s.poolQ = [] ∧ s.pumpQ = []

/-- Invariant of a connected pool and pump between two events: nothing is in hand, and
a destination is registered exactly while the reader is suspended. -/
structure ChanInv (s : Sys M) : Prop where
  core : ChanCore s [] [] []
  reader : s.pump._dstRef.isSome = s.pump._waiting


/-- What the chain operations leave as it was between `w` and `w1`: the build, the actor
tree, the links, head flags and pumps of all packets, the host and disconnect-check
flag of every pump, and the buffered messages of every pool. -/
def ChainWorld.Frame (w w1 : ChainWorld M) : Prop :=
  w1.debug = w.debug ∧ w1.parent = w.parent ∧ w1.quited = w.quited ∧
  (∀ k, (w1.pcks k)._next = (w.pcks k)._next ∧ (w1.pcks k)._isHead = (w.pcks k)._isHead ∧
    (w1.pcks k)._msgPump = (w.pcks k)._msgPump) ∧
  (∀ p, (w1.pumps p)._hostActor = (w.pumps p)._hostActor ∧
    (w1.pumps p)._checkDis = (w.pumps p)._checkDis) ∧
  (∀ q, (w1.pools q)._msgBuff = (w.pools q)._msgBuff)

/-- The assertions of `msg_pump::clear` hold for every pump: in a build with assertions
each pump has a host actor and no wait with `checkDis` is in progress on it. -/
def ChainWorld.Clearable (w : ChainWorld M) : Prop :=
  w.debug = true →
    ∀ p, (w.pumps p)._hostActor.isSome = true ∧ (w.pumps p)._checkDis = false

/-- A parent (actor 1) with two children (actors 2 and 3).  The parent owns pool 10, holding
the messages 7 and 8, and has delegated to child 3, whose pump 30 is connected to that
pool.  Child 2 has its own pool 11 and pump 20, which has received three messages; `q`
says whether child 2 has quited. -/
def agentWorld (q : Bool) : ChainWorld Nat :=
  { debug := true
    pcks := fun k =>
      if k = 1 then { _isHead := true, _msgPool := some 10, _msgPump := none, _next := some 3 }
      else if k = 2 then
        { _isHead := true, _msgPool := some 11, _msgPump := some 20, _next := none }
      else if k = 3 then
        { _isHead := false, _msgPool := some 10, _msgPump := some 30, _next := none }
      else pck.new
    pools := fun p =>
      if p = 10 then { _msgPump := some 30, _msgBuff := [7, 8], _sendCount := 5, _waiting := false }
      else if p = 11 then
        { _msgPump := some 20, _msgBuff := [], _sendCount := 3, _waiting := false }
      else msg_pool.make
    pumps := fun p =>
      if p = 20 then
        { msg_pump.make 2 with _pumpHandler := ⟨some 11, some 20⟩, _pumpCount := 3 }
      else if p = 30 then
        { msg_pump.make 3 with _pumpHandler := ⟨some 10, some 30⟩, _pumpCount := 5 }
      else msg_pump.make 0
    poolCount := 12
    parent := fun a => if a = 2 ∨ a = 3 then some 1 else none
    quited := fun a => a == 2 && q
    posted := []
    resumed := []
    log := []
    pumpCount := 31
    dispatched := [] }

/-- One round of a reader and a producer on the pool strand: the reader asks for a
message into destination 0, the producer pushes the message 0, the strand runs the
posted `receiver`. -/
def ChanEvent.round : List (ChanEvent Nat) := [.read 0, .push 0, .run_pool]

/-- The trace of 255 rounds followed by one more request and one more push: the 256th
message has been dispatched and not yet received. -/
def ChanEvent.wrapTrace : List (ChanEvent Nat) :=
  (List.replicate 255 ChanEvent.round).flatten ++ [.read 0, .push 0]

/-- What holds of the messages in flight between a pool and its pump:
* at most one message dispatched by the pool has not yet been received by the pump;
* the pool is not flagged waiting while a message is in flight;
* the pump's stash slot is empty while a message is in flight, and while the pool is
  flagged waiting (so it is empty when `send_msg` delivers directly);
* while the stash slot is full no queued pump request carries the pool's `_sendCount`
  (so none of them dispatches a message);
* the pool is not flagged waiting when a queued pump request, or a request that
  `read_msg` would make now with `_pumpCount`, carries a counter different from
  `_sendCount`. -/
structure InFlight (s : Sys M) : Prop where
  atMostOne : (chan_task.recvs (s.poolQ ++ s.pumpQ)).length ≤ 1
  notWaiting : s.pool._waiting = true → chan_task.recvs (s.poolQ ++ s.pumpQ) = []
  stashEmpty : chan_task.recvs (s.poolQ ++ s.pumpQ) ≠ [] → s.pump._hasMsg = false
  stashEmptyDirect : s.pool._waiting = true → s.pump._hasMsg = false
  stashFull : s.pump._hasMsg = true →
    ∀ ph i, chan_task.pump_handler ph i ∈ s.poolQ → i ≠ s.pool._sendCount
  staleQueued : ∀ ph i, chan_task.pump_handler ph i ∈ s.poolQ → i ≠ s.pool._sendCount →
    s.pool._waiting = false
  staleDirect : s.pump._pumpCount ≠ s.pool._sendCount → s.pool._waiting = false

/-! ### Scenarios and operations on a whole host world -/

/-- The call `delay_trig(ms, h)` made by the actor of `w`: the handler that the method
posts for `ms == 0` goes to the end of the actor's own strand. -/
def HostWorld.delay_trig (w : HostWorld M) (ms : Int) (h : delay_cb) :
    Except Err (HostWorld M) :=
  match w.self.delay_trig ms h with
  | .error e => .error e
  | .ok ap => .ok { w with self := ap.1, strand := w.strand ++ ap.2.toList.map .delay }

/-- Actor 1 has made a notifier for its mailbox, and a producer has invoked it with the
message 5: the notifier's lambda is queued on the actor's strand and has not yet run. -/
def HostWorld.sentBeforeWait : HostWorld Nat :=
  (actor_msg_handle.make_notifer (HostWorld.create 1 : HostWorld Nat) 1).1.call
    (actor_msg_handle.make_notifer (HostWorld.create 1 : HostWorld Nat) 1).2 5

/-! ### Executor -/

/-- State of `ios_proxy`.  `_runLock` says whether the pointer to the
`io_service::work` object is non-null; `_handleList` and `_threadIDs` hold the handles
and identities of the worker threads; `nextThread` is the identity the next thread
created will get. -/
structure ios_proxy where
  _opend : Bool
  _runLock : Bool
  _runCount : Nat
  _handleList : List Nat
  _threadIDs : List Nat
  nextThread : Nat
  deriving DecidableEq, Repr

/-- The constructor `ios_proxy::ios_proxy()`. -/
def ios_proxy.new : ios_proxy :=
  { _opend := false, _runLock := false, _runCount := 0, _handleList := [], _threadIDs := [],
    nextThread := 1 }

/-- The method `ios_proxy::runningInThisIos()` called from thread `caller`. -/
def ios_proxy.runningInThisIos (debug : Bool) (p : ios_proxy) (caller : Nat) :
    Except Err Bool :=
  if debug && !p._opend then .error .assert_failed
  else .ok (decide (caller ∈ p._threadIDs))

/-- The method `ios_proxy::run(threadNum)`: returns when all `threadNum` worker threads
have registered their handles. -/
def ios_proxy.run (debug : Bool) (p : ios_proxy) (threadNum : Nat) : Except Err ios_proxy :=
  if debug && !(threadNum ≥ 1) then .error .assert_failed
  else if !p._opend then
    .ok { p with _opend := true, _runCount := 0, _runLock := true
                 _handleList := List.range' p.nextThread threadNum
                 _threadIDs := List.range' p.nextThread threadNum
                 nextThread := p.nextThread + threadNum }
  else .ok p

/-- The method `ios_proxy::stop()` called from thread `caller`; `ran` is the sum of what
`_ios.run()` returns in the worker threads, which they add to `_runCount` before
`join_all` returns. -/
def ios_proxy.stop (debug : Bool) (p : ios_proxy) (caller ran : Nat) : Except Err ios_proxy :=
  if p._opend then
    match (if debug then p.runningInThisIos debug caller else .ok false) with
    | .error e => .error e
    | .ok inIos =>
      if inIos then .error .assert_failed
      else
        .ok { p with _runLock := false, _runCount := p._runCount + ran, _threadIDs := []
                     _handleList := [], _opend := false }
  else .ok p

/-- A call of `run` or of `stop`. -/
inductive ios_call where
  | run (threadNum : Nat)
  | stop (caller ran : Nat)
  deriving DecidableEq, Repr

/-- Effect of one call. -/
def ios_proxy.call (debug : Bool) (p : ios_proxy) : ios_call → Except Err ios_proxy
  | .run n => p.run debug n
  | .stop caller ran => p.stop debug caller ran

/-- Effect of a sequence of calls; a failed assertion ends it. -/
def ios_proxy.calls (debug : Bool) (p : ios_proxy) : List ios_call → Except Err ios_proxy
  | [] => .ok p
  | c :: cs =>
    match p.call debug c with
    | .error e => .error e
    | .ok p1 => ios_proxy.calls debug p1 cs

/-- The call is one the executor accepts in state `p`: `run` with at least one thread,
`stop` from a thread that is not one of the workers. -/
def ios_call.valid (p : ios_proxy) : ios_call → Prop
  | .run n => 1 ≤ n
  | .stop caller _ => caller ∉ p._threadIDs

/-! ### Chain operations -/

/-- The factory `pool_type::make(strand, fixedSize)` called by a chain operation: the new
pool gets the next unused identity. -/
def ChainWorld.make_pool (w : ChainWorld M) : Nat × ChainWorld M :=
  (w.poolCount,
   { w with pools := Function.update w.pools w.poolCount msg_pool.make
            poolCount := w.poolCount + 1 })

/-- The statement `msgPck->_msgPump = pump_type::make(shared_from_this())` of
`connect_msg_pump`: the new pump gets the next unused identity. -/
def ChainWorld.make_pump (w : ChainWorld M) (msgPck hostActor : Nat) : ChainWorld M :=
  { w with pumps := Function.update w.pumps w.pumpCount (msg_pump.make hostActor)
           pumpCount := w.pumpCount + 1
           pcks := Function.update w.pcks msgPck
             { w.pcks msgPck with _msgPump := some w.pumpCount } }

/-- The two calls by which an actor connects its own pump `pm` to the pool `np`:
`msgPool_->connect_pump(msgPump_)` on the pool's strand, then `msgPump_->connect(ph)`
called directly. -/
def ChainWorld.pump_connect_self (w : ChainWorld M) (np pm : Nat) : ChainWorld M :=
  let pc := (w.pools np).connect_pump np pm
  let w1 : ChainWorld M := { w with pools := Function.update w.pools np pc.2 }
  let uc := (w1.pumps pm).connect pc.1
  { w1 with pumps := Function.update w1.pumps pm uc.1
            posted := w1.posted ++ uc.2.toList }

/-- The statement `if (msgPck->_next) { lock; clear_msg_list(msgPck->_next); unlock; }`
with which `msg_agent_to` and `connect_msg_pump` begin. -/
def my_actor.clear_next (fuel : Nat) (w : ChainWorld M) (msgPck : Nat) :
    Except Err (ChainWorld M) :=
  match (w.pcks msgPck)._next with
  | some nx =>
    match my_actor.clear_msg_list fuel (w.lock nx) nx with
    | .error e => .error e
    | .ok w1 =>
      match (w1.pcks msgPck)._next with
      | none => .error .null_deref
      | some nx1 => .ok (w1.unlock nx1)
  | none => .ok w

/-- The method `my_actor::msg_agent_off<T...>()` called by actor `self`.
`msg_pool_pck` makes the packet if the actor has none, so `if (msgPck)` holds. -/
def my_actor.msg_agent_off (fuel : Nat) (w : ChainWorld M) (self : Nat) :
    Except Err (ChainWorld M) :=
  let msgPck := self
  let w0 : ChainWorld M := (w.lock_quit).lock msgPck
  match (w0.pcks msgPck)._next with
  | some nx =>
    match my_actor.clear_msg_list fuel (w0.lock nx) nx with
    | .error e => .error e
    | .ok w1 =>
      match (w1.pcks msgPck)._next with
      | none => .error .null_deref
      | some nx1 =>
        .ok (((((w1.set_head nx1 true).unlock nx1).set_next msgPck none).unlock
          msgPck).unlock_quit)
  | none => .ok ((w0.unlock msgPck).unlock_quit)

/-- The method `my_actor::connect_msg_pump<T...>()` called by actor `self`; the result is
the identity of the returned pump. -/
def my_actor.connect_msg_pump (fuel : Nat) (w : ChainWorld M) (self : Nat) :
    Except Err (Nat × ChainWorld M) :=
  let msgPck := self
  let w0 : ChainWorld M := (w.lock_quit).lock msgPck
  match my_actor.clear_next fuel w0 msgPck with
  | .error e => .error e
  | .ok w1 =>
    let w2 : ChainWorld M := w1.set_next msgPck none
    let w3 : ChainWorld M :=
      match (w2.pcks msgPck)._msgPump with
      | none => w2.make_pump msgPck self
      | some _ => w2
    match (w3.pcks msgPck)._msgPump with
    | none => .error .null_deref
    | some msgPump =>
      match (w3.pcks msgPck)._msgPool with
      | some msgPool =>
        .ok (msgPump, ((w3.pump_connect_self msgPool msgPump).unlock msgPck).unlock_quit)
      | none =>
        match w3.pump_clear msgPump with
        | .error e => .error e
        | .ok w4 => .ok (msgPump, (w4.unlock msgPck).unlock_quit)

/-- The loop of `connect_msg_notifer_to` that is compiled under `_DEBUG`: no actor from
`pa` upwards is the buddy. -/
def my_actor.assert_not_ancestor : Nat → ChainWorld M → Option Nat → Nat → Except Err Unit
  | 0, _, _, _ => .error .out_of_fuel
  | fuel + 1, w, pa, buddyActor =>
    match pa with
    | none => .ok ()
    | some a =>
      if a = buddyActor then .error .assert_failed
      else my_actor.assert_not_ancestor fuel w (w.parent a) buddyActor

/-- The branch `if (makeNew)` of `connect_msg_notifer_to`, entered in world `w0` with the
caller's packet `msgPck` locked and the buddy's packet `childPck` fetched. -/
def my_actor.connect_msg_notifer_to_new (fuel : Nat) (w0 : ChainWorld M)
    (msgPck childPck : Nat) : Except Err (Option Nat × ChainWorld M) :=
  let mp := w0.make_pool
  let w2 : ChainWorld M := (mp.2.lock childPck).set_head childPck true
  match my_actor.update_msg_list fuel w2 childPck (some mp.1) with
  | .error e => .error e
  | .ok w3 =>
    let w4 : ChainWorld M := w3.unlock childPck
    if (w4.pcks msgPck)._next = some childPck then
      let w5 : ChainWorld M := w4.set_next msgPck none
      match (w5.pcks msgPck)._msgPump with
      | some msgPump =>
        match (w5.pcks msgPck)._msgPool with
        | some msgPool =>
          .ok (some mp.1,
            ((w5.pump_connect_self msgPool msgPump).unlock msgPck).unlock_quit)
        | none =>
          match w5.pump_clear msgPump with
          | .error e => .error e
          | .ok w6 => .ok (some mp.1, (w6.unlock msgPck).unlock_quit)
      | none => .ok (some mp.1, (w5.unlock msgPck).unlock_quit)
    else .ok (some mp.1, (w4.unlock msgPck).unlock_quit)

/-- The part of `connect_msg_notifer_to` that follows the branch `if (makeNew)`, entered
in world `w0` with the caller's packet `msgPck` locked and the buddy's packet `childPck`
fetched. -/
def my_actor.connect_msg_notifer_to_old (fuel : Nat) (w0 : ChainWorld M)
    (msgPck childPck : Nat) : Except Err (Option Nat × ChainWorld M) :=
  let w1 : ChainWorld M := w0.lock childPck
  if (w1.pcks childPck)._isHead then
    if w1.debug && decide ((w1.pcks msgPck)._next = some childPck) then
      .error .assert_failed
    else
      match (w1.pcks childPck)._msgPool with
      | some childPool =>
        match my_actor.update_msg_list fuel w1 childPck (some childPool) with
        | .error e => .error e
        | .ok w2 =>
          .ok (some childPool, ((w2.unlock childPck).unlock msgPck).unlock_quit)
      | none =>
        let mp := w1.make_pool
        match my_actor.update_msg_list fuel mp.2 childPck (some mp.1) with
        | .error e => .error e
        | .ok w2 =>
          .ok (some mp.1, ((w2.unlock childPck).unlock msgPck).unlock_quit)
  else .ok (none, ((w1.unlock childPck).unlock msgPck).unlock_quit)

/-- The method `my_actor::connect_msg_notifer_to<T...>(buddyActor, makeNew)` called by
actor `self`.  The result is the pool to which the returned notifier posts, `none` for
an empty notifier. -/
def my_actor.connect_msg_notifer_to (fuel : Nat) (w : ChainWorld M) (self buddyActor : Nat)
    (makeNew : Bool) : Except Err (Option Nat × ChainWorld M) :=
  if !(decide (w.parent buddyActor = none) || decide (w.parent buddyActor = some self)) then
    if w.debug then .error .assert_failed else .ok (none, w)
  else
    match (if w.debug then my_actor.assert_not_ancestor fuel w (w.parent self) buddyActor
           else .ok ()) with
    | .error e => .error e
    | .ok _ =>
      let msgPck := self
      let w0 : ChainWorld M := (w.lock_quit).lock msgPck
      let childPck := buddyActor
      if makeNew then my_actor.connect_msg_notifer_to_new fuel w0 msgPck childPck
      else my_actor.connect_msg_notifer_to_old fuel w0 msgPck childPck

/-- The method `my_actor::connect_msg_notifer_to_self<T...>(makeNew)` called by actor
`self`. -/
def my_actor.connect_msg_notifer_to_self (fuel : Nat) (w : ChainWorld M) (self : Nat)
    (makeNew : Bool) : Except Err (Option Nat × ChainWorld M) :=
  let msgPck := self
  let w0 : ChainWorld M := (w.lock_quit).lock msgPck
  if (w0.pcks msgPck)._isHead then
    match (if makeNew then none else (w0.pcks msgPck)._msgPool) with
    | none =>
      let mp := w0.make_pool
      match my_actor.update_msg_list fuel mp.2 msgPck (some mp.1) with
      | .error e => .error e
      | .ok w2 => .ok (some mp.1, (w2.unlock msgPck).unlock_quit)
    | some msgPool =>
      match my_actor.update_msg_list fuel w0 msgPck (some msgPool) with
      | .error e => .error e
      | .ok w2 => .ok (some msgPool, (w2.unlock msgPck).unlock_quit)
  else .ok (none, (w0.unlock msgPck).unlock_quit)

/-- The task that `msg_pool::push_msg(mt)` posts on the strand of pool `pl` for a
producer outside that strand: `send_msg(mt, false)`.  The call
`_msgPump->receive_msg(mt)` is recorded in `dispatched`; what that call runs, at once or
as a task posted on the pump's strand, is `ChainWorld.receiver`. -/
def ChainWorld.send_msg (w : ChainWorld M) (pl : Nat) (mt : M) : Except Err (ChainWorld M) :=
  if (w.pools pl)._waiting then
    match (w.pools pl)._msgPump with
    | none => .error (if w.debug then .assert_failed else .null_deref)
    | some pm =>
      match (w.pools pl)._msgBuff with
      | [] =>
        .ok { w with
          pools := Function.update w.pools pl
            { w.pools pl with _waiting := false
                              _sendCount := ((w.pools pl)._sendCount + 1) % 256 }
          dispatched := w.dispatched ++ [(pm, mt)] }
      | front :: rest =>
        .ok { w with
          pools := Function.update w.pools pl
            { w.pools pl with _waiting := false
                              _sendCount := ((w.pools pl)._sendCount + 1) % 256
                              _msgBuff := msg_queue.pop_front
                                (msg_queue.push_back (front :: rest) mt) }
          dispatched := w.dispatched ++ [(pm, front)] }
  else
    .ok { w with
      pools := Function.update w.pools pl
        { w.pools pl with _msgBuff := msg_queue.push_back (w.pools pl)._msgBuff mt } }

/-- The method `msg_pump::receiver(msg)` on pump `pm`: what `receive_msg` runs, at once
when the pump's strand is the calling one and else as a posted task.  The result gives
the new world, the write made through the registered destination, if any, and whether
`run_one()` was called. -/
def ChainWorld.receiver (w : ChainWorld M) (pm : Nat) (msg : M) :
    Except Err (ChainWorld M × Option (Nat × M) × Bool) :=
  if (w.pumps pm)._hostActor.isSome then
    if w.debug && (w.pumps pm)._hasMsg then .error .assert_failed
    else
      let p1 : msg_pump M :=
        { w.pumps pm with _pumpCount := ((w.pumps pm)._pumpCount + 1) % 256 }
      match p1._dstRef with
      | some d =>
        let p2 : msg_pump M := { p1 with _dstRef := none }
        if p2._waiting then
          .ok ({ w with pumps := Function.update w.pumps pm
                          { p2 with _waiting := false, _checkDis := false } },
               some (d, msg), true)
        else .ok ({ w with pumps := Function.update w.pumps pm p2 }, some (d, msg), false)
      | none =>
        if w.debug && p1._waiting then .error .assert_failed
        else
          .ok ({ w with pumps := Function.update w.pumps pm
                          { p1 with _hasMsg := true, _msgSpace := some msg } },
               none, false)
  else .ok (w, none, false)

/-- What `clear_msg_list` (with `newPool = none`) and `update_msg_list` do to pools and
pumps when they reach the last packet `t` of a chain: the packet's pool is detached,
and its pump is connected to `newPool` or, without one, cleared. -/
def ChainWorld.update_tail (w : ChainWorld M) (t : Nat) (newPool : Option Nat) :
    Except Err (ChainWorld M) :=
  let w1 : ChainWorld M :=
    match (w.pcks t)._msgPool with
    | some pl => w.pool_disconnect pl
    | none => w
  match (w1.pcks t)._msgPump with
  | some pm =>
    match newPool with
    | some np => .ok (w1.pump_connect np pm)
    | none => w1.pump_clear pm
  | none => .ok w1

/-- Two worlds that differ at most in their packets and in the log of mutex and
quit-lock operations. -/
structure ChainWorld.SameHeap (w w1 : ChainWorld M) : Prop where
  debug : w1.debug = w.debug
  pools : w1.pools = w.pools
  pumps : w1.pumps = w.pumps
  poolCount : w1.poolCount = w.poolCount
  pumpCount : w1.pumpCount = w.pumpCount
  parent : w1.parent = w.parent
  quited : w1.quited = w.quited
  posted : w1.posted = w.posted
  resumed : w1.resumed = w.resumed
  dispatched : w1.dispatched = w.dispatched

/-- The packets of `w1` are those of `w` with the pool of every packet of `l` replaced
by `newPool`. -/
structure ChainWorld.Repooled (w w1 : ChainWorld M) (l : List Nat) (newPool : Option Nat) :
    Prop where
  next : ∀ k, (w1.pcks k)._next = (w.pcks k)._next
  head : ∀ k, (w1.pcks k)._isHead = (w.pcks k)._isHead
  pump : ∀ k, (w1.pcks k)._msgPump = (w.pcks k)._msgPump
  inChain : ∀ k, k ∈ l → (w1.pcks k)._msgPool = newPool
  offChain : ∀ k, k ∉ l → (w1.pcks k)._msgPool = (w.pcks k)._msgPool

/-- What `clear_msg_list` and `update_msg_list` keep of the pools and pumps and of the
counters and logs of the world: they make no pool and no pump, dispatch no message, keep
the stash slot and the host of every pump and the buffer of every pool, and flag no
pool and no pump as waiting. -/
structure ChainWorld.Kept (w w1 : ChainWorld M) : Prop where
  debug : w1.debug = w.debug
  poolCount : w1.poolCount = w.poolCount
  pumpCount : w1.pumpCount = w.pumpCount
  parent : w1.parent = w.parent
  quited : w1.quited = w.quited
  dispatched : w1.dispatched = w.dispatched
  stash : ∀ p, (w1.pumps p)._hasMsg = (w.pumps p)._hasMsg ∧
    (w1.pumps p)._msgSpace = (w.pumps p)._msgSpace
  host : ∀ p, (w1.pumps p)._hostActor = (w.pumps p)._hostActor ∧
    (w1.pumps p)._checkDis = (w.pumps p)._checkDis
  buff : ∀ q, (w1.pools q)._msgBuff = (w.pools q)._msgBuff
  waiting : ∀ q, (w1.pools q)._waiting = true → (w.pools q)._waiting = true
  pumpWaiting : ∀ p, (w1.pumps p)._waiting = true → (w.pumps p)._waiting = true

/-- What can happen to a pool: the events of a connected pool and pump, and the two
calls that the chain operations make on the pool strand. -/
inductive PoolEvent (M : Type) where
  /-- A push, a strand step, a read or a reader timeout. -/
  | chan (e : ChanEvent M)
  /-- The call `connect_pump(msgPump)` followed by `msgPump->connect(handler)`. -/
  | connect_pump
  /-- The call `msg_pool::disconnect`. -/
  | disconnect

/-- Effect of one pool event. -/
def Sys.pool_step (s : Sys M) : PoolEvent M → Except Err (Sys M)
  | .chan e => s.step e
  | .connect_pump => .ok s.connect
  | .disconnect => .ok { s with pool := s.pool.disconnect }

/-- Effect of a sequence of pool events; a failed assertion ends the run. -/
def Sys.pool_run (s : Sys M) : List (PoolEvent M) → Except Err (Sys M)
  | [] => .ok s
  | e :: es =>
    match s.pool_step e with
    | .error err => .error err
    | .ok s1 => Sys.pool_run s1 es

/-! ### Timed wait on a trigger, and the operations on a mailbox -/

/-- The method `my_actor::_timed_wait_msg` for `AMH = actor_trig_handle`, up to
`push_yield()`. -/
def my_actor._timed_wait_trig_enter (w : HostWorld M) (dst : Nat) (tm : Int) :
    Except Err (wait_result (HostWorld M)) :=
  if w.ath._hostActor ≠ some w.self._selfID then .error .assert_failed
  else
    let rw := actor_trig_handle.read_msg w dst
    if rw.1 then .ok (.returned true rw.2)
    else
      let f := rw.2.self.frames
      let w2 : HostWorld M := { rw.2 with self := { rw.2.self with frames := f + 1 } }
      if tm ≥ 0 then
        match w2.self.delay_trig tm (.wait_timeout f) with
        | .error e => .error e
        | .ok (a, posted) =>
          .ok (.yielded f { w2 with self := a
                                    strand := w2.strand ++ posted.toList.map .delay })
      else .ok (.yielded f w2)

/-- The entry assertion `assert(ath._closed && !(*ath._closed))` of `timed_wait_trig`. -/
def my_actor.timed_wait_trig_assert (w : HostWorld M) : Bool :=
  match w.ath._closed with
  | some c => !(w.closed c)
  | none => false

/-- The method `my_actor::timed_wait_trig(tm, ath, r0)`, up to `push_yield()`. -/
def my_actor.timed_wait_trig_enter (w : HostWorld M) (dst : Nat) (tm : Int) :
    Except Err (wait_result (HostWorld M)) :=
  if my_actor.timed_wait_trig_assert w then my_actor._timed_wait_trig_enter w dst tm
  else .error .assert_failed

/-- The method `my_actor::wait_trig(ath, r0)`, up to `push_yield()`:
`timed_wait_trig(-1, ath, r0)`. -/
def my_actor.wait_trig_enter (w : HostWorld M) (dst : Nat) :
    Except Err (wait_result (HostWorld M)) :=
  my_actor.timed_wait_trig_enter w dst (-1)

/-- Actor 1 has made a notifier for its trigger, a producer has invoked it with the
message 5, and the actor's strand has run the notifier's lambda. -/
def HostWorld.firedBeforeWait : Except Err (HostWorld Nat) :=
  ((actor_trig_handle.make_notifer (HostWorld.create 1 : HostWorld Nat) 1).1.call
    (actor_trig_handle.make_notifer (HostWorld.create 1 : HostWorld Nat) 1).2 5).step .run_strand

/-- The operations on a mailbox handle. -/
inductive MailboxOp (M : Type) where
  /-- The call `make_notifer(hostActor)`. -/
  | make_notifer (hostActor : Nat)
  /-- The call `push_msg(m)`. -/
  | push_msg (m : M)
  /-- The call `read_msg(dst)`. -/
  | read_msg (dst : Nat)
  /-- The call `close()`. -/
  | close
  /-- The part of `_timed_wait_msg` after `push_yield()` in activation `frame`, which
  resets `_dstRef` and `_waiting` when the wait timed out. -/
  | resume (frame : Nat) (tm : Int)

/-- Effect of one operation on the mailbox handle. -/
def actor_msg_handle.op (w : HostWorld M) : MailboxOp M → Except Err (HostWorld M)
  | .make_notifer hostActor => .ok (actor_msg_handle.make_notifer w hostActor).2
  | .push_msg m => actor_msg_handle.push_msg w m
  | .read_msg dst => .ok (actor_msg_handle.read_msg w dst).2
  | .close => .ok (actor_msg_handle.close w)
  | .resume frame tm => .ok (my_actor._timed_wait_msg_resume w frame tm).2

/-- Effect of a sequence of operations; a failed assertion ends the run. -/
def actor_msg_handle.ops (w : HostWorld M) : List (MailboxOp M) → Except Err (HostWorld M)
  | [] => .ok w
  | o :: os =>
    match actor_msg_handle.op w o with
    | .error e => .error e
    | .ok w1 => actor_msg_handle.ops w1 os

/-- The operations that write the handle's `closed` cell or replace it. -/
def MailboxOp.closes : MailboxOp M → Bool
  | .make_notifer _ => true
  | .close => true
  | _ => false

/-! ### A chain of three packets -/

/-- Three generations: actors 2 and 4 are children of actor 1 and actor 3 is a child of
actor 2.  No actor has used the message type yet: every packet is as `pck(strand)` makes it, and no
pool and no pump has been made. -/
def lineWorld : ChainWorld Nat :=
  { debug := true
    pcks := fun _ => pck.new
    pools := fun _ => msg_pool.make
    pumps := fun _ => msg_pump.make 0
    poolCount := 10
    parent := fun a => if a = 2 ∨ a = 4 then some 1 else if a = 3 then some 2 else none
    quited := fun _ => false
    posted := []
    resumed := []
    log := []
    pumpCount := 20
    dispatched := [] }

/-- Actor 1 connects a notifier to itself (pool 10) and delegates to actor 2; actor 2
connects its pump (pump 20), actor 3 connects its pump (pump 21), and actor 2 delegates
to actor 3.  The chain of actor 1 is then 1, 2, 3. -/
def lineWorld.delegated : Except Err (ChainWorld Nat) :=
  match my_actor.connect_msg_notifer_to_self 8 lineWorld 1 false with
  | .error e => .error e
  | .ok r1 =>
    match my_actor.msg_agent_to 8 r1.2 1 2 with
    | .error e => .error e
    | .ok w2 =>
      match my_actor.connect_msg_pump 8 w2 2 with
      | .error e => .error e
      | .ok r3 =>
        match my_actor.connect_msg_pump 8 r3.2 3 with
        | .error e => .error e
        | .ok r4 => my_actor.msg_agent_to 8 r4.2 2 3

/-- After `lineWorld.delegated`, actor 1 calls `msg_agent_to` for its other child,
actor 4, which first clears the sub-chain 2, 3. -/
def lineWorld.cleared : Except Err (ChainWorld Nat) :=
  match lineWorld.delegated with
  | .error e => .error e
  | .ok w => my_actor.msg_agent_to 8 w 1 4

/-- The pool `pl` and the pump `pm` of a chain world, with the pump's host actor `host`,
as a system of their own with empty strands. -/
def ChainWorld.chan (w : ChainWorld M) (sameStrand prodInPool : Bool) (pl pm host : Nat) :
    Sys M :=
  { debug := w.debug, sameStrand := sameStrand, prodInPool := prodInPool
    poolId := pl, pumpId := pm
    pool := w.pools pl, pump := w.pumps pm
    host := { _selfID := host, _quited := w.quited host, _lockQuit := 0, _timer := some ⟨none⟩,
              frames := 0, timeoutSet := [], resumes := 0 }
    poolQ := [], pumpQ := [], out := [], pushed := [] }

/-! ### The log of mutex and quit-lock operations -/

/-- The mutex operations of a traversal that locks the packets of `l` one inside the
other: each packet is locked after its predecessor and unlocked before it. -/
def pck.locks : List Nat → List chain_event
  | [] => []
  | k :: ks => chain_event.lock k :: (pck.locks ks ++ [chain_event.unlock k])

/-- The packet mutexes held (the most recently acquired first) and the quit-lock depth
after the operations `ev`, started with the mutexes and the depth `st`; `none` if an
`unlock` releases a mutex other than the most recently acquired one that is still held,
or if the quit lock is released at depth 0. -/
def chain_event.run : List Nat × Nat → List chain_event → Option (List Nat × Nat)
  | st, [] => some st
  | st, .lock k :: es => chain_event.run (k :: st.1, st.2) es
  | st, .unlock k :: es =>
    match st.1 with
    | h :: hs => if h = k then chain_event.run (hs, st.2) es else none
    | [] => none
  | st, .lock_quit :: es => chain_event.run (st.1, st.2 + 1) es
  | st, .unlock_quit :: es =>
    match st.2 with
    | 0 => none
    | d + 1 => chain_event.run (st.1, d) es

/-- The packets whose mutex the operations `ev` acquire, in the order of acquisition. -/
def chain_event.acquired : List chain_event → List Nat
  | [] => []
  | .lock k :: es => k :: chain_event.acquired es
  | .unlock _ :: es => chain_event.acquired es
  | .lock_quit :: es => chain_event.acquired es
  | .unlock_quit :: es => chain_event.acquired es

/-! ### Whole timed waits on a trigger -/

/-- The method `my_actor::_timed_wait_msg` for `AMH = actor_trig_handle`, from the
return of `push_yield()` on. -/
def my_actor._timed_wait_trig_resume (w : HostWorld M) (frame : Nat) (tm : Int) :
    Bool × HostWorld M :=
  if frame ∉ w.self.timeoutSet then
    (true, if tm ≥ 0 then { w with self := w.self.cancel_delay_trig } else w)
  else
    (false, { w with ath := { w.ath with _dstRef := none, _waiting := false } })

/-- The suspended activation `frame` of `_timed_wait_msg` on the trigger while the events
`es` happen: the first event that switches the actor back in makes the wait return.
`none` means the actor is still suspended after all of `es`. -/
def my_actor.await_trig (w : HostWorld M) (frame : Nat) (tm : Int) :
    List (HostEvent M) → Except Err (Option (Bool × HostWorld M))
  | [] => .ok none
  | e :: es =>
    match w.step e with
    | .error err => .error err
    | .ok w1 =>
      if w1.self.resumes ≠ w.self.resumes then
        .ok (some (my_actor._timed_wait_trig_resume w1 frame tm))
      else my_actor.await_trig w1 frame tm es

/-- A whole call `timed_wait_trig(tm, ath, r0)` with the events that happen while the
actor is suspended in it. -/
def my_actor.timed_wait_trig (w : HostWorld M) (dst : Nat) (tm : Int)
    (es : List (HostEvent M)) : Except Err (Option (Bool × HostWorld M)) :=
  match my_actor.timed_wait_trig_enter w dst tm with
  | .error e => .error e
  | .ok (.returned r w1) => .ok (some (r, w1))
  | .ok (.yielded f w1) => my_actor.await_trig w1 f tm es

/-- The method `my_actor::wait_trig(ath, r0)`: `timed_wait_trig(-1, ath, r0)`. -/
def my_actor.wait_trig (w : HostWorld M) (dst : Nat) (es : List (HostEvent M)) :
    Except Err (Option (Bool × HostWorld M)) :=
  my_actor.timed_wait_trig w dst (-1) es

/-! ## Theorems -/

/-! ### Mailbox: FIFO order and size -/

theorem push_all_not_waiting (w : HostWorld M) (ms : List M) (h : w.amh._waiting = false) :
    actor_msg_handle.push_all w ms =
      .ok { w with msgPushed := w.msgPushed ++ ms
                   amh := { w.amh with _msgBuff := w.amh._msgBuff ++ ms } } := by
  induction ms generalizing w with
  | nil => simp [actor_msg_handle.push_all]
  | cons m ms ih =>
    simp only [actor_msg_handle.push_all, actor_msg_handle.push_msg, h, Bool.false_eq_true,
      if_false, msg_queue.push_back]
    rw [ih _ (by simp [h])]
    simp

theorem read_all_buffered (w : HostWorld M) (ds : List Nat) (ms rest : List M)
    (hb : w.amh._msgBuff = ms ++ rest) (hl : ds.length = ms.length) :
    actor_msg_handle.read_all w ds =
      (List.replicate ds.length true,
        { w with out := w.out ++ ds.zip ms
                 amh := { w.amh with _msgBuff := rest } }) := by
  induction ds generalizing w ms with
  | nil =>
    cases ms with
    | nil => simp at hb; simp [actor_msg_handle.read_all, ← hb]
    | cons m ms => simp at hl
  | cons d ds ih =>
    cases ms with
    | nil => simp at hl
    | cons m ms =>
      simp only [List.length_cons, Nat.add_right_cancel_iff] at hl
      simp only [actor_msg_handle.read_all, actor_msg_handle.read_msg, msg_queue.front, hb,
        List.cons_append, List.head?_cons, msg_queue.pop_front, List.tail_cons]
      rw [ih _ ms (by simp) hl]
      simp [List.replicate_succ]

/-- C2: on a handle with no waiting consumer and an empty buffer, `push_msg` of
`m1..mn` always succeeds; after any `j` of these pushes `size()` is `j`; the next `k`
calls of `read_msg` (`k ≤ n`) all return true, write the first `k` pushed messages to
their destinations in push order and leave `size() = n - k`; the read after the `n`-th
returns false, writes nothing and leaves `size() = 0`. -/
theorem actor_msg_handle_fifo (w : HostWorld M) (ms : List M) (ds : List Nat) (d : Nat)
    (hw : w.amh._waiting = false) (hb : w.amh._msgBuff = []) (hl : ds.length = ms.length) :
    (∀ j, j ≤ ms.length →
      ∃ wj, actor_msg_handle.push_all w (ms.take j) = .ok wj ∧ actor_msg_handle.size wj = j) ∧
    ∃ w1, actor_msg_handle.push_all w ms = .ok w1 ∧
      (∀ k, k ≤ ms.length →
        (actor_msg_handle.read_all w1 (ds.take k)).1 = List.replicate k true ∧
        (actor_msg_handle.read_all w1 (ds.take k)).2.out = w.out ++ (ds.zip ms).take k ∧
        actor_msg_handle.size (actor_msg_handle.read_all w1 (ds.take k)).2 = ms.length - k) ∧
      (actor_msg_handle.read_msg (actor_msg_handle.read_all w1 ds).2 d).1 = false ∧
      (actor_msg_handle.read_msg (actor_msg_handle.read_all w1 ds).2 d).2.out
        = w.out ++ ds.zip ms ∧
      actor_msg_handle.size (actor_msg_handle.read_msg (actor_msg_handle.read_all w1 ds).2 d).2
        = 0 := by
  refine ⟨?_, ?_⟩
  · intro j hj
    refine ⟨_, push_all_not_waiting w _ hw, ?_⟩
    simp [actor_msg_handle.size, msg_queue.size, hb, hj]
  · refine ⟨_, push_all_not_waiting w _ hw, ?_, ?_⟩
    · intro k hk
      have hlen : (ds.take k).length = (ms.take k).length := by simp [hl]
      rw [read_all_buffered _ (ds.take k) (ms.take k) (ms.drop k) (by simp [hb]) hlen]
      simp [actor_msg_handle.size, msg_queue.size, hl, hk, List.zip, List.take_zipWith]
    · rw [read_all_buffered _ ds ms [] (by simp [hb]) hl]
      simp [actor_msg_handle.read_msg, msg_queue.front, actor_msg_handle.size, msg_queue.size]

/-- Witness for C2: two pushes and two reads on a handle fresh from `make_notifer`. -/
theorem actor_msg_handle_fifo_witness :
    (actor_msg_handle.read_all
      (actor_msg_handle.make_notifer
        ({ self := ⟨1, false, 0, some ⟨none⟩, 0, [], 0⟩, strand := [], closed := fun _ => true,
           closedCount := 0, out := [], msgPushed := [], trigPushed := [],
           amh := actor_msg_handle.new, ath := actor_trig_handle.new } : HostWorld Nat) 1).2
      []).1 = [] ∧
    ∃ w1, actor_msg_handle.push_all
        (actor_msg_handle.make_notifer
          ({ self := ⟨1, false, 0, some ⟨none⟩, 0, [], 0⟩, strand := [], closed := fun _ => true,
             closedCount := 0, out := [], msgPushed := [], trigPushed := [],
             amh := actor_msg_handle.new, ath := actor_trig_handle.new } : HostWorld Nat) 1).2
        [7, 8] = .ok w1 ∧
      (actor_msg_handle.read_all w1 [100, 101]).1 = [true, true] ∧
      (actor_msg_handle.read_all w1 [100, 101]).2.out = [(100, 7), (101, 8)] ∧
      (actor_msg_handle.read_msg (actor_msg_handle.read_all w1 [100, 101]).2 102).1 = false := by
  refine ⟨rfl, ?_⟩
  obtain ⟨_, w1, h1, h2, h3, _, _⟩ :=
    actor_msg_handle_fifo
      (actor_msg_handle.make_notifer
        ({ self := ⟨1, false, 0, some ⟨none⟩, 0, [], 0⟩, strand := [], closed := fun _ => true,
           closedCount := 0, out := [], msgPushed := [], trigPushed := [],
           amh := actor_msg_handle.new, ath := actor_trig_handle.new } : HostWorld Nat) 1).2
      [7, 8] [100, 101] 102 rfl rfl rfl
  refine ⟨w1, h1, ?_, ?_, h3⟩
  · simpa using (h2 2 (by simp)).1
  · simpa [actor_msg_handle.make_notifer, actor_msg_handle.close] using (h2 2 (by simp)).2.1


/-! ### Mailbox notifier: the guard of the posted task -/

theorem push_msg_ne_self (w : HostWorld M) (m : M) :
    actor_msg_handle.push_msg w m ≠ .ok w := by
  intro h
  have hlen : ∀ w1, actor_msg_handle.push_msg w m = .ok w1 →
      w1.msgPushed.length = w.msgPushed.length + 1 := by
    intro w1 h1
    unfold actor_msg_handle.push_msg at h1
    simp only at h1
    split at h1
    · split at h1
      · cases h1
      · split at h1
        · cases h1
        · cases h1; simp [HostWorld.run_one]
    · cases h1; simp
  have := hlen w h
  omega

/-- C3: a notifier made by `make_notifer` shares the handle's `closed` cell; sending
through it only posts a task on the host strand; when that task runs, in whatever state
`w1` the host then is, it calls the handle's `push_msg` if the host has not quited and
the shared `closed` cell is false, and otherwise leaves the whole state, the handle
included, unchanged.  The two outcomes differ because `push_msg` never returns the
state it was given. -/
theorem actor_msg_notifer_guard (w w1 : HostWorld M) (host : Nat) (m : M) :
    (actor_msg_handle.make_notifer w host).1._closed = some w.closedCount ∧
    (actor_msg_handle.make_notifer w host).2.amh._closed = some w.closedCount ∧
    (actor_msg_handle.make_notifer w host).2.closed w.closedCount = false ∧
    ((actor_msg_handle.make_notifer w host).1.call w1 m
      = { w1 with strand := w1.strand ++ [.msg_notify (actor_msg_handle.make_notifer w host).1 m] }) ∧
    HostWorld.run_task w1 (.msg_notify (actor_msg_handle.make_notifer w host).1 m)
      = (if w1.self._quited = false ∧ w1.closed w.closedCount = false
          then actor_msg_handle.push_msg w1 m else .ok w1) ∧
    actor_msg_handle.push_msg w1 m ≠ .ok w1 := by
  refine ⟨rfl, rfl, ?_, rfl, ?_, push_msg_ne_self w1 m⟩
  · simp [actor_msg_handle.make_notifer, actor_msg_handle.close]
  · simp only [HostWorld.run_task, actor_msg_notifer.task, actor_msg_handle.make_notifer,
      actor_msg_handle.close]
    cases hq : w1.self._quited <;> cases hc : w1.closed w.closedCount <;> simp

/-! ### Trigger: only the first invocation is delivered -/

theorem trigInv_make_notifer (w0 : HostWorld M) (host : Nat) (h0 : w0.strand = []) :
    TrigInv (actor_trig_handle.make_notifer w0 host).1 w0.closedCount w0.out w0.trigPushed []
      (actor_trig_handle.make_notifer w0 host).2 := by
  refine ⟨⟨rfl, rfl⟩, rfl, rfl, ?_, ?_, [], [], rfl, ?_, Or.inl ?_⟩
  · simp [actor_trig_handle.make_notifer]
  · simp [actor_trig_handle.make_notifer]
  · simp [actor_trig_handle.make_notifer, actor_trig_handle.close, h0]
  · simp [actor_trig_handle.make_notifer, actor_trig_handle.close]

theorem trigInv_step (n : actor_trig_notifer) (c : Nat) (out0 : List (Nat × M))
    (pushed0 F : List M) (w : HostWorld M) (e : TrigEvent M)
    (h : TrigInv n c out0 pushed0 F w) :
    ∃ w1, actor_trig_handle.step n w e = .ok w1 ∧
      TrigInv n c out0 pushed0 (F ++ TrigEvent.fired [e]) w1 := by
  obtain ⟨hn, hh, hc, hd, hs, done, pending, hF, hq, hcase⟩ := h
  cases e with
  | fire m =>
    refine ⟨_, rfl, hn, hh, hc, hd, hs, done, pending ++ [m], ?_, ?_, ?_⟩
    · simp [TrigEvent.fired, hF]
    · simp [actor_trig_notifer.call, hq]
    · rcases hcase with h1 | ⟨m0, r, h1, h2⟩
      · exact Or.inl h1
      · refine Or.inr ⟨m0, r, ?_, h2⟩
        cases F with
        | nil => simp at h1
        | cons x xs => simpa [TrigEvent.fired] using h1
  | run =>
    simp only [TrigEvent.fired, List.append_nil]
    cases pending with
    | nil =>
      simp only [List.map_nil] at hq
      refine ⟨w, by simp [actor_trig_handle.step, hq], hn, hh, hc, hd, hs, done, [], hF, ?_, hcase⟩
      simp [hq]
    | cons x rest =>
      simp only [List.map_cons] at hq
      obtain ⟨a, ha⟩ := Option.isSome_iff_exists.mp hh
      rcases hcase with ⟨h1, h2, h3, h4, h5⟩ | ⟨m0, r, h1, h2, h3, h4, h5⟩
      · cases hquit : w.self._quited with
        | true =>
          refine ⟨{ w with strand := rest.map (strand_task.trig_notify n) }, ?_, hn, hh, hc, hd,
            hs, done ++ [x], rest, by simp [hF], rfl, Or.inl ⟨h1, h2, h3, h4, fun _ => hquit⟩⟩
          simp [actor_trig_handle.step, hq, HostWorld.run_task, actor_trig_notifer.task, ha, hquit,
            hn.1, hn.2]
        | false =>
          have hdone : done = [] := by
            by_contra hne
            have := h5 hne
            simp [hquit] at this
          subst hdone
          simp only [List.nil_append] at hF
          cases hw : w.ath._waiting with
          | true =>
            obtain ⟨d, hd'⟩ := Option.isSome_iff_exists.mp (hd hw)
            have hstep : actor_trig_handle.step n w .run = .ok (HostWorld.run_one
                { w with strand := rest.map (strand_task.trig_notify n)
                         trigPushed := w.trigPushed ++ [x]
                         closed := Function.update w.closed c true
                         out := w.out ++ [(d, x)]
                         ath := { w.ath with _waiting := false, _dstRef := none } }) := by
              simp only [actor_trig_handle.step, hq, HostWorld.run_task, actor_trig_notifer.task,
                ha, hquit, h2, Bool.not_false, Bool.and_self, if_true, actor_trig_handle.push_msg,
                hc, hw, hd', hn.1, hn.2]
            refine ⟨_, hstep, ?_⟩
            refine ⟨hn, hh, ?_, ?_, ?_, [x], rest, by simp [hF], ?_, Or.inr ⟨x, [(d, x)], ?_, ?_, ?_, ?_, ?_⟩⟩
            · simpa [HostWorld.run_one] using hc
            · simp [HostWorld.run_one]
            · simp [HostWorld.run_one]
            · simp [HostWorld.run_one]
            · simp [hF]
            · simp [HostWorld.run_one, h1]
            · simp [HostWorld.run_one]
            · simp [HostWorld.run_one, h4]
            · simp [HostWorld.run_one, h3]
          | false =>
            have hstep : actor_trig_handle.step n w .run = .ok
                { w with strand := rest.map (strand_task.trig_notify n)
                         trigPushed := w.trigPushed ++ [x]
                         closed := Function.update w.closed c true
                         ath := { w.ath with _hasMsg := true, _msgBuff := some x } } := by
              simp only [actor_trig_handle.step, hq, HostWorld.run_task, actor_trig_notifer.task,
                ha, hquit, h2, Bool.not_false, Bool.and_self, if_true, actor_trig_handle.push_msg,
                hc, hw, Bool.false_eq_true, if_false, hn.1, hn.2]
            refine ⟨_, hstep, ?_⟩
            refine ⟨hn, hh, ?_, ?_, ?_, [x], rest, by simp [hF], ?_, Or.inr ⟨x, [], ?_, ?_, ?_, ?_, ?_⟩⟩
            · simpa using hc
            · simp [hw]
            · simp [hw]
            · simp
            · simp [hF]
            · simp [h1]
            · simp
            · simp [h4]
            · simp
      · refine ⟨{ w with strand := rest.map (strand_task.trig_notify n) }, ?_, hn, hh, hc, hd,
          hs, done ++ [x], rest, by simp [hF], rfl, Or.inr ⟨m0, r, h1, h2, h3, h4, h5⟩⟩
        simp [actor_trig_handle.step, hq, HostWorld.run_task, actor_trig_notifer.task, ha, h3,
          hn.1, hn.2]
  | read dst =>
    simp only [TrigEvent.fired, List.append_nil]
    cases hw : w.ath._waiting with
    | true =>
      exact ⟨w, by simp [actor_trig_handle.step, hw], hn, hh, hc, hd, hs, done, pending, hF, hq,
        hcase⟩
    | false =>
      cases hm : w.ath._hasMsg with
      | false =>
        refine ⟨(actor_trig_handle.read_msg w dst).2,
          by simp only [actor_trig_handle.step, hw, Bool.false_eq_true, if_false], ?_⟩
        refine ⟨hn, hh, ?_, ?_, ?_, done, pending, hF, ?_, ?_⟩
        · simpa [actor_trig_handle.read_msg, hm] using hc
        · simp [actor_trig_handle.read_msg, hm]
        · simp [actor_trig_handle.read_msg, hm]
        · simpa [actor_trig_handle.read_msg, hm] using hq
        · simpa [actor_trig_handle.read_msg, hm] using hcase
      | true =>
        refine ⟨(actor_trig_handle.read_msg w dst).2,
          by simp only [actor_trig_handle.step, hw, Bool.false_eq_true, if_false], ?_⟩
        refine ⟨hn, hh, ?_, ?_, ?_, done, pending, hF, ?_, ?_⟩
        · simpa [actor_trig_handle.read_msg, hm] using hc
        · simp [actor_trig_handle.read_msg, hm, hw]
        · simp [actor_trig_handle.read_msg, hm]
        · simpa [actor_trig_handle.read_msg, hm] using hq
        · rcases hcase with ⟨_, _, h3, _⟩ | ⟨m0, r, h1, h2, h3, h4, h5⟩
          · simp [hm] at h3
          · refine Or.inr ⟨m0, r ++ w.ath._msgBuff.toList.map (fun m => (dst, m)), h1, ?_, ?_, ?_, ?_⟩
            · simpa [actor_trig_handle.read_msg, hm] using h2
            · simpa [actor_trig_handle.read_msg, hm] using h3
            · simp [actor_trig_handle.read_msg, hm, h4]
            · simp only [hm, if_true] at h5
              simp [actor_trig_handle.read_msg, hm, Function.comp_def, h5]
  | timeout =>
    simp only [TrigEvent.fired, List.append_nil]
    cases hw : w.ath._waiting with
    | false =>
      exact ⟨w, by simp [actor_trig_handle.step, hw], hn, hh, hc, hd, hs, done, pending, hF, hq,
        hcase⟩
    | true =>
      refine ⟨{ w with ath := { w.ath with _dstRef := none, _waiting := false } },
        by simp only [actor_trig_handle.step, hw, if_true], ?_⟩
      refine ⟨hn, hh, hc, by simp, by simp, done, pending, hF, hq, ?_⟩
      rcases hcase with ⟨h1, h2, h3, h4, h5⟩ | ⟨m0, r, h1, h2, h3, h4, h5⟩
      · exact Or.inl ⟨h1, h2, h3, h4, h5⟩
      · exact Or.inr ⟨m0, r, h1, h2, h3, h4, h5⟩
  | quit =>
    simp only [TrigEvent.fired, List.append_nil]
    refine ⟨_, rfl, hn, hh, hc, hd, hs, done, pending, hF, hq, ?_⟩
    rcases hcase with ⟨h1, h2, h3, h4, _⟩ | h2
    · exact Or.inl ⟨h1, h2, h3, h4, fun _ => rfl⟩
    · exact Or.inr h2

theorem trigEvent_fired_cons (e : TrigEvent M) (es : List (TrigEvent M)) :
    TrigEvent.fired (e :: es) = TrigEvent.fired [e] ++ TrigEvent.fired es := by
  cases e <;> simp [TrigEvent.fired]

theorem trigInv_run (n : actor_trig_notifer) (c : Nat) (out0 : List (Nat × M))
    (pushed0 F : List M) (w : HostWorld M) (es : List (TrigEvent M))
    (h : TrigInv n c out0 pushed0 F w) :
    ∃ w1, actor_trig_handle.run n w es = .ok w1 ∧
      TrigInv n c out0 pushed0 (F ++ TrigEvent.fired es) w1 := by
  induction es generalizing w F with
  | nil => exact ⟨w, rfl, by simpa [TrigEvent.fired] using h⟩
  | cons e es ih =>
    obtain ⟨w1, h1, hinv⟩ := trigInv_step n c out0 pushed0 F w e h
    obtain ⟨w2, h2, hinv2⟩ := ih _ w1 hinv
    refine ⟨w2, ?_, ?_⟩
    · simp [actor_trig_handle.run, h1, h2]
    · rw [trigEvent_fired_cons e es, ← List.append_assoc]
      exact hinv2


/-- C4: after `make_notifer` on a trigger handle (nothing pending on the host strand),
every sequence of notifier invocations, strand steps, consumer reads, consumer timeouts
and host quits runs without a failed assertion, and at its end: at most one message has
reached `push_msg` since `make_notifer`, it is the first one that was sent, the shared
`closed` cell is true once it has been pushed, and what the consumer has been handed is a
prefix of it (at most that one message).  While the host has not quited, the first
invocation does reach `push_msg`. -/
theorem actor_trig_handle_single_shot (w0 : HostWorld M) (host : Nat)
    (es : List (TrigEvent M)) (h0 : w0.strand = []) :
    (∃ w, actor_trig_handle.run (actor_trig_handle.make_notifer w0 host).1
        (actor_trig_handle.make_notifer w0 host).2 es = .ok w ∧
      ∃ p r, w.trigPushed = w0.trigPushed ++ p ∧ w.out = w0.out ++ r ∧
        p.length ≤ 1 ∧ (∀ m ∈ p, (TrigEvent.fired es).head? = some m) ∧
        (p ≠ [] → w.closed w0.closedCount = true) ∧
        r.map Prod.snd <+: p) ∧
    (w0.self._quited = false → ∀ m second,
      ∃ w, actor_trig_handle.run (actor_trig_handle.make_notifer w0 host).1
          (actor_trig_handle.make_notifer w0 host).2 [.fire m, .fire second, .run, .run] = .ok w ∧
        w.trigPushed = w0.trigPushed ++ [m] ∧ w.closed w0.closedCount = true) := by
  constructor
  · obtain ⟨w, hrun, hinv⟩ := trigInv_run _ _ _ _ [] _ es (trigInv_make_notifer w0 host h0)
    refine ⟨w, hrun, ?_⟩
    obtain ⟨_, _, _, _, _, done, pending, hF, _, hcase⟩ := hinv
    rcases hcase with ⟨h1, _, _, h4, _⟩ | ⟨m, r, h1, h2, h3, h4, h5⟩
    · exact ⟨[], [], by simp [h1], by simp [h4], by simp, by simp, by simp, by simp⟩
    · refine ⟨[m], r, h2, h4, by simp, ?_, fun _ => h3, ?_⟩
      · intro x hx
        simp only [List.mem_singleton] at hx
        subst hx
        simpa using h1
      · rw [← h5]
        exact List.prefix_append _ _
  · intro hq m second
    simp [actor_trig_handle.run, actor_trig_handle.step, actor_trig_notifer.call,
      actor_trig_handle.make_notifer, actor_trig_handle.close, h0,
      HostWorld.run_task, actor_trig_notifer.task, hq, actor_trig_handle.push_msg]

/-- Witness for C4: two invocations on the trigger of a newly created actor. -/
theorem actor_trig_handle_single_shot_witness :
    ∃ w, actor_trig_handle.run
        (actor_trig_handle.make_notifer (HostWorld.create 1 : HostWorld Nat) 1).1
        (actor_trig_handle.make_notifer (HostWorld.create 1 : HostWorld Nat) 1).2
        [.fire 5, .fire 6, .run, .run, .read 9] = .ok w ∧
      ∃ p r, w.trigPushed = (HostWorld.create 1 : HostWorld Nat).trigPushed ++ p ∧
        w.out = (HostWorld.create 1 : HostWorld Nat).out ++ r ∧
        p.length ≤ 1 ∧
        (∀ m ∈ p, (TrigEvent.fired [.fire 5, .fire 6, .run, .run, .read 9]).head? = some m) ∧
        (p ≠ [] → w.closed (HostWorld.create 1 : HostWorld Nat).closedCount = true) ∧
        r.map Prod.snd <+: p :=
  (actor_trig_handle_single_shot (HostWorld.create 1 : HostWorld Nat) 1
    [.fire 5, .fire 6, .run, .run, .read 9] rfl).1


/-! ### Timed wait on a mailbox -/

theorem await_step (w0 w : HostWorld M) (dst : Nat) (tm : Int) (e : HostEvent M)
    (h : AwaitInv w0 dst tm w) (he : e.is_msg) :
    ∃ w1, w.step e = .ok w1 ∧
      ((w1.self.resumes = w.self.resumes ∧ AwaitInv w0 dst tm w1) ∨
       (w1.self.resumes ≠ w.self.resumes ∧
        WaitPost w0 dst tm (some (my_actor._timed_wait_msg_resume w1 w0.self.frames tm)))) := by
  obtain ⟨hw, hd, hb, ho, hf, ht, htm, hno, hh, hop⟩ := h
  cases e with
  | msg_send n m =>
    refine ⟨n.call w m, rfl, Or.inl ⟨rfl, hw, hd, hb, ho, hf, ?_, htm, ?_, hh, hop⟩⟩
    · intro t hmem
      simp only [actor_msg_notifer.call, List.mem_append, List.mem_singleton] at hmem
      rcases hmem with hmem | rfl
      · exact ht t hmem
      · exact he
    · intro hneg
      refine ⟨?_, (hno hneg).2⟩
      intro t hmem
      simp only [actor_msg_notifer.call, List.mem_append, List.mem_singleton] at hmem
      rcases hmem with hmem | rfl
      · exact (hno hneg).1 t hmem
      · exact he
  | trig_send n m => exact absurd he (by simp [HostEvent.is_msg])
  | run_strand =>
    cases hs : w.strand with
    | nil =>
      exact ⟨w, by simp [HostWorld.step, hs], Or.inl ⟨rfl, hw, hd, hb, ho, hf, ht, htm, hno, hh, hop⟩⟩
    | cons t ts =>
      have htl : ∀ t' ∈ ts, t'.is_msg_or_timeout w0.self.frames := fun t' hm =>
        ht t' (by simp [hs, hm])
      have hnotl : tm < 0 → (∀ t' ∈ ts, t'.is_msg) ∧ w.self._timer = some ⟨none⟩ := fun hneg =>
        ⟨fun t' hm => (hno hneg).1 t' (by simp [hs, hm]), (hno hneg).2⟩
      have hpop : AwaitInv w0 dst tm { w with strand := ts } :=
        ⟨hw, hd, hb, ho, hf, htl, htm, hnotl, hh, hop⟩
      have hthis := ht t (by simp [hs])
      cases t with
      | trig_notify n m => exact absurd hthis (by simp [strand_task.is_msg_or_timeout])
      | msg_notify n m =>
        obtain ⟨hv1, hv2, hv3⟩ := hthis
        obtain ⟨a, ha⟩ := Option.isSome_iff_exists.mp hv2
        obtain ⟨c, hc⟩ := Option.isSome_iff_exists.mp hv3
        by_cases hg : (!w.self._quited && !(w.closed c)) = true
        · refine ⟨HostWorld.run_one { w with strand := ts, msgPushed := w.msgPushed ++ [m]
                                             out := w.out ++ [(dst, m)]
                                             amh := { w.amh with _waiting := false, _dstRef := none } },
            ?_, Or.inr ⟨?_, ?_⟩⟩
          · simp [HostWorld.step, hs, HostWorld.run_task, actor_msg_notifer.task, ha, hc, hg, hv1,
              actor_msg_handle.push_msg, hw, hb, hd, msg_queue.empty]
          · simp [HostWorld.run_one, my_actor.pull_yield]
          · have hf' : w0.self.frames ∉
                (HostWorld.run_one { w with strand := ts, msgPushed := w.msgPushed ++ [m]
                                            out := w.out ++ [(dst, m)]
                                            amh := { w.amh with _waiting := false,
                                                                _dstRef := none } }).self.timeoutSet := by
              simpa [HostWorld.run_one, my_actor.pull_yield] using hf
            rw [my_actor._timed_wait_msg_resume, if_pos hf']
            refine Or.inl ⟨rfl, ⟨m, ?_⟩, ?_⟩
            · show (if tm ≥ 0 then _ else _ : HostWorld M).out = _
              split <;> simp [HostWorld.run_one, ho]
            · show _ ∉ (if tm ≥ 0 then _ else _ : HostWorld M).self.timeoutSet
              split <;>
                simpa [HostWorld.run_one, my_actor.pull_yield, my_actor.cancel_delay_trig] using hf
        · refine ⟨{ w with strand := ts }, ?_, Or.inl ⟨rfl, hpop⟩⟩
          simp [HostWorld.step, hs, HostWorld.run_task, actor_msg_notifer.task, ha, hc, hg]
      | delay cb =>
        simp only [strand_task.is_msg_or_timeout] at hthis
        subst hthis
        have hnn : 0 ≤ tm := by
          by_contra hneg
          have := (hno (by omega)).1 (.delay (.wait_timeout w0.self.frames)) (by simp [hs])
          simp [strand_task.is_msg] at this
        refine ⟨{ w with strand := ts
                         self := w.self.run_delay_cb (.wait_timeout w0.self.frames) }, ?_,
          Or.inr ⟨?_, ?_⟩⟩
        · simp [HostWorld.step, hs, HostWorld.run_task]
        · simp [my_actor.run_delay_cb, my_actor.pull_yield]
        · rw [my_actor._timed_wait_msg_resume, if_neg (by simp [my_actor.run_delay_cb,
            my_actor.pull_yield])]
          refine Or.inr ⟨rfl, hnn, ho, by simp [my_actor.run_delay_cb, my_actor.pull_yield],
            rfl, rfl, hb, hh, ?_⟩
          simpa [my_actor.timed_wait_msg_assert] using hop
  | timer_expire =>
    rcases htm with htm | htm
    · refine ⟨w, ?_, Or.inl ⟨rfl, hw, hd, hb, ho, hf, ht, Or.inl htm, hno, hh, hop⟩⟩
      simp [HostWorld.step, my_actor.expires_timer, htm]
    · have hnn : 0 ≤ tm := by
        by_contra hneg
        have := (hno (by omega)).2
        rw [htm] at this
        simp at this
      refine ⟨{ w with self := w.self.expires_timer }, rfl, Or.inr ⟨?_, ?_⟩⟩
      · simp [my_actor.expires_timer, htm, my_actor.run_delay_cb, my_actor.pull_yield]
      · rw [my_actor._timed_wait_msg_resume, if_neg (by simp [my_actor.expires_timer, htm,
          my_actor.run_delay_cb, my_actor.pull_yield])]
        refine Or.inr ⟨rfl, hnn, ho, by simp [my_actor.expires_timer, htm,
          my_actor.run_delay_cb, my_actor.pull_yield], rfl, rfl, hb, ?_, ?_⟩
        · simpa [my_actor.expires_timer, htm, my_actor.run_delay_cb, my_actor.pull_yield] using hh
        · simpa [my_actor.timed_wait_msg_assert] using hop

theorem await_post (w0 w : HostWorld M) (dst : Nat) (tm : Int) (es : List (HostEvent M))
    (h : AwaitInv w0 dst tm w) (hes : ∀ e ∈ es, e.is_msg) :
    ∃ res, my_actor.await_msg w w0.self.frames tm es = .ok res ∧ WaitPost w0 dst tm res := by
  induction es generalizing w with
  | nil => exact ⟨none, rfl, trivial⟩
  | cons e es ih =>
    obtain ⟨w1, hstep, hcase⟩ := await_step w0 w dst tm e h (hes e (by simp))
    rcases hcase with ⟨hr, hinv⟩ | ⟨hr, hpost⟩
    · obtain ⟨res, hres, hp⟩ := ih w1 hinv (fun e' hm => hes e' (by simp [hm]))
      exact ⟨res, by simp [my_actor.await_msg, hstep, hr, hres], hp⟩
    · exact ⟨_, by simp [my_actor.await_msg, hstep, hr], hpost⟩

theorem wait_enter_buffered (w : HostWorld M) (dst : Nat) (tm : Int) (m0 : M) (rest : List M)
    (hr : WaitReady w) (hb : w.amh._msgBuff = m0 :: rest) :
    my_actor.timed_wait_msg_enter w dst tm =
      .ok (.returned true { w with out := w.out ++ [(dst, m0)]
                                   amh := { w.amh with _msgBuff := rest } }) := by
  simp [my_actor.timed_wait_msg_enter, hr.opened, my_actor._timed_wait_msg_enter, hr.host,
    actor_msg_handle.read_msg, msg_queue.front, hb, msg_queue.pop_front]

theorem wait_enter_empty (w : HostWorld M) (dst : Nat) (tm : Int)
    (hr : WaitReady w) (hb : w.amh._msgBuff = []) :
    ∃ w1, my_actor.timed_wait_msg_enter w dst tm = .ok (.yielded w.self.frames w1) ∧
      AwaitInv w dst tm w1 ∧
      (tm < 0 → w1.strand = w.strand ∧ w1.self._timer = w.self._timer) ∧
      (w1.strand = w.strand ∨ w1.strand = w.strand ++ [.delay (.wait_timeout w.self.frames)]) := by
  have hfl : w.self.frames ∉ w.self.timeoutSet := fun hm => by
    have := hr.frames _ hm
    omega
  have htasks : ∀ t ∈ w.strand, t.is_msg_or_timeout w.self.frames := by
    intro t hm
    have := hr.tasks t hm
    cases t <;> simp_all [strand_task.is_msg, strand_task.is_msg_or_timeout]
  have hop := hr.opened
  rcases lt_trichotomy tm 0 with hneg | hzero | hpos
  · refine ⟨{ w with amh := { w.amh with _dstRef := some dst, _waiting := true }
                     self := { w.self with frames := w.self.frames + 1 } }, ?_,
      ⟨rfl, rfl, hb, rfl, hfl, htasks, Or.inl hr.timer, fun _ => ⟨hr.tasks, hr.timer⟩,
      hr.host, ?_⟩, fun _ => ⟨rfl, rfl⟩, Or.inl rfl⟩
    · simp [my_actor.timed_wait_msg_enter, hr.opened, my_actor._timed_wait_msg_enter, hr.host,
        actor_msg_handle.read_msg, msg_queue.front, hb, not_le.mpr hneg]
    · simpa [my_actor.timed_wait_msg_assert] using hop
  · subst hzero
    refine ⟨{ w with amh := { w.amh with _dstRef := some dst, _waiting := true }
                     self := { w.self with frames := w.self.frames + 1 }
                     strand := w.strand ++ [.delay (.wait_timeout w.self.frames)] }, ?_,
      ⟨rfl, rfl, hb, rfl, hfl, ?_, Or.inl hr.timer, fun h => absurd h (by simp),
      hr.host, ?_⟩, fun h => absurd h (by simp), Or.inr rfl⟩
    · simp [my_actor.timed_wait_msg_enter, hr.opened, my_actor._timed_wait_msg_enter, hr.host,
        actor_msg_handle.read_msg, msg_queue.front, hb, my_actor.delay_trig]
    · intro t hm
      simp only [List.mem_append, List.mem_singleton] at hm
      rcases hm with hm | rfl
      · exact htasks t hm
      · simp [strand_task.is_msg_or_timeout]
    · simpa [my_actor.timed_wait_msg_assert] using hop
  · refine ⟨{ w with amh := { w.amh with _dstRef := some dst, _waiting := true }
                     self := ({ w.self with frames := w.self.frames + 1 }).time_out tm
                       (.wait_timeout w.self.frames) }, ?_,
      ⟨rfl, rfl, hb, rfl, hfl, htasks, Or.inr ?_, fun h => absurd h (by omega),
      hr.host, ?_⟩, fun h => absurd h (by omega), Or.inl rfl⟩
    · simp [my_actor.timed_wait_msg_enter, hr.opened, my_actor._timed_wait_msg_enter, hr.host,
        actor_msg_handle.read_msg, msg_queue.front, hb, my_actor.delay_trig, hpos, hpos.le,
        hr.timer]
    · simp [my_actor.time_out, hr.timer]
    · simpa [my_actor.timed_wait_msg_assert, my_actor.time_out] using hop

theorem timed_wait_msg_post (w : HostWorld M) (dst : Nat) (tm : Int) (es : List (HostEvent M))
    (hr : WaitReady w) (hes : ∀ e ∈ es, e.is_msg) :
    ∃ res, my_actor.timed_wait_msg w dst tm es = .ok res ∧ WaitPost w dst tm res := by
  cases hb : w.amh._msgBuff with
  | cons m0 rest =>
    refine ⟨some (true, { w with out := w.out ++ [(dst, m0)]
                                 amh := { w.amh with _msgBuff := rest } }),
      by simp [my_actor.timed_wait_msg, wait_enter_buffered w dst tm m0 rest hr hb], ?_⟩
    refine Or.inl ⟨rfl, ⟨m0, rfl⟩, fun hm => ?_⟩
    have := hr.frames _ hm
    omega
  | nil =>
    obtain ⟨w1, henter, hinv, _⟩ := wait_enter_empty w dst tm hr hb
    obtain ⟨res, hres, hp⟩ := await_post w w1 dst tm es hinv hes
    exact ⟨res, by simp [my_actor.timed_wait_msg, henter, hres], hp⟩


theorem waitReady_make_notifer (selfID : Nat) :
    WaitReady (actor_msg_handle.make_notifer (HostWorld.create selfID : HostWorld M) selfID).2 :=
  ⟨rfl, by simp [my_actor.timed_wait_msg_assert, actor_msg_handle.make_notifer,
      actor_msg_handle.close, HostWorld.create, actor_msg_handle.new], rfl, rfl,
    by simp [actor_msg_handle.make_notifer, actor_msg_handle.close, HostWorld.create],
    by simp [actor_msg_handle.make_notifer, actor_msg_handle.close, HostWorld.create]⟩

/-- C6: when `timed_wait_msg` on an empty mailbox has returned false (by timeout),
the handle has `_waiting == false`, no registered destination and an empty buffer; a
message pushed afterwards is buffered: `push_msg` succeeds, writes to no destination
and does not resume the actor; and the next `wait_msg` returns it at once, whatever
else happens. -/
theorem timed_wait_msg_timeout_then_push (w w1 : HostWorld M) (dst dst2 : Nat) (tm : Int)
    (es es2 : List (HostEvent M)) (m : M)
    (hr : WaitReady w) (hes : ∀ e ∈ es, e.is_msg)
    (hres : my_actor.timed_wait_msg w dst tm es = .ok (some (false, w1))) :
    w.amh._msgBuff = [] ∧
    w1.amh._waiting = false ∧ w1.amh._dstRef = none ∧ w1.amh._msgBuff = [] ∧
    w1.out = w.out ∧
    ∃ w2, actor_msg_handle.push_msg w1 m = .ok w2 ∧
      w2.amh._msgBuff = [m] ∧ w2.amh._waiting = false ∧ w2.out = w1.out ∧
      w2.self.resumes = w1.self.resumes ∧
      ∃ w3, my_actor.wait_msg w2 dst2 es2 = .ok (some (true, w3)) ∧
        w3.out = w1.out ++ [(dst2, m)] ∧ w3.amh._msgBuff = [] := by
  have hempty : w.amh._msgBuff = [] := by
    cases hb : w.amh._msgBuff with
    | nil => rfl
    | cons m0 rest =>
      rw [my_actor.timed_wait_msg, wait_enter_buffered w dst tm m0 rest hr hb] at hres
      simp at hres
  obtain ⟨res, hres', hp⟩ := timed_wait_msg_post w dst tm es hr hes
  rw [hres] at hres'
  cases hres'
  rcases hp with ⟨h1, _⟩ | ⟨_, _, ho, _, hw, hd, hbuf, hh, hop⟩
  · simp at h1
  · simp only at hw hd hbuf hh hop ho
    refine ⟨hempty, hw, hd, hbuf, ho, ?_⟩
    refine ⟨{ w1 with msgPushed := w1.msgPushed ++ [m]
                      amh := { w1.amh with _msgBuff := [m] } }, ?_, rfl, hw, rfl, rfl, ?_⟩
    · simp [actor_msg_handle.push_msg, hw, msg_queue.push_back, hbuf]
    · refine ⟨{ w1 with msgPushed := w1.msgPushed ++ [m], out := w1.out ++ [(dst2, m)]
                        amh := { w1.amh with _msgBuff := [] } }, ?_, rfl, rfl⟩
      have hop2 : my_actor.timed_wait_msg_assert
          ({ w1 with msgPushed := w1.msgPushed ++ [m]
                     amh := { w1.amh with _msgBuff := [m] } } : HostWorld M) = true := by
        simpa [my_actor.timed_wait_msg_assert] using hop
      rw [my_actor.wait_msg, my_actor.timed_wait_msg, my_actor.timed_wait_msg_enter, if_pos hop2]
      simp [my_actor._timed_wait_msg_enter, hh, actor_msg_handle.read_msg, msg_queue.front,
        msg_queue.pop_front]


theorem timed_wait_msg_timeout_example :
    ∃ w1, my_actor.timed_wait_msg
        (actor_msg_handle.make_notifer (HostWorld.create 1 : HostWorld Nat) 1).2 7 50
        [.timer_expire] = .ok (some (false, w1)) :=
  ⟨_, rfl⟩

/-- Witness for C6: the 50 ms wait of a new actor times out, then 3 is pushed and read. -/
theorem timed_wait_msg_timeout_then_push_witness :
    ∃ w1, my_actor.timed_wait_msg
        (actor_msg_handle.make_notifer (HostWorld.create 1 : HostWorld Nat) 1).2 7 50
        [.timer_expire] = .ok (some (false, w1)) ∧
      w1.amh._waiting = false ∧ w1.amh._dstRef = none ∧ w1.amh._msgBuff = [] ∧
      ∃ w2, actor_msg_handle.push_msg w1 3 = .ok w2 ∧ w2.amh._msgBuff = [3] ∧
        ∃ w3, my_actor.wait_msg w2 8 [] = .ok (some (true, w3)) ∧
          w3.out = w1.out ++ [(8, 3)] :=
  timed_wait_msg_timeout_example.elim fun w1 h =>
    have t := timed_wait_msg_timeout_then_push
      (actor_msg_handle.make_notifer (HostWorld.create 1 : HostWorld Nat) 1).2 w1 7 8 50
      [.timer_expire] [] 3 (waitReady_make_notifer 1) (by simp [HostEvent.is_msg]) h
    ⟨w1, h, t.2.1, t.2.2.1, t.2.2.2.1,
      t.2.2.2.2.2.elim fun w2 h2 =>
        ⟨w2, h2.1, h2.2.1, h2.2.2.2.2.2.elim fun w3 h3 => ⟨w3, h3.1, h3.2.1⟩⟩⟩


/-! ### Pump and pool: the channel invariant -/

@[simp]
theorem recvs_nil : chan_task.recvs ([] : List (chan_task M)) = [] := rfl

@[simp]
theorem recvs_append (a b : List (chan_task M)) :
    chan_task.recvs (a ++ b) = chan_task.recvs a ++ chan_task.recvs b := by
  simp [chan_task.recvs]

@[simp]
theorem recvs_cons (t : chan_task M) (q : List (chan_task M)) :
    chan_task.recvs (t :: q) = t.recv?.toList ++ chan_task.recvs q := by
  cases h : t.recv? <;> simp [chan_task.recvs, List.filterMap_cons, h]

@[simp]
theorem sends_nil : chan_task.sends ([] : List (chan_task M)) = [] := rfl

@[simp]
theorem sends_append (a b : List (chan_task M)) :
    chan_task.sends (a ++ b) = chan_task.sends a ++ chan_task.sends b := by
  simp [chan_task.sends]

@[simp]
theorem sends_cons (t : chan_task M) (q : List (chan_task M)) :
    chan_task.sends (t :: q) = t.send?.toList ++ chan_task.sends q := by
  cases h : t.send? <;> simp [chan_task.sends, List.filterMap_cons, h]

@[simp]
theorem hids_nil : chan_task.hids ([] : List (chan_task M)) = [] := rfl

@[simp]
theorem hids_append (a b : List (chan_task M)) :
    chan_task.hids (a ++ b) = chan_task.hids a ++ chan_task.hids b := by
  simp [chan_task.hids]

@[simp]
theorem hids_cons (t : chan_task M) (q : List (chan_task M)) :
    chan_task.hids (t :: q) = t.hid?.toList ++ chan_task.hids q := by
  cases h : t.hid? <;> simp [chan_task.hids, List.filterMap_cons, h]

theorem sends_eq_nil_of (q : List (chan_task M)) (h : ∀ t ∈ q, t.send? = none ∧ t.hid? = none) :
    chan_task.sends q = [] := by
  induction q with
  | nil => rfl
  | cons t q ih =>
    simp [(h t (by simp)).1, ih fun t' ht' => h t' (by simp [ht'])]

theorem idsOk_of_all (p : Nat) (l : List Nat) (h : ∀ i ∈ l, i = p) : IdsOk p l := by
  cases l with
  | nil => trivial
  | cons x l => exact Or.inl ⟨h x (by simp), fun i hi => h i (by simp [hi])⟩

theorem idsOk_of_all_prev (p : Nat) (l : List Nat) (h : ∀ i ∈ l, i = (p + 255) % 256) :
    IdsOk p l := by
  induction l with
  | nil => trivial
  | cons x l ih =>
    exact Or.inr ⟨h x (by simp), ih fun i hi => h i (by simp [hi])⟩

theorem idsOk_tail (p x : Nat) (l : List Nat) (h : IdsOk p (x :: l)) : IdsOk p l := by
  rcases h with ⟨_, h⟩ | ⟨_, h⟩
  · exact idsOk_of_all p l h
  · exact h

theorem idsOk_snoc (p : Nat) (l : List Nat) (h : IdsOk p l) : IdsOk p (l ++ [p]) := by
  induction l with
  | nil => exact Or.inl ⟨rfl, by simp⟩
  | cons x l ih =>
    rcases h with ⟨hx, h⟩ | ⟨hx, h⟩
    · refine Or.inl ⟨hx, ?_⟩
      intro i hi
      rcases List.mem_append.mp hi with hi | hi
      · exact h i hi
      · exact List.mem_singleton.mp hi
    · exact Or.inr ⟨hx, ih h⟩

theorem idsOk_head_eq (p : Nat) (l : List Nat) (h : IdsOk p (p :: l)) :
    ∀ i ∈ l, i = p := by
  rcases h with ⟨_, h⟩ | ⟨hx, _⟩
  · exact h
  · omega

theorem idsOk_head (p x : Nat) (l : List Nat) (h : IdsOk p (x :: l)) :
    x = p ∨ x = (p + 255) % 256 := by
  rcases h with ⟨hx, _⟩ | ⟨hx, _⟩
  · exact Or.inl hx
  · exact Or.inr hx

theorem idsOk_succ (p : Nat) (l : List Nat) (hp : p < 256) (h : ∀ i ∈ l, i = p) :
    IdsOk ((p + 1) % 256) l := by
  apply idsOk_of_all_prev
  intro i hi
  rw [h i hi]
  omega

theorem chanCore_drop_hd (s : Sys M) (fl pend : List M) (x : Nat)
    (h : ChanCore s fl pend [x]) : ChanCore s fl pend [] := by
  obtain ⟨h1, h2, h3, h4, h5, h6, h7, h8, h9, h10, h11, h12, h13, h14⟩ := h
  refine ⟨h1, h2, h3, h4, ?_, ?_, ?_, ?_, h9, h10, h11, h12, h13, h14⟩
  · intro hne
    obtain ⟨a, b, c⟩ := h5 hne
    exact ⟨a, b, fun i hi => c i (by simp at hi ⊢; exact Or.inr hi)⟩
  · exact idsOk_tail _ x _ h6
  · intro hw
    obtain ⟨a, c⟩ := h7 hw
    exact ⟨a, fun i hi => c i (by simp at hi ⊢; exact Or.inr hi)⟩
  · intro hm
    obtain ⟨a, b, c, d⟩ := h8 hm
    exact ⟨a, b, c, fun i hi => d i (by simp at hi ⊢; exact Or.inr hi)⟩

theorem receiver_inv (s : Sys M) (m : M) (hd : List Nat) (h : ChanCore s [m] [] hd)
    (hr : s.pump._dstRef = none → s.pump._waiting = false) :
    ∃ s1, msg_pump.receiver s m = .ok s1 ∧ ChanCore s1 [] [] hd ∧
      s1.pump._dstRef.isSome = s1.pump._waiting ∧ s1.debug = s.debug ∧
      s1.pushed = s.pushed := by
  obtain ⟨h1, h2, h3, h4, h5, h6, h7, h8, h9, h10, h11, h12, h13, h14⟩ := h
  have hrec : chan_task.recvs (s.poolQ ++ s.pumpQ) = [] := by
    simp only [List.singleton_append, List.length_cons] at h2
    exact List.eq_nil_of_length_eq_zero (by omega)
  obtain ⟨hW, hM, hall⟩ := h5 (by simp)
  have hstash : s.pump.stash = [] := by simp [msg_pump.stash, hM]
  simp only [hrec, hstash, List.append_nil, List.length_singleton] at h1 h3
  have hP : (s.pump._pumpCount + 1) % 256 < 256 := Nat.mod_lt _ (by norm_num)
  have hprev : ((s.pump._pumpCount + 1) % 256 + 255) % 256 = s.pump._pumpCount := by omega
  cases hdst : s.pump._dstRef with
  | none =>
    have hw := hr hdst
    refine ⟨{ s with pump := { s.pump with _pumpCount := (s.pump._pumpCount + 1) % 256
                                           _hasMsg := true, _msgSpace := some m } }, ?_, ?_,
      ?_, rfl, rfl⟩
    · simp [msg_pump.receiver, h9, hM, hdst, hw]
    · refine ⟨?_, ?_, ?_, hP, ?_, ?_, ?_, ?_, h9, h10, h11, h12, h13, h14⟩
      · simpa [msg_pump.stash, hrec] using h1
      · simp [hrec]
      · simp only [hrec]; simp [h3, Nat.mod_eq_of_lt hP]
      · intro hne; exact absurd hrec (by simpa using hne)
      · exact idsOk_succ _ _ h4 hall
      · intro hw'; simp [hW] at hw'
      · intro _
        refine ⟨hW, hdst, rfl, ?_⟩
        intro i hi
        show i = ((s.pump._pumpCount + 1) % 256 + 255) % 256
        rw [hprev]; exact hall i hi
    · simp [hdst, hw]
  | some d =>
    cases hw : s.pump._waiting with
    | true =>
      refine ⟨{ s with pump := { s.pump with _pumpCount := (s.pump._pumpCount + 1) % 256
                                             _dstRef := none, _waiting := false
                                             _checkDis := false }
                       out := s.out ++ [(d, m)], host := s.host.pull_yield }, ?_, ?_,
        ?_, rfl, rfl⟩
      · simp [msg_pump.receiver, h9, hM, hdst, hw]
      · refine ⟨?_, ?_, ?_, hP, ?_, ?_, ?_, ?_, h9, h10, h11, h12, h13, h14⟩
        · simpa [msg_pump.stash, hrec, hM] using h1
        · simp [hrec]
        · simp only [hrec]; simp [h3, Nat.mod_eq_of_lt hP]
        · intro hne; exact absurd hrec (by simpa using hne)
        · exact idsOk_succ _ _ h4 hall
        · intro hw'; simp [hW] at hw'
        · intro hm'; simp [hM] at hm'
      · simp
    | false =>
      refine ⟨{ s with pump := { s.pump with _pumpCount := (s.pump._pumpCount + 1) % 256
                                             _dstRef := none }
                       out := s.out ++ [(d, m)] }, ?_, ?_, ?_, rfl, rfl⟩
      · simp [msg_pump.receiver, h9, hM, hdst, hw]
      · refine ⟨?_, ?_, ?_, hP, ?_, ?_, ?_, ?_, h9, h10, h11, h12, h13, h14⟩
        · simpa [msg_pump.stash, hrec, hM] using h1
        · simp [hrec]
        · simp only [hrec]; simp [h3, Nat.mod_eq_of_lt hP]
        · intro hne; exact absurd hrec (by simpa using hne)
        · exact idsOk_succ _ _ h4 hall
        · intro hw'; simp [hW] at hw'
        · intro hm'; simp [hM] at hm'
      · simp [hw]

theorem post_receiver_inv (s : Sys M) (m : M) (hd : List Nat) (h : ChanCore s [m] [] hd) :
    ChanCore (s.post_pump (.receiver m)) [] [] hd ∧
      (s.post_pump (.receiver m)).pump = s.pump ∧
      (s.post_pump (.receiver m)).debug = s.debug ∧
      (s.post_pump (.receiver m)).pushed = s.pushed := by
  obtain ⟨h1, h2, h3, h4, h5, h6, h7, h8, h9, h10, h11, h12, h13, h14⟩ := h
  have hrec : chan_task.recvs (s.poolQ ++ s.pumpQ) = [] := by
    simp only [List.singleton_append, List.length_cons] at h2
    exact List.eq_nil_of_length_eq_zero (by omega)
  have hrec' := hrec
  simp only [recvs_append, List.append_eq_nil] at hrec'
  obtain ⟨hW, hM, hall⟩ := h5 (by simp)
  simp only [hrec, List.append_nil, List.length_singleton] at h1 h3
  cases hss : s.sameStrand with
  | true =>
    have hq : s.post_pump (.receiver m) = { s with poolQ := s.poolQ ++ [.receiver m] } := by
      simp [Sys.post_pump, hss]
    rw [hq]
    refine ⟨⟨?_, ?_, ?_, h4, ?_, ?_, ?_, ?_, h9, h10, ?_, h12, ?_, ?_⟩, rfl, rfl, rfl⟩
    · simpa [hrec'.1, hrec'.2, chan_task.recv?, chan_task.send?] using h1
    · simp [hrec'.1, hrec'.2, chan_task.recv?]
    · simp [hrec'.1, hrec'.2, chan_task.recv?, h3]
    · intro _
      exact ⟨hW, hM, by simpa [chan_task.hid?] using hall⟩
    · simpa [chan_task.hid?] using h6
    · intro hw; simp [hW] at hw
    · intro hm; simp [hM] at hm
    · intro ph i hmem
      simp only [List.mem_append, List.mem_singleton] at hmem
      rcases hmem with hmem | hmem
      · exact h11 ph i hmem
      · cases hmem
    · intro hp; simpa [chan_task.send?] using h13 hp
    · intro hs; simpa [chan_task.hid?] using h14 hs
  | false =>
    have hq : s.post_pump (.receiver m) = { s with pumpQ := s.pumpQ ++ [.receiver m] } := by
      simp [Sys.post_pump, hss]
    rw [hq]
    refine ⟨⟨?_, ?_, ?_, h4, ?_, ?_, ?_, ?_, h9, h10, h11, ?_, h13, ?_⟩, rfl, rfl, rfl⟩
    · simpa [hrec'.1, hrec'.2, chan_task.recv?] using h1
    · simp [hrec'.1, hrec'.2, chan_task.recv?]
    · simp [hrec'.1, hrec'.2, chan_task.recv?, h3]
    · intro _
      exact ⟨hW, hM, hall⟩
    · exact h6
    · intro hw; simp [hW] at hw
    · intro hm; simp [hM] at hm
    · intro t ht
      simp only [List.mem_append, List.mem_singleton] at ht
      rcases ht with ht | ht
      · exact h12 t ht
      · subst ht; simp [chan_task.send?, chan_task.hid?]
    · intro hs; simp [hss] at hs

theorem receive_msg_inv (s : Sys M) (m : M) (hd : List Nat) (h : ChanCore s [m] [] hd)
    (hr : s.pump._dstRef = none → s.pump._waiting = false) :
    ∃ s1, msg_pump.receive_msg s m = .ok s1 ∧ ChanCore s1 [] [] hd ∧
      (s.sameStrand = true → s1.pump._dstRef.isSome = s1.pump._waiting) ∧
      (s.sameStrand = false → s1.pump = s.pump) ∧
      s1.debug = s.debug ∧ s1.pushed = s.pushed := by
  cases hss : s.sameStrand with
  | true =>
    obtain ⟨s1, hs1, hc, hrd, hdb, hpu⟩ := receiver_inv s m hd h hr
    exact ⟨s1, by simp [msg_pump.receive_msg, hss, hs1], hc, fun _ => hrd, by simp, hdb, hpu⟩
  | false =>
    obtain ⟨hc, hp, hdb, hpu⟩ := post_receiver_inv s m hd h
    exact ⟨_, by simp [msg_pump.receive_msg, hss, msg_pump.receive_msg_post], hc, by simp,
      fun _ => hp, hdb, hpu⟩

theorem deliver_inv (s : Sys M) (m : M) (post : Bool) (h : ChanCore s [m] [] [])
    (hr : s.pump._dstRef.isSome = s.pump._waiting) :
    ∃ s1, (if post then .ok (msg_pump.receive_msg_post s m) else msg_pump.receive_msg s m)
        = .ok s1 ∧ ChanCore s1 [] [] [] ∧ s1.pump._dstRef.isSome = s1.pump._waiting ∧
      s1.debug = s.debug ∧ s1.pushed = s.pushed := by
  have hweak : s.pump._dstRef = none → s.pump._waiting = false := by
    intro hn; rw [← hr, hn]; rfl
  cases post with
  | true =>
    obtain ⟨hc, hp, hdb, hpu⟩ := post_receiver_inv s m [] h
    exact ⟨_, by simp [msg_pump.receive_msg_post], hc, by rw [hp]; exact hr, hdb, hpu⟩
  | false =>
    obtain ⟨s1, hs1, hc, hrs, hrd, hdb, hpu⟩ := receive_msg_inv s m [] h hweak
    refine ⟨s1, by simpa using hs1, hc, ?_, hdb, hpu⟩
    cases hss : s.sameStrand with
    | true => exact hrs hss
    | false => rw [hrd hss]; exact hr

theorem send_msg_inv (s : Sys M) (m : M) (post : Bool) (h : ChanCore s [] [m] [])
    (hr : s.pump._dstRef.isSome = s.pump._waiting) :
    ∃ s1, msg_pool.send_msg s m post = .ok s1 ∧ ChanCore s1 [] [] [] ∧
      s1.pump._dstRef.isSome = s1.pump._waiting ∧ s1.debug = s.debug ∧
      s1.pushed = s.pushed := by
  obtain ⟨h1, h2, h3, h4, h5, h6, h7, h8, h9, h10, h11, h12, h13, h14⟩ := h
  cases hW : s.pool._waiting with
  | false =>
    refine ⟨{ s with pool := { s.pool with _msgBuff := s.pool._msgBuff ++ [m] } }, ?_,
      ⟨?_, h2, h3, h4, ?_, h6, ?_, ?_, h9, h10, h11, h12, h13, h14⟩, hr, rfl, rfl⟩
    · simp [msg_pool.send_msg, hW, msg_queue.push_back]
    · simpa using h1
    · intro hne
      obtain ⟨_, b, c⟩ := h5 hne
      exact ⟨hW, b, c⟩
    · intro hw; simp [hW] at hw
    · intro hm
      obtain ⟨_, b, c, d⟩ := h8 hm
      exact ⟨hW, b, c, d⟩
  | true =>
    obtain ⟨hbuf, hall⟩ := h7 hW
    have hM : s.pump._hasMsg = false := by
      cases hm : s.pump._hasMsg with
      | false => rfl
      | true => have := (h8 hm).1; simp [hW] at this
    have hrec : chan_task.recvs (s.poolQ ++ s.pumpQ) = [] := by
      by_contra hne
      have := (h5 (by simpa using hne)).1
      simp [hW] at this
    simp only [hrec, List.append_nil, List.length_nil, List.nil_append, Nat.add_zero] at h1 h3
    have hS : s.pool._sendCount = s.pump._pumpCount := by
      rw [h3]; exact Nat.mod_eq_of_lt h4
    have hcore : ChanCore
        ({ s with pool := { s.pool with _waiting := false
                                        _sendCount := (s.pool._sendCount + 1) % 256 } } : Sys M)
        [m] [] [] := by
      refine ⟨?_, ?_, ?_, h4, ?_, h6, ?_, ?_, h9, h10, h11, h12, h13, h14⟩
      · simpa [hrec, hbuf] using h1
      · simp [hrec]
      · simp [hrec, hS]
      · intro _; exact ⟨rfl, hM, hall⟩
      · intro hw; simp at hw
      · intro hm; simp [hM] at hm
    obtain ⟨s1, hs1, hc, hrd, hdb, hpu⟩ := deliver_inv _ m post hcore hr
    refine ⟨s1, ?_, hc, hrd, hdb, hpu⟩
    simp only [msg_pool.send_msg, hW, if_true, h10.2, Option.isNone_some, Bool.and_false,
      Bool.false_eq_true, if_false, hbuf, msg_pool.with_pump]
    simpa [h10.2, hbuf] using hs1

theorem handler_inv (s : Sys M) (pumpID : Nat) (h : ChanCore s [] [] [pumpID])
    (hr : s.pump._dstRef = none → s.pump._waiting = false) :
    (∃ s1, pump_handler.call s ⟨some s.poolId, some s.pumpId⟩ pumpID true = .ok s1 ∧
      ChanCore s1 [] [] [] ∧ (s.sameStrand = false → s1.pump = s.pump) ∧
      s1.debug = s.debug ∧ s1.pushed = s.pushed) ∨
    (s.debug = true ∧
      pump_handler.call s ⟨some s.poolId, some s.pumpId⟩ pumpID true = .error .assert_failed) := by
  have hdrop := chanCore_drop_hd s [] [] pumpID h
  obtain ⟨h1, h2, h3, h4, h5, h6, h7, h8, h9, h10, h11, h12, h13, h14⟩ := h
  simp only [List.nil_append] at h1 h2 h3 h5
  simp only [List.singleton_append] at h5 h6 h7 h8
  by_cases hid : pumpID = s.pool._sendCount
  · -- the request is current: nothing is in flight
    have hrec : chan_task.recvs (s.poolQ ++ s.pumpQ) = [] := by
      by_contra hne
      obtain ⟨_, _, hall⟩ := h5 hne
      have hp := hall pumpID (by simp)
      have hlen : (chan_task.recvs (s.poolQ ++ s.pumpQ)).length = 1 := by
        have : (chan_task.recvs (s.poolQ ++ s.pumpQ)).length ≠ 0 := fun h0 =>
          hne (List.eq_nil_of_length_eq_zero h0)
        omega
      rw [hlen] at h3
      omega
    simp only [hrec, List.length_nil, Nat.add_zero, List.append_nil] at h1 h3
    have hS : s.pool._sendCount = s.pump._pumpCount := by
      rw [h3]; exact Nat.mod_eq_of_lt h4
    have hpid : pumpID = s.pump._pumpCount := hid.trans hS
    have hall : ∀ i ∈ chan_task.hids s.poolQ, i = s.pump._pumpCount := by
      rw [hpid] at h6
      exact idsOk_head_eq _ _ h6
    have hM : s.pump._hasMsg = false := by
      cases hm : s.pump._hasMsg with
      | false => rfl
      | true =>
        have := (h8 hm).2.2.2 pumpID (by simp)
        omega
    have hstash : s.pump.stash = [] := by simp [msg_pump.stash, hM]
    simp only [hstash, List.append_nil] at h1
    cases hbuf : s.pool._msgBuff with
    | nil =>
      refine Or.inl ⟨{ s with pool := { s.pool with _waiting := true } }, ?_,
        ⟨?_, ?_, ?_, h4, ?_, ?_, ?_, ?_, h9, h10, h11, h12, h13, h14⟩, fun _ => rfl, rfl, rfl⟩
      · simp [pump_handler.call, h10.2, hid, hbuf]
      · simpa [hrec, hstash, hbuf] using h1
      · simp [hrec]
      · simp [hrec, hS, Nat.mod_eq_of_lt h4]
      · intro hne; exact absurd hrec (by simpa using hne)
      · exact idsOk_of_all _ _ hall
      · intro _; exact ⟨hbuf, by simpa using hall⟩
      · intro hm; simp [hM] at hm
    | cons mt rest =>
      have hW : s.pool._waiting = false := by
        cases hw : s.pool._waiting with
        | false => rfl
        | true => have := (h7 hw).1; simp [hbuf] at this
      have hcore : ChanCore
          ({ s with pool := { s.pool with _msgBuff := rest
                                          _sendCount := (s.pool._sendCount + 1) % 256 } } : Sys M)
          [mt] [] [] := by
        refine ⟨?_, ?_, ?_, h4, ?_, ?_, ?_, ?_, h9, h10, h11, h12, h13, h14⟩
        · simpa [hrec, hstash, hbuf] using h1
        · simp [hrec]
        · simp [hrec, hS]
        · intro _; exact ⟨hW, hM, by simpa using hall⟩
        · exact idsOk_of_all _ _ hall
        · intro hw; simp [hW] at hw
        · intro hm; simp [hM] at hm
      obtain ⟨s1, hs1, hc, _, hpump, hdb, hpu⟩ := receive_msg_inv _ mt [] hcore hr
      refine Or.inl ⟨s1, ?_, hc, hpump, hdb, hpu⟩
      simp only [pump_handler.call, ne_eq, not_true_eq_false, if_false, if_true, h10.2, hid,
        hbuf, msg_pool.with_pump]
      simpa [h10.2] using hs1
  · -- the request is stale
    have hW : s.pool._waiting = false := by
      cases hw : s.pool._waiting with
      | false => rfl
      | true =>
        exfalso
        have hp := (h7 hw).2 pumpID (by simp)
        have hrec : chan_task.recvs (s.poolQ ++ s.pumpQ) = [] := by
          by_contra hne
          have := (h5 hne).1
          simp [hw] at this
        simp only [hrec, List.length_nil, Nat.add_zero] at h3
        rw [Nat.mod_eq_of_lt h4] at h3
        exact hid (hp.trans h3.symm)
    by_cases hassert : (s.debug && (s.pool._waiting || !(pumpID + 1 == s.pool._sendCount))) = true
    · refine Or.inr ⟨?_, ?_⟩
      · simp only [Bool.and_eq_true] at hassert
        exact hassert.1
      · simp [pump_handler.call, h10.2, hid, hassert]
    · refine Or.inl ⟨s, ?_, hdrop, fun _ => rfl, rfl, rfl⟩
      simp [pump_handler.call, h10.2, hid, hassert]

theorem pump_handler_call_congr (s : Sys M) (ph : pump_handler) (pumpID : Nat) (b c : Bool)
    (r : Except Err (Sys M)) (hb : b = c) (h : pump_handler.call s ph pumpID c = r) :
    pump_handler.call s ph pumpID b = r := by
  subst hb; exact h

theorem read_msg_inv (s : Sys M) (dst : Nat) (h : ChanInv s) (hnw : s.pump._waiting = false) :
    (∃ rs, msg_pump.read_msg s dst = .ok rs ∧ ChanInv rs.2 ∧ rs.2.debug = s.debug ∧
      rs.2.pushed = s.pushed) ∨
    (s.debug = true ∧ msg_pump.read_msg s dst = .error .assert_failed) := by
  obtain ⟨hcore, hreader⟩ := h
  have hdn : s.pump._dstRef = none := by
    rw [hnw] at hreader
    cases hd : s.pump._dstRef with
    | none => rfl
    | some d => simp [hd] at hreader
  have hguard : (s.debug && (s.pump._dstRef.isSome || s.pump._waiting)) = false := by
    simp [hdn, hnw]
  obtain ⟨h1, h2, h3, h4, h5, h6, h7, h8, h9, h10, h11, h12, h13, h14⟩ := hcore
  simp only [List.nil_append, List.append_nil] at h1 h2 h3 h5 h6 h7 h8
  cases hM : s.pump._hasMsg with
  | true =>
    obtain ⟨hW, _, hsp, hprev⟩ := h8 hM
    obtain ⟨m0, hm0⟩ := Option.isSome_iff_exists.mp hsp
    have hrec : chan_task.recvs (s.poolQ ++ s.pumpQ) = [] := by
      by_contra hne
      have := (h5 hne).2.1
      simp [hM] at this
    refine Or.inl ⟨(true, { s with out := s.out ++ [(dst, m0)]
                                   pump := { s.pump with _hasMsg := false, _msgSpace := none } }),
      ?_, ⟨⟨?_, ?_, ?_, h4, ?_, ?_, ?_, ?_, h9, h10, h11, h12, h13, h14⟩, ?_⟩, rfl, rfl⟩
    · simp [msg_pump.read_msg, hguard, hM, hm0]
    · simpa [msg_pump.stash, hM, hm0] using h1
    · simpa using h2
    · simpa using h3
    · intro hne; exact absurd hrec (by simpa using hne)
    · simpa using h6
    · intro hw; simp [hW] at hw
    · intro hm; simp at hm
    · simp [hdn, hnw]
  | false =>
    have hstash : s.pump.stash = [] := by simp [msg_pump.stash, hM]
    have hunfold : msg_pump.read_msg s dst =
        (match pump_handler.call ({ s with pump := { s.pump with _dstRef := some dst } } : Sys M)
            ⟨some s.poolId, some s.pumpId⟩ s.pump._pumpCount s.sameStrand with
          | .error e => .error e
          | .ok s2 =>
            .ok (!s2.pump._dstRef.isSome,
                 { s2 with pump := { s2.pump with _waiting := s2.pump._dstRef.isSome } })) := by
      simp [msg_pump.read_msg, hguard, hM, h10.1, pump_handler.empty]
    cases hss : s.sameStrand with
    | false =>
      refine Or.inl ⟨(false,
        { s with pump := { s.pump with _dstRef := some dst, _waiting := true }
                 poolQ := s.poolQ ++ [.pump_handler ⟨some s.poolId, some s.pumpId⟩
                   s.pump._pumpCount] }), ?_,
        ⟨⟨?_, ?_, ?_, h4, ?_, ?_, ?_, ?_, h9, h10, ?_, h12, ?_, ?_⟩, rfl⟩, rfl, rfl⟩
      · rw [hunfold, hss]
        simp [pump_handler.call, Sys.post_pool]
      · simpa [msg_pump.stash, hM, chan_task.recv?, chan_task.send?] using h1
      · simpa [chan_task.recv?] using h2
      · simpa [chan_task.recv?] using h3
      · intro hne
        obtain ⟨a, b, c⟩ := h5 (by simpa [chan_task.recv?] using hne)
        refine ⟨a, b, ?_⟩
        intro i hi
        simp only [List.nil_append, hids_append, hids_cons, chan_task.hid?, Option.toList_some,
          hids_nil, List.append_nil, List.mem_append, List.mem_singleton] at hi
        rcases hi with hi | hi
        · exact c i hi
        · exact hi
      · simpa [chan_task.hid?] using idsOk_snoc _ _ h6
      · intro hw
        obtain ⟨a, c⟩ := h7 hw
        refine ⟨a, ?_⟩
        intro i hi
        simp only [List.nil_append, hids_append, hids_cons, chan_task.hid?, Option.toList_some,
          hids_nil, List.append_nil, List.mem_append, List.mem_singleton] at hi
        rcases hi with hi | hi
        · exact c i hi
        · exact hi
      · intro hm; simp [hM] at hm
      · intro ph i hmem
        simp only [List.mem_append, List.mem_singleton] at hmem
        rcases hmem with hmem | hmem
        · exact h11 ph i hmem
        · cases hmem; rfl
      · intro hp; simpa [chan_task.send?] using h13 hp
      · intro hs; simp [hss] at hs
    | true =>
      obtain ⟨hh, hq⟩ := h14 hss
      have hcore1 : ChanCore ({ s with pump := { s.pump with _dstRef := some dst } } : Sys M)
          [] [] [s.pump._pumpCount] := by
        refine ⟨?_, ?_, ?_, h4, ?_, ?_, ?_, ?_, h9, h10, h11, h12, h13, h14⟩
        · simpa [msg_pump.stash, hM] using h1
        · simpa using h2
        · simpa using h3
        · intro hne
          obtain ⟨a, b, _⟩ := h5 (by simpa using hne)
          exact ⟨a, b, by simp [hh]⟩
        · simp only [hh]; exact Or.inl ⟨rfl, by simp⟩
        · intro hw
          exact ⟨(h7 hw).1, by simp [hh]⟩
        · intro hm; simp [hM] at hm
      rcases handler_inv _ s.pump._pumpCount hcore1 (by simp) with
        ⟨s2, hs2, hc2, _, hdb, hpu⟩ | ⟨hdbg, herr⟩
      · have hs2' : pump_handler.call
            ({ s with pump := { s.pump with _dstRef := some dst } } : Sys M)
            ⟨some s.poolId, some s.pumpId⟩ s.pump._pumpCount s.sameStrand = .ok s2 :=
          pump_handler_call_congr _ _ _ _ _ _ hss hs2
        refine Or.inl ⟨(!s2.pump._dstRef.isSome,
          { s2 with pump := { s2.pump with _waiting := s2.pump._dstRef.isSome } }), ?_,
          ⟨?_, rfl⟩, hdb, hpu⟩
        · rw [hunfold, hs2']
        · obtain ⟨k1, k2, k3, k4, k5, k6, k7, k8, k9, k10, k11, k12, k13, k14⟩ := hc2
          exact ⟨k1, k2, k3, k4, k5, k6, k7, k8, k9, k10, k11, k12, k13, k14⟩
      · have herr' : pump_handler.call
            ({ s with pump := { s.pump with _dstRef := some dst } } : Sys M)
            ⟨some s.poolId, some s.pumpId⟩ s.pump._pumpCount s.sameStrand
              = .error .assert_failed :=
          pump_handler_call_congr _ _ _ _ _ _ hss herr
        refine Or.inr ⟨hdbg, ?_⟩
        rw [hunfold, herr']

theorem chanEvent_pushes_cons (e : ChanEvent M) (es : List (ChanEvent M)) :
    ChanEvent.pushes (e :: es) = ChanEvent.pushes [e] ++ ChanEvent.pushes es := by
  cases e <;> simp [ChanEvent.pushes]

theorem run_task_pool_inv (s : Sys M) (t : chan_task M) (ts : List (chan_task M))
    (h : ChanInv s) (hq : s.poolQ = t :: ts) :
    (∃ s1, Sys.run_task { s with poolQ := ts } t = .ok s1 ∧ ChanInv s1 ∧
      s1.debug = s.debug ∧ s1.pushed = s.pushed) ∨
    (s.debug = true ∧ Sys.run_task { s with poolQ := ts } t = .error .assert_failed) := by
  obtain ⟨⟨h1, h2, h3, h4, h5, h6, h7, h8, h9, h10, h11, h12, h13, h14⟩, hreader⟩ := h
  have hweak : s.pump._dstRef = none → s.pump._waiting = false := by
    intro hn; rw [← hreader, hn]; rfl
  have hmem : ∀ ph i, chan_task.pump_handler ph i ∈ ts →
      ph = ⟨some s.poolId, some s.pumpId⟩ := fun ph i hm => h11 ph i (by simp [hq, hm])
  simp only [hq, List.nil_append, List.append_nil, List.cons_append, recvs_cons, sends_cons,
    hids_cons] at h1 h2 h3 h5 h6 h7 h8 h13 h14
  cases t with
  | send_msg m =>
    simp only [chan_task.recv?, chan_task.send?, chan_task.hid?, Option.toList_none,
      Option.toList_some, List.nil_append, List.singleton_append] at h1 h2 h3 h5 h6 h7 h8 h13 h14
    have hcore : ChanCore ({ s with poolQ := ts } : Sys M) [] [m] [] := by
      refine ⟨?_, ?_, ?_, h4, ?_, ?_, ?_, ?_, h9, h10, hmem, h12, ?_, h14⟩
      · simpa using h1
      · simpa using h2
      · simpa using h3
      · simpa using h5
      · simpa using h6
      · simpa using h7
      · simpa using h8
      · intro hp; simpa using h13 hp
    obtain ⟨s1, hs1, hc, hrd, hdb, hpu⟩ := send_msg_inv _ m false hcore hreader
    exact Or.inl ⟨s1, hs1, ⟨hc, hrd⟩, hdb, hpu⟩
  | pump_handler ph i =>
    have hph := h11 ph i (by simp [hq])
    subst hph
    simp only [chan_task.recv?, chan_task.send?, chan_task.hid?, Option.toList_none,
      Option.toList_some, List.nil_append, List.singleton_append] at h1 h2 h3 h5 h6 h7 h8 h13 h14
    have hss : s.sameStrand = false := by
      cases hs : s.sameStrand with
      | false => rfl
      | true => have := (h14 hs).1; simp at this
    have hcore : ChanCore ({ s with poolQ := ts } : Sys M) [] [] [i] := by
      refine ⟨?_, ?_, ?_, h4, ?_, ?_, ?_, ?_, h9, h10, hmem, h12, h13, ?_⟩
      · simpa using h1
      · simpa using h2
      · simpa using h3
      · simpa using h5
      · simpa using h6
      · simpa using h7
      · simpa using h8
      · intro hs; simp [hss] at hs
    rcases handler_inv _ i hcore hweak with ⟨s1, hs1, hc, hpump, hdb, hpu⟩ | ⟨hdbg, herr⟩
    · refine Or.inl ⟨s1, hs1, ⟨hc, ?_⟩, hdb, hpu⟩
      rw [hpump hss]; exact hreader
    · exact Or.inr ⟨hdbg, herr⟩
  | receiver m =>
    simp only [chan_task.recv?, chan_task.send?, chan_task.hid?, Option.toList_none,
      Option.toList_some, List.nil_append, List.singleton_append] at h1 h2 h3 h5 h6 h7 h8 h13 h14
    have hcore : ChanCore ({ s with poolQ := ts } : Sys M) [m] [] [] := by
      refine ⟨?_, ?_, ?_, h4, ?_, ?_, ?_, ?_, h9, h10, hmem, h12, h13, h14⟩
      · simpa using h1
      · simpa using h2
      · simpa using h3
      · simpa using h5
      · simpa using h6
      · simpa using h7
      · simpa using h8
    obtain ⟨s1, hs1, hc, hrd, hdb, hpu⟩ := receiver_inv _ m [] hcore hweak
    exact Or.inl ⟨s1, hs1, ⟨hc, hrd⟩, hdb, hpu⟩
  | delay cb =>
    simp only [chan_task.recv?, chan_task.send?, chan_task.hid?, Option.toList_none,
      Option.toList_some, List.nil_append, List.singleton_append] at h1 h2 h3 h5 h6 h7 h8 h13 h14
    refine Or.inl ⟨{ s with poolQ := ts, host := s.host.run_delay_cb cb }, rfl,
      ⟨⟨?_, ?_, ?_, h4, ?_, ?_, ?_, ?_, h9, h10, hmem, h12, h13, h14⟩, hreader⟩, rfl, rfl⟩
    · simpa using h1
    · simpa using h2
    · simpa using h3
    · simpa using h5
    · simpa using h6
    · simpa using h7
    · simpa using h8

theorem run_task_pump_inv (s : Sys M) (t : chan_task M) (ts : List (chan_task M))
    (h : ChanInv s) (hq : s.pumpQ = t :: ts) :
    ∃ s1, Sys.run_task { s with pumpQ := ts } t = .ok s1 ∧ ChanInv s1 ∧
      s1.debug = s.debug ∧ s1.pushed = s.pushed := by
  obtain ⟨⟨h1, h2, h3, h4, h5, h6, h7, h8, h9, h10, h11, h12, h13, h14⟩, hreader⟩ := h
  have hweak : s.pump._dstRef = none → s.pump._waiting = false := by
    intro hn; rw [← hreader, hn]; rfl
  have hss : s.sameStrand = false := by
    cases hs : s.sameStrand with
    | false => rfl
    | true => have := (h14 hs).2; simp [hq] at this
  have htl : ∀ t' ∈ ts, t'.send? = none ∧ t'.hid? = none := fun t' hm =>
    h12 t' (by simp [hq, hm])
  have ht := h12 t (by simp [hq])
  simp only [hq, List.nil_append, List.append_nil, recvs_append, recvs_cons] at h1 h2 h3 h5
  cases t with
  | send_msg m => simp [chan_task.send?] at ht
  | pump_handler ph i => simp [chan_task.hid?] at ht
  | receiver m =>
    simp only [chan_task.recv?, Option.toList_some, List.length_append, List.length_cons,
      List.length_nil] at h2
    have hp : chan_task.recvs s.poolQ = [] := List.eq_nil_of_length_eq_zero (by omega)
    have ht' : chan_task.recvs ts = [] := List.eq_nil_of_length_eq_zero (by omega)
    simp only [chan_task.recv?, Option.toList_some, hp, ht', List.nil_append, List.append_nil,
      List.length_singleton] at h1 h3 h5
    have hcore : ChanCore ({ s with pumpQ := ts } : Sys M) [m] [] [] := by
      refine ⟨?_, ?_, ?_, h4, ?_, h6, h7, h8, h9, h10, h11, htl, h13, ?_⟩
      · simpa [hp, ht'] using h1
      · simp [hp, ht']
      · simpa [hp, ht'] using h3
      · intro _; simpa using h5 (by simp)
      · intro hs; simp [hss] at hs
    obtain ⟨s1, hs1, hc, hrd, hdb, hpu⟩ := receiver_inv _ m [] hcore hweak
    exact ⟨s1, hs1, ⟨hc, hrd⟩, hdb, hpu⟩
  | delay cb =>
    simp only [chan_task.recv?, Option.toList_none, List.nil_append] at h1 h2 h3 h5
    refine ⟨{ s with pumpQ := ts, host := s.host.run_delay_cb cb }, rfl,
      ⟨⟨?_, ?_, ?_, h4, ?_, h6, h7, h8, h9, h10, h11, htl, h13, ?_⟩, hreader⟩, rfl, rfl⟩
    · simpa using h1
    · simpa using h2
    · simpa using h3
    · simpa using h5
    · intro hs; simp [hss] at hs

theorem step_inv (s : Sys M) (e : ChanEvent M) (h : ChanInv s) :
    (∃ s1, s.step e = .ok s1 ∧ ChanInv s1 ∧ s1.debug = s.debug ∧
      s1.pushed = s.pushed ++ ChanEvent.pushes [e]) ∨
    (s.debug = true ∧ s.step e = .error .assert_failed) := by
  cases e with
  | push m =>
    obtain ⟨⟨h1, h2, h3, h4, h5, h6, h7, h8, h9, h10, h11, h12, h13, h14⟩, hreader⟩ := h
    cases hp : s.prodInPool with
    | true =>
      have hsends := h13 hp
      have hcore : ChanCore ({ s with pushed := s.pushed ++ [m] } : Sys M) [] [m] [] := by
        refine ⟨?_, h2, h3, h4, h5, h6, h7, h8, h9, h10, h11, h12, h13, h14⟩
        simp only [hsends, List.append_nil] at h1 ⊢
        rw [h1]
      obtain ⟨s1, hs1, hc, hrd, hdb, hpu⟩ := send_msg_inv _ m true hcore hreader
      refine Or.inl ⟨s1, ?_, ⟨hc, hrd⟩, hdb, ?_⟩
      · simpa [Sys.step, msg_pool.push_msg, hp] using hs1
      · simpa [ChanEvent.pushes] using hpu
    | false =>
      refine Or.inl ⟨{ s with pushed := s.pushed ++ [m], poolQ := s.poolQ ++ [.send_msg m] }, ?_,
        ⟨⟨?_, ?_, ?_, h4, ?_, ?_, ?_, ?_, h9, h10, ?_, h12, ?_, ?_⟩, hreader⟩, rfl, ?_⟩
      · simp [Sys.step, msg_pool.push_msg, hp, Sys.post_pool]
      · simp only [List.nil_append, List.append_nil] at h1
        simp [chan_task.recv?, chan_task.send?, h1]
      · simpa [chan_task.recv?] using h2
      · simpa [chan_task.recv?] using h3
      · simpa [chan_task.recv?, chan_task.hid?] using h5
      · simpa [chan_task.hid?] using h6
      · simpa [chan_task.hid?] using h7
      · simpa [chan_task.hid?] using h8
      · intro ph i hmem
        simp only [List.mem_append, List.mem_singleton] at hmem
        rcases hmem with hmem | hmem
        · exact h11 ph i hmem
        · cases hmem
      · intro hp'; simp [hp] at hp'
      · intro hs; simpa [chan_task.hid?] using h14 hs
      · simp [ChanEvent.pushes]
  | run_pool =>
    cases hq : s.poolQ with
    | nil => exact Or.inl ⟨s, by simp [Sys.step, hq], h, rfl, by simp [ChanEvent.pushes]⟩
    | cons t ts =>
      rcases run_task_pool_inv s t ts h hq with ⟨s1, hs1, hc, hdb, hpu⟩ | ⟨hdbg, herr⟩
      · exact Or.inl ⟨s1, by simp [Sys.step, hq, hs1], hc, hdb, by simp [ChanEvent.pushes, hpu]⟩
      · exact Or.inr ⟨hdbg, by simp [Sys.step, hq, herr]⟩
  | run_pump =>
    cases hq : s.pumpQ with
    | nil => exact Or.inl ⟨s, by simp [Sys.step, hq], h, rfl, by simp [ChanEvent.pushes]⟩
    | cons t ts =>
      obtain ⟨s1, hs1, hc, hdb, hpu⟩ := run_task_pump_inv s t ts h hq
      exact Or.inl ⟨s1, by simp [Sys.step, hq, hs1], hc, hdb, by simp [ChanEvent.pushes, hpu]⟩
  | read dst =>
    cases hw : s.pump._waiting with
    | true => exact Or.inl ⟨s, by simp [Sys.step, hw], h, rfl, by simp [ChanEvent.pushes]⟩
    | false =>
      rcases read_msg_inv s dst h hw with ⟨rs, hrs, hc, hdb, hpu⟩ | ⟨hdbg, herr⟩
      · exact Or.inl ⟨rs.2, by simp [Sys.step, hw, hrs], hc, hdb, by simp [ChanEvent.pushes, hpu]⟩
      · exact Or.inr ⟨hdbg, by simp [Sys.step, hw, herr]⟩
  | timeout =>
    cases hw : s.pump._waiting with
    | false => exact Or.inl ⟨s, by simp [Sys.step, hw], h, rfl, by simp [ChanEvent.pushes]⟩
    | true =>
      obtain ⟨⟨h1, h2, h3, h4, h5, h6, h7, h8, h9, h10, h11, h12, h13, h14⟩, hreader⟩ := h
      refine Or.inl ⟨{ s with pump := { s.pump with _checkDis := false, _waiting := false
                                                    _dstRef := none } }, ?_,
        ⟨⟨?_, h2, h3, h4, h5, h6, h7, ?_, h9, h10, h11, h12, h13, h14⟩, rfl⟩, rfl, ?_⟩
      · simp [Sys.step, hw]
      · simpa [msg_pump.stash] using h1
      · intro hm
        obtain ⟨a, _, c, d⟩ := h8 hm
        exact ⟨a, rfl, c, d⟩
      · simp [ChanEvent.pushes]

theorem run_inv (s : Sys M) (es : List (ChanEvent M)) (h : ChanInv s) :
    (∃ s1, s.run es = .ok s1 ∧ ChanInv s1 ∧ s1.debug = s.debug ∧
      s1.pushed = s.pushed ++ ChanEvent.pushes es) ∨
    (s.debug = true ∧ s.run es = .error .assert_failed) := by
  induction es generalizing s with
  | nil => exact Or.inl ⟨s, rfl, h, rfl, by simp [ChanEvent.pushes]⟩
  | cons e es ih =>
    rcases step_inv s e h with ⟨s1, hs1, hc, hdb, hpu⟩ | ⟨hdbg, herr⟩
    · rcases ih s1 hc with ⟨s2, hs2, hc2, hdb2, hpu2⟩ | ⟨hdbg2, herr2⟩
      · refine Or.inl ⟨s2, by simp [Sys.run, hs1, hs2], hc2, hdb2.trans hdb, ?_⟩
        rw [hpu2, hpu, chanEvent_pushes_cons e es, List.append_assoc]
      · exact Or.inr ⟨hdb ▸ hdbg2, by simp [Sys.run, hs1, herr2]⟩
    · exact Or.inr ⟨hdbg, by simp [Sys.run, herr]⟩

theorem start_inv (debug sameStrand prodInPool : Bool) (poolId pumpId hostActor : Nat)
    (pre : List M) :
    ChanInv (Sys.start debug sameStrand prodInPool poolId pumpId hostActor pre) ∧
      (Sys.start debug sameStrand prodInPool poolId pumpId hostActor pre).debug = debug ∧
      (Sys.start debug sameStrand prodInPool poolId pumpId hostActor pre).pushed = pre := by
  refine ⟨⟨⟨?_, ?_, ?_, ?_, ?_, ?_, ?_, ?_, ?_, ?_, ?_, ?_, ?_, ?_⟩, ?_⟩, ?_, ?_⟩ <;>
    simp [Sys.start, Sys.create, Sys.connect, msg_pool.connect_pump, msg_pump.connect,
      msg_pump.make, msg_pool.make, msg_pump.stash, IdsOk]

theorem chanInv_handed_prefix (s : Sys M) (h : ChanInv s) : s.handed <+: s.pushed := by
  have := h.core.order
  rw [this, Sys.handed]
  simp only [List.append_assoc]
  exact List.prefix_append _ _

/-- C1: for a pool onto which `pre` was pushed before it was connected to a pump
(`connect_pump` followed by `connect`), for either build (assertions compiled in or
not), for pool and pump on the same strand or on two, for a producer inside or outside
the pool strand, and for every interleaving of `push_msg` calls, steps of the two
strands (posted `send_msg`, pump requests, message receipts), reader `read_msg` calls and
reader timeouts: the sequence of messages handed to the reader (written to a destination
by `receiver` or taken from the stash by `read_msg`) is a prefix of the sequence of
messages pushed, in push order.  Without assertions every interleaving runs to its end;
with them a run can only be cut short by a failed assertion. -/
theorem msg_pool_pump_fifo (debug sameStrand prodInPool : Bool) (poolId pumpId hostActor : Nat)
    (pre : List M) (es : List (ChanEvent M)) :
    (∀ s, (Sys.start debug sameStrand prodInPool poolId pumpId hostActor pre).run es = .ok s →
      s.handed <+: pre ++ ChanEvent.pushes es) ∧
    (∃ s, (Sys.start false sameStrand prodInPool poolId pumpId hostActor pre).run es = .ok s ∧
      s.handed <+: pre ++ ChanEvent.pushes es) ∧
    ((Sys.start debug sameStrand prodInPool poolId pumpId hostActor pre).run es
        = .error .assert_failed ∨
      ∃ s, (Sys.start debug sameStrand prodInPool poolId pumpId hostActor pre).run es = .ok s) := by
  refine ⟨?_, ?_, ?_⟩
  · intro s hs
    obtain ⟨hinv, hdb, hpu⟩ := start_inv debug sameStrand prodInPool poolId pumpId hostActor pre
    rcases run_inv _ es hinv with ⟨s1, hs1, hc, _, hpu1⟩ | ⟨_, herr⟩
    · rw [hs1] at hs
      cases hs
      have := chanInv_handed_prefix s hc
      rwa [hpu1, hpu] at this
    · rw [herr] at hs; cases hs
  · obtain ⟨hinv, hdb, hpu⟩ := start_inv false sameStrand prodInPool poolId pumpId hostActor pre
    rcases run_inv _ es hinv with ⟨s1, hs1, hc, _, hpu1⟩ | ⟨hdbg, _⟩
    · refine ⟨s1, hs1, ?_⟩
      have := chanInv_handed_prefix s1 hc
      rwa [hpu1, hpu] at this
    · rw [hdb] at hdbg; cases hdbg
  · obtain ⟨hinv, hdb, hpu⟩ := start_inv debug sameStrand prodInPool poolId pumpId hostActor pre
    rcases run_inv _ es hinv with ⟨s1, hs1, _⟩ | ⟨_, herr⟩
    · exact Or.inr ⟨s1, hs1⟩
    · exact Or.inl herr

/-! ### Timed wait on a pump: disconnection -/

theorem receiver_pumpHandler (s s1 : Sys M) (m : M) (h : msg_pump.receiver s m = .ok s1) :
    s1.pump._pumpHandler = s.pump._pumpHandler := by
  unfold msg_pump.receiver at h
  split at h
  · split at h
    · cases h
    · simp only at h
      split at h
      · split at h <;> (cases h; rfl)
      · split at h
        · cases h
        · cases h; rfl
  · cases h; rfl

theorem receive_msg_pumpHandler (s s1 : Sys M) (m : M)
    (h : msg_pump.receive_msg s m = .ok s1) :
    s1.pump._pumpHandler = s.pump._pumpHandler := by
  unfold msg_pump.receive_msg at h
  split at h
  · exact receiver_pumpHandler s s1 m h
  · cases h
    simp only [msg_pump.receive_msg_post, Sys.post_pump]
    split <;> rfl

theorem pump_handler_call_pumpHandler (s s1 : Sys M) (ph : pump_handler) (pumpID : Nat)
    (b : Bool) (h : pump_handler.call s ph pumpID b = .ok s1) :
    s1.pump._pumpHandler = s.pump._pumpHandler := by
  unfold pump_handler.call at h
  split at h
  · cases h
  · split at h
    · cases h; rfl
    · split at h
      · split at h
        · split at h
          · split at h
            · unfold msg_pool.with_pump at h
              split at h
              · cases h
              · split at h
                · have := receive_msg_pumpHandler _ s1 _ h
                  exact this
                · cases h; rfl
            · cases h; rfl
          · split at h
            · cases h
            · cases h; rfl
        · cases h; rfl
      · cases h; rfl

theorem read_msg_pumpHandler (s : Sys M) (dst : Nat) (rs : Bool × Sys M)
    (h : msg_pump.read_msg s dst = .ok rs) :
    rs.2.pump._pumpHandler = s.pump._pumpHandler := by
  unfold msg_pump.read_msg at h
  split at h
  · cases h
  · split at h
    · cases h; rfl
    · simp only at h
      split at h
      · split at h
        · cases h
        · rename_i s2 hs2
          cases h
          have := pump_handler_call_pumpHandler _ s2 _ _ _ hs2
          exact this
      · cases h; rfl

/-- C7: for a call of `_timed_pump_msg` that passes its entry assertions (the pump
belongs to the calling actor, no reader is registered), `pump_disconnected_exception` is
thrown before the actor yields exactly when `checkDis` is true, the pump holds no
stashed message and the pump has no bound pump handler; when it is thrown the pump is
left not waiting with no registered destination, and the actor, its timer, the strand
queues and the destinations are as they were (no timeout was scheduled); when a message
is stashed the call returns true with that message whatever `checkDis` and the
handler are. -/
theorem timed_pump_msg_throws_at_entry (s : Sys M) (dst : Nat) (tm : Int) (checkDis : Bool)
    (hhost : s.pump._hostActor = some s.host._selfID)
    (hidle : s.pump._waiting = false) (hdst : s.pump._dstRef = none) :
    ((∃ s1, my_actor._timed_pump_msg_enter s dst tm checkDis = .ok (.thrown s1)) ↔
      (checkDis = true ∧ s.pump._hasMsg = false ∧ s.pump.isDisconnected = true)) ∧
    (∀ s1, my_actor._timed_pump_msg_enter s dst tm checkDis = .ok (.thrown s1) →
      s1.pump._waiting = false ∧ s1.pump._dstRef = none ∧ s1.host = s.host ∧
      s1.poolQ = s.poolQ ∧ s1.pumpQ = s.pumpQ ∧ s1.out = s.out ∧ s1.pool = s.pool) ∧
    (∀ m, s.pump._hasMsg = true → s.pump._msgSpace = some m →
      my_actor._timed_pump_msg_enter s dst tm checkDis =
        .ok (.returned true { s with out := s.out ++ [(dst, m)]
                                     pump := { s.pump with _hasMsg := false
                                                           _msgSpace := none } })) := by
  have hguard : (s.debug && !(s.pump._hostActor == some s.host._selfID)) = false := by
    simp [hhost]
  have hguard2 : (s.debug && (s.pump._dstRef.isSome || s.pump._waiting)) = false := by
    simp [hdst, hidle]
  cases hM : s.pump._hasMsg with
  | true =>
    have henter : my_actor._timed_pump_msg_enter s dst tm checkDis =
        .ok (.returned true { s with
          out := s.out ++ s.pump._msgSpace.toList.map (fun m => (dst, m))
          pump := { s.pump with _hasMsg := false, _msgSpace := none } }) := by
      simp [my_actor._timed_pump_msg_enter, hguard, msg_pump.read_msg, hguard2, hM]
    refine ⟨⟨?_, ?_⟩, ?_, ?_⟩
    · rintro ⟨s1, h1⟩
      rw [henter] at h1
      cases h1
    · rintro ⟨_, h2, _⟩
      cases h2
    · intro s1 h1
      rw [henter] at h1
      cases h1
    · intro m _ hm
      rw [henter, hm]
      rfl
  | false =>
    cases hE : s.pump._pumpHandler.empty with
    | true =>
      have hread : msg_pump.read_msg s dst =
          .ok (false, { s with pump := { s.pump with _dstRef := some dst, _waiting := true } }) := by
        simp [msg_pump.read_msg, hguard2, hM, hE]
      cases checkDis with
      | true =>
        have henter : my_actor._timed_pump_msg_enter s dst tm true =
            .ok (.thrown { s with pump := { s.pump with _dstRef := none, _waiting := false } }) := by
          simp [my_actor._timed_pump_msg_enter, hguard, hread, msg_pump.isDisconnected, hE]
        refine ⟨⟨fun _ => ⟨rfl, rfl, ?_⟩, fun _ => ⟨_, henter⟩⟩, ?_, ?_⟩
        · simp [msg_pump.isDisconnected, hE]
        · intro s1 h1
          rw [henter] at h1
          cases h1
          exact ⟨rfl, rfl, rfl, rfl, rfl, rfl, rfl⟩
        · intro m hm; cases hm
      | false =>
        refine ⟨⟨?_, ?_⟩, ?_, ?_⟩
        · rintro ⟨s1, h1⟩
          simp only [my_actor._timed_pump_msg_enter, hguard, hread, Bool.false_eq_true, if_false,
            Bool.false_and] at h1
          split at h1
          · split at h1
            · cases h1
            · cases h1
          · cases h1
        · rintro ⟨h1, _⟩; cases h1
        · intro s1 h1
          simp only [my_actor._timed_pump_msg_enter, hguard, hread, Bool.false_eq_true, if_false,
            Bool.false_and] at h1
          split at h1
          · split at h1
            · cases h1
            · cases h1
          · cases h1
        · intro m hm; cases hm
    | false =>
      have hnot : ∀ s1, my_actor._timed_pump_msg_enter s dst tm checkDis ≠ .ok (.thrown s1) := by
        intro s1 h1
        simp only [my_actor._timed_pump_msg_enter, hguard, Bool.false_eq_true, if_false] at h1
        split at h1
        · cases h1
        · rename_i rs hrs
          have hph := read_msg_pumpHandler s dst rs hrs
          split at h1
          · cases h1
          · have hdis : rs.2.pump.isDisconnected = false := by
              simp [msg_pump.isDisconnected, hph, hE]
            simp only [hdis, Bool.and_false, Bool.false_eq_true, if_false] at h1
            split at h1
            · split at h1
              · cases h1
              · cases h1
            · cases h1
      refine ⟨⟨?_, ?_⟩, ?_, ?_⟩
      · rintro ⟨s1, h1⟩
        exact absurd h1 (hnot s1)
      · rintro ⟨_, _, h3⟩
        simp [msg_pump.isDisconnected, hE] at h3
      · intro s1 h1
        exact absurd h1 (hnot s1)
      · intro m hm; cases hm

/-- Witness for C7: `timed_pump_msg` with `checkDis` on a pump that was never connected. -/
theorem timed_pump_msg_throws_at_entry_witness :
    (∃ s1, my_actor._timed_pump_msg_enter (Sys.create true false false 1 2 3 : Sys Nat) 7 50 true
        = .ok (.thrown s1)) ↔
      (true = true ∧ (Sys.create true false false 1 2 3 : Sys Nat).pump._hasMsg = false ∧
        (Sys.create true false false 1 2 3 : Sys Nat).pump.isDisconnected = true) :=
  (timed_pump_msg_throws_at_entry (Sys.create true false false 1 2 3 : Sys Nat) 7 50 true
    rfl rfl rfl).1

/-- The parts of C8 that hold for every `tm`: for an actor suspended in activation
`frame` of `_timed_pump_msg`, `msg_pump::clear` with the check flag set resumes the actor,
which throws `pump_disconnected_exception`, resets the check flag and clears the actor's
timer, leaving the strand queues as they are; with the check flag not set, `clear` does
not resume the actor, and a wait whose pump has the check flag unset never throws; a
message received while waiting resumes the actor, whose wait returns true. -/
theorem timed_pump_msg_clear_while_waiting (s : Sys M) (frame : Nat) (tm : Int)
    (hhost : s.pump._hostActor.isSome = true) (hw : s.pump._waiting = true)
    (hf : frame ∉ s.host.timeoutSet) :
    (s.pump._checkDis = true →
      ∃ s1, Sys.clear s = .ok s1 ∧ s1.host.resumes = s.host.resumes + 1 ∧
        ∃ s2, my_actor._timed_pump_msg_resume s1 frame tm true = .ok (.thrown s2) ∧
          s2.pump._checkDis = false ∧ s2.pump._waiting = false ∧
          (0 ≤ tm → s2.host._timer = s.host._timer.map fun _ => ⟨none⟩) ∧
          s2.poolQ = s.poolQ ∧ s2.pumpQ = s.pumpQ) ∧
    (s.pump._checkDis = false →
      ∃ s1, Sys.clear s = .ok s1 ∧ s1.host = s.host ∧ s1.pump._waiting = true ∧
        s1.pump._checkDis = false ∧ s1.pump.isDisconnected = true) ∧
    (∀ s1 : Sys M, s1.pump._checkDis = false →
      ∀ s2, my_actor._timed_pump_msg_resume s1 frame tm false ≠ .ok (.thrown s2)) ∧
    (∀ m d, s.pump._dstRef = some d → s.pump._hasMsg = false →
      ∃ s1, msg_pump.receiver s m = .ok s1 ∧ s1.host.resumes = s.host.resumes + 1 ∧
        s1.out = s.out ++ [(d, m)] ∧
        ∀ cd, ∃ s2, my_actor._timed_pump_msg_resume s1 frame tm cd = .ok (.returned true s2)) := by
  have hnone : s.pump._hostActor.isNone = false := by
    cases h : s.pump._hostActor with
    | none => simp [h] at hhost
    | some a => rfl
  refine ⟨?_, ?_, ?_, ?_⟩
  · intro hcd
    refine ⟨{ s with pump := { s.pump with _pumpHandler := s.pump._pumpHandler.clear
                                           _waiting := false, _dstRef := none }
                     host := s.host.pull_yield }, ?_, rfl, ?_⟩
    · simp [Sys.clear, msg_pump.clear, hnone, hcd, hw]
    · by_cases htm : tm ≥ 0
      · refine ⟨{ s with pump := { s.pump with _pumpHandler := s.pump._pumpHandler.clear
                                               _waiting := false, _dstRef := none
                                               _checkDis := false }
                         host := s.host.pull_yield.cancel_delay_trig }, ?_, rfl, rfl, ?_, rfl, rfl⟩
        · simp [my_actor._timed_pump_msg_resume, my_actor.pull_yield, hf, htm, hcd]
        · intro _
          simp [my_actor.cancel_delay_trig, my_actor.pull_yield]
      · refine ⟨{ s with pump := { s.pump with _pumpHandler := s.pump._pumpHandler.clear
                                               _waiting := false, _dstRef := none
                                               _checkDis := false }
                         host := s.host.pull_yield }, ?_, rfl, rfl, ?_, rfl, rfl⟩
        · simp [my_actor._timed_pump_msg_resume, my_actor.pull_yield, hf, htm, hcd]
        · intro h0; exact absurd h0 htm
  · intro hcd
    refine ⟨{ s with pump := { s.pump with _pumpHandler := s.pump._pumpHandler.clear } }, ?_,
      rfl, hw, hcd, ?_⟩
    · simp [Sys.clear, msg_pump.clear, hnone, hcd]
    · simp [msg_pump.isDisconnected, pump_handler.clear, pump_handler.empty]
  · intro s1 hcd s2 h
    by_cases htm : tm ≥ 0 <;> by_cases hfr : frame ∈ s1.host.timeoutSet <;>
      simp [my_actor._timed_pump_msg_resume, htm, hfr, hcd] at h
  · intro m d hd hM
    refine ⟨{ s with pump := { s.pump with _pumpCount := (s.pump._pumpCount + 1) % 256
                                           _dstRef := none, _waiting := false
                                           _checkDis := false }
                     out := s.out ++ [(d, m)], host := s.host.pull_yield }, ?_, rfl, rfl, ?_⟩
    · simp [msg_pump.receiver, hhost, hM, hd, hw]
    · intro cd
      by_cases htm : tm ≥ 0
      · simp [my_actor._timed_pump_msg_resume, my_actor.pull_yield, hf, htm]
      · simp [my_actor._timed_pump_msg_resume, my_actor.pull_yield, hf, htm]

/-- Witness for the general part of C8: the reader of a connected pump waits with
`checkDis` set. -/
theorem timed_pump_msg_clear_while_waiting_witness :
    ∃ s1, Sys.clear
        ({ (Sys.start true false false 1 2 3 ([] : List Nat)) with
            pump := { (Sys.start true false false 1 2 3 ([] : List Nat)).pump with
                        _waiting := true, _dstRef := some 7, _checkDis := true } } : Sys Nat)
        = .ok s1 ∧
      s1.host.resumes = 1 :=
  ((timed_pump_msg_clear_while_waiting
    ({ (Sys.start true false false 1 2 3 ([] : List Nat)) with
        pump := { (Sys.start true false false 1 2 3 ([] : List Nat)).pump with
                    _waiting := true, _dstRef := some 7, _checkDis := true } } : Sys Nat)
    0 50 rfl rfl (List.not_mem_nil 0)).1 rfl).elim
    fun s1 h => ⟨s1, h.1, h.2.1⟩

/-- C8 at `tm = 0`: a reader calls `timed_pump_msg(0, pump, r0, true)` on a connected
pump with nothing to read and yields; the timeout closure has been posted on the actor's
strand.  The pump is then cleared: the actor is resumed, `pump_disconnected_exception`
is thrown and the check flag is reset, but the timeout closure of this wait is still
queued, and when the strand runs it the actor is switched in once more. -/
theorem timed_pump_msg_clear_zero_timeout :
    ∃ f s1, my_actor._timed_pump_msg_enter (Sys.start true false false 1 2 3 ([] : List Nat))
        7 0 true = .ok (.yielded f s1) ∧
      ∃ s2, Sys.clear s1 = .ok s2 ∧ s2.host.resumes = s1.host.resumes + 1 ∧
        ∃ s3, my_actor._timed_pump_msg_resume s2 f 0 true = .ok (.thrown s3) ∧
          s3.pump._checkDis = false ∧ s3.timeout_pending f ∧
          ∃ s4, s3.step .run_pump = .ok s4 ∧ s4.host.resumes = s3.host.resumes + 1 :=
  ⟨_, _, rfl, _, rfl, rfl, _, rfl, rfl, Or.inr (by simp [Sys.start, Sys.connect, Sys.create,
    Sys.post_pool, Sys.post_pump, msg_pool.connect_pump, msg_pump.connect, msg_pump.make]),
    _, rfl, rfl⟩

/-- C9: `read_msg` called while `_waiting` is set, reached through the waits.  Actor 1
has taken the message 5 with `timed_wait_msg(0, amh, r0)`; the timeout closure of that
wait is still queued on its strand.  The actor then calls `wait_msg` with destination 8:
`read_msg` registers 8 and the actor yields; the strand runs the queued closure, which
switches the actor in, and the wait returns with nothing written and the mailbox still
flagged waiting with destination 8.  The actor's next wait, with destination 9, passes
the entry assertions and its `read_msg` fails none: it replaces 8 by 9 and the actor
yields.  The same happens when the second and third waits are on the actor's trigger.
On a pump the same sequence (a message in flight is received during
`timed_pump_msg(0, ...)`, the queued closure ends the second wait) leaves the pump
flagged waiting with destination 8, and the `read_msg` of the third wait fails its
assertion. -/
theorem read_msg_second_waiter :
    (∃ w1, my_actor.timed_wait_msg HostWorld.sentBeforeWait 7 0 [.run_strand]
        = .ok (some (true, w1)) ∧
      w1.amh._waiting = false ∧ w1.strand = [.delay (.wait_timeout 0)] ∧
      ∃ w2, my_actor.wait_msg w1 8 [.run_strand] = .ok (some (true, w2)) ∧
        w2.out = [(7, 5)] ∧ w2.strand = [] ∧
        w2.amh._waiting = true ∧ w2.amh._dstRef = some 8 ∧
        ∃ f w3, my_actor.timed_wait_msg_enter w2 9 (-1) = .ok (.yielded f w3) ∧
          w3.amh._waiting = true ∧ w3.amh._dstRef = some 9) ∧
    (∃ w1, my_actor.timed_wait_msg
        (actor_trig_handle.make_notifer HostWorld.sentBeforeWait 1).2 7 0 [.run_strand]
        = .ok (some (true, w1)) ∧
      w1.ath._waiting = false ∧ w1.strand = [.delay (.wait_timeout 0)] ∧
      ∃ w2, my_actor.wait_trig w1 8 [.run_strand] = .ok (some (true, w2)) ∧
        w2.out = [(7, 5)] ∧ w2.strand = [] ∧
        w2.ath._waiting = true ∧ w2.ath._dstRef = some 8 ∧
        ∃ f w3, my_actor.timed_wait_trig_enter w2 9 (-1) = .ok (.yielded f w3) ∧
          w3.ath._waiting = true ∧ w3.ath._dstRef = some 9) ∧
    (∃ s0, (Sys.start true false true 1 2 3 ([] : List Nat)).run
        [.read 0, .run_pool, .push 5, .timeout] = .ok s0 ∧
      s0.pump._waiting = false ∧ s0.pump._dstRef = none ∧
      chan_task.recvs s0.pumpQ = [5] ∧
      ∃ f1 s1, my_actor._timed_pump_msg_enter s0 7 0 false = .ok (.yielded f1 s1) ∧
        ∃ s2, s1.step .run_pump = .ok s2 ∧ s2.host.resumes = s1.host.resumes + 1 ∧
          ∃ s3, my_actor._timed_pump_msg_resume s2 f1 0 false = .ok (.returned true s3) ∧
            s3.out = [(7, 5)] ∧ s3.pump._waiting = false ∧
            s3.pumpQ = [.delay (.pump_timeout f1)] ∧
            ∃ f2 s4, my_actor._timed_pump_msg_enter s3 8 (-1) false = .ok (.yielded f2 s4) ∧
              ∃ s5, s4.step .run_pump = .ok s5 ∧ s5.host.resumes = s4.host.resumes + 1 ∧
                ∃ s6, my_actor._timed_pump_msg_resume s5 f2 (-1) false
                    = .ok (.returned true s6) ∧
                  s6.out = [(7, 5)] ∧ s6.pump._waiting = true ∧
                  s6.pump._dstRef = some 8 ∧
                  my_actor._timed_pump_msg_enter s6 9 (-1) false
                    = .error .assert_failed) :=
  ⟨⟨_, rfl, rfl, rfl, _, rfl, rfl, rfl, rfl, rfl, _, _, rfl, rfl, rfl⟩,
    ⟨_, rfl, rfl, rfl, _, rfl, rfl, rfl, rfl, rfl, _, _, rfl, rfl, rfl⟩,
    ⟨_, rfl, rfl, rfl, rfl, _, _, rfl, _, rfl, rfl, _, rfl, rfl, rfl, rfl, _, _, rfl, _, rfl,
      rfl, _, rfl, rfl, rfl, rfl, rfl⟩⟩

/-! ### Delegation chain -/

theorem chain_ne_nil (pcks : Nat → pck) (fuel k : Nat) (l : List Nat)
    (h : pck.chain pcks fuel k = some l) : l ≠ [] := by
  cases fuel with
  | zero => simp [pck.chain] at h
  | succ n =>
    rw [pck.chain] at h
    cases hn : (pcks k)._next with
    | none => rw [hn] at h; simp at h; rw [← h]; simp
    | some nx =>
      rw [hn] at h
      simp only [Option.map_eq_some'] at h
      obtain ⟨l1, _, h2⟩ := h
      rw [← h2]; simp

theorem chain_congr (pcks pcks1 : Nat → pck) (fuel : Nat) :
    ∀ (k : Nat) (l : List Nat), pck.chain pcks fuel k = some l →
      (∀ j, j ∈ l → (pcks1 j)._next = (pcks j)._next) →
      pck.chain pcks1 fuel k = some l := by
  induction fuel with
  | zero => intro k l h; simp [pck.chain] at h
  | succ n ih =>
    intro k l h hl
    rw [pck.chain] at h
    rw [pck.chain]
    cases hn : (pcks k)._next with
    | none =>
      rw [hn] at h
      simp only [Option.some.injEq] at h
      have hk : (pcks1 k)._next = none := by rw [hl k (by rw [← h]; simp), hn]
      rw [hk, ← h]
    | some nx =>
      rw [hn] at h
      simp only [Option.map_eq_some'] at h
      obtain ⟨l1, h1, h2⟩ := h
      have hk : (pcks1 k)._next = some nx := by rw [hl k (by rw [← h2]; simp), hn]
      rw [hk]
      have := ih nx l1 h1 (fun j hj => hl j (by rw [← h2]; simp [hj]))
      simp only [this, ← h2]; rfl

theorem msg_pump_clear_ok (d : Bool) (p : msg_pump M)
    (hc : d = true → p._hostActor.isSome = true ∧ p._checkDis = false) :
    ∃ pr, msg_pump.clear d p = .ok pr ∧ pr.1._hostActor = p._hostActor ∧
      pr.1._checkDis = p._checkDis ∧ pr.1._pumpCount = p._pumpCount := by
  cases d with
  | true =>
    obtain ⟨h1, h2⟩ := hc rfl
    have hn : p._hostActor.isNone = false := by
      cases hh : p._hostActor with
      | none => rw [hh] at h1; simp at h1
      | some a => rfl
    simp [msg_pump.clear, hn, h2]
  | false =>
    cases hcd : p._checkDis with
    | true => simp [msg_pump.clear, hcd]
    | false => simp [msg_pump.clear, hcd]

theorem frame_refl (w : ChainWorld M) : w.Frame w :=
  ⟨rfl, rfl, rfl, fun _ => ⟨rfl, rfl, rfl⟩, fun _ => ⟨rfl, rfl⟩, fun _ => rfl⟩

theorem set_pool_other (w : ChainWorld M) (k j : Nat) (p : Option Nat) (h : j ≠ k) :
    (w.set_pool k p).pcks j = w.pcks j := by
  simp [ChainWorld.set_pool, Function.update_noteq h]

theorem pump_clear_ok (w : ChainWorld M) (pm : Nat) (hc : w.Clearable) :
    ∃ w1, w.pump_clear pm = .ok w1 ∧ w.Frame w1 ∧ w1.pcks = w.pcks ∧ w1.pools = w.pools ∧
      ∀ p, (w1.pumps p)._pumpCount = (w.pumps p)._pumpCount := by
  obtain ⟨pr, hpr, h1, h2, h3⟩ := msg_pump_clear_ok w.debug (w.pumps pm) (fun hd => hc hd pm)
  refine ⟨{ w with pumps := Function.update w.pumps pm pr.1
                   resumed := if pr.2 then w.resumed ++ [pm] else w.resumed },
    by simp [ChainWorld.pump_clear, hpr],
    ⟨rfl, rfl, rfl, fun _ => ⟨rfl, rfl, rfl⟩, ?_, fun _ => rfl⟩, rfl, rfl, ?_⟩
  · intro p
    by_cases hp : p = pm
    · subst hp; simp [h1, h2]
    · simp [Function.update_noteq hp]
  · intro p
    by_cases hp : p = pm
    · subst hp; simp [h3]
    · simp [Function.update_noteq hp]

/-- Detaching the old pool of a tail packet touches pools only. -/
theorem tail_disconnect (w : ChainWorld M) (o : Option Nat) :
    ∃ w1, (match o with
        | some pl => w.pool_disconnect pl
        | none => w) = w1 ∧ w.Frame w1 ∧ w1.pcks = w.pcks ∧ w1.pumps = w.pumps := by
  cases o with
  | none => exact ⟨w, rfl, frame_refl w, rfl, rfl⟩
  | some pl =>
    refine ⟨_, rfl, ⟨rfl, rfl, rfl, fun _ => ⟨rfl, rfl, rfl⟩, fun _ => ⟨rfl, rfl⟩, ?_⟩,
      rfl, rfl⟩
    intro q
    by_cases hq : q = pl
    · subst hq; simp [ChainWorld.pool_disconnect, msg_pool.disconnect]
    · simp [ChainWorld.pool_disconnect, Function.update_noteq hq]

theorem chain_head_mem (pcks : Nat → pck) (fuel k : Nat) (l : List Nat)
    (h : pck.chain pcks fuel k = some l) : k ∈ l := by
  cases fuel with
  | zero => simp [pck.chain] at h
  | succ n =>
    rw [pck.chain] at h
    cases hn : (pcks k)._next with
    | none => rw [hn] at h; simp at h; rw [← h]; simp
    | some nx =>
      rw [hn] at h
      simp only [Option.map_eq_some'] at h
      obtain ⟨l1, _, h2⟩ := h
      rw [← h2]; simp

theorem chain_unique (pcks : Nat → pck) (f1 : Nat) :
    ∀ (f2 k : Nat) (a b : List Nat), pck.chain pcks f1 k = some a →
      pck.chain pcks f2 k = some b → a = b := by
  induction f1 with
  | zero => intro f2 k a b h; simp [pck.chain] at h
  | succ n ih =>
    intro f2 k a b ha hb
    cases f2 with
    | zero => simp [pck.chain] at hb
    | succ m =>
      rw [pck.chain] at ha hb
      cases hn : (pcks k)._next with
      | none =>
        rw [hn] at ha hb
        simp only [Option.some.injEq] at ha hb
        rw [← ha, ← hb]
      | some nx =>
        rw [hn] at ha hb
        simp only [Option.map_eq_some'] at ha hb
        obtain ⟨a1, ha1, ha2⟩ := ha
        obtain ⟨b1, hb1, hb2⟩ := hb
        rw [← ha2, ← hb2, ih m nx a1 b1 ha1 hb1]

theorem chain_mem (pcks : Nat → pck) (fuel : Nat) :
    ∀ (k0 : Nat) (l : List Nat), pck.chain pcks fuel k0 = some l → ∀ k, k ∈ l →
      ∃ f1 l1, pck.chain pcks f1 k = some l1 ∧ l1.length ≤ l.length := by
  induction fuel with
  | zero => intro k0 l h; simp [pck.chain] at h
  | succ n ih =>
    intro k0 l h k hk
    have h0 := h
    rw [pck.chain] at h
    cases hn : (pcks k0)._next with
    | none =>
      rw [hn] at h
      simp only [Option.some.injEq] at h
      rw [← h] at hk
      simp only [List.mem_singleton] at hk
      subst hk
      exact ⟨n + 1, l, h0, le_refl _⟩
    | some nx =>
      rw [hn] at h
      simp only [Option.map_eq_some'] at h
      obtain ⟨l1, h1, h2⟩ := h
      rw [← h2] at hk
      rcases List.mem_cons.mp hk with hk | hk
      · subst hk
        exact ⟨n + 1, l, h0, le_refl _⟩
      · obtain ⟨f1, l2, e1, e2⟩ := ih nx l1 h1 k hk
        refine ⟨f1, l2, e1, ?_⟩
        rw [← h2]
        simp only [List.length_cons]
        omega

/-- A packet that links to the first packet of a finite chain is not on that chain. -/
theorem chain_no_cycle (pcks : Nat → pck) (fuel k nx : Nat) (l : List Nat)
    (h : pck.chain pcks fuel nx = some l) (hk : (pcks k)._next = some nx) : k ∉ l := by
  intro hm
  obtain ⟨f1, l1, e1, e2⟩ := chain_mem pcks fuel nx l h k hm
  cases f1 with
  | zero => simp [pck.chain] at e1
  | succ m =>
    rw [pck.chain, hk] at e1
    simp only [Option.map_eq_some'] at e1
    obtain ⟨l2, e3, e4⟩ := e1
    have := chain_unique pcks m fuel nx l2 l e3 h
    rw [← e4, this] at e2
    simp only [List.length_cons] at e2
    omega

theorem set_next_pcks (w : ChainWorld M) (k : Nat) (n : Option Nat) (j : Nat) :
    ((w.set_next k n).pcks j)._next = (if j = k then n else (w.pcks j)._next) ∧
    ((w.set_next k n).pcks j)._isHead = (w.pcks j)._isHead ∧
    ((w.set_next k n).pcks j)._msgPool = (w.pcks j)._msgPool ∧
    ((w.set_next k n).pcks j)._msgPump = (w.pcks j)._msgPump := by
  by_cases hj : j = k
  · subst hj; simp [ChainWorld.set_next]
  · simp [ChainWorld.set_next, Function.update_noteq hj, hj]

theorem set_head_pcks (w : ChainWorld M) (k : Nat) (b : Bool) (j : Nat) :
    ((w.set_head k b).pcks j)._next = (w.pcks j)._next ∧
    ((w.set_head k b).pcks j)._isHead = (if j = k then b else (w.pcks j)._isHead) ∧
    ((w.set_head k b).pcks j)._msgPool = (w.pcks j)._msgPool ∧
    ((w.set_head k b).pcks j)._msgPump = (w.pcks j)._msgPump := by
  by_cases hj : j = k
  · subst hj; simp [ChainWorld.set_head]
  · simp [ChainWorld.set_head, Function.update_noteq hj, hj]

/-- C15 (amended): in every state reached from a freshly connected pool and pump by pushes,
strand steps, pump requests and reader timeouts, both counters are below 256 and the
pool's `_sendCount` is the pump's `_pumpCount` or its successor modulo 256; with
assertions compiled out every trace reaches such a state. -/
theorem send_count_pump_count_mod (debug sameStrand prodInPool : Bool)
    (poolId pumpId hostActor : Nat) (pre : List M) (es : List (ChanEvent M)) :
    (∀ s, (Sys.start debug sameStrand prodInPool poolId pumpId hostActor pre).run es = .ok s →
      s.pump._pumpCount < 256 ∧ s.pool._sendCount < 256 ∧
      (s.pool._sendCount = s.pump._pumpCount ∨
        s.pool._sendCount = (s.pump._pumpCount + 1) % 256)) ∧
    (∃ s, (Sys.start false sameStrand prodInPool poolId pumpId hostActor pre).run es = .ok s ∧
      s.pump._pumpCount < 256 ∧ s.pool._sendCount < 256 ∧
      (s.pool._sendCount = s.pump._pumpCount ∨
        s.pool._sendCount = (s.pump._pumpCount + 1) % 256)) := by
  have key : ∀ s : Sys M, ChanInv s →
      s.pump._pumpCount < 256 ∧ s.pool._sendCount < 256 ∧
      (s.pool._sendCount = s.pump._pumpCount ∨
        s.pool._sendCount = (s.pump._pumpCount + 1) % 256) := by
    intro s hc
    have hb := hc.core.bound
    have hcnt := hc.core.count
    have hfl := hc.core.flight
    simp only [List.nil_append] at hcnt hfl
    refine ⟨hb, by rw [hcnt]; exact Nat.mod_lt _ (by decide), ?_⟩
    rcases Nat.le_one_iff_eq_zero_or_eq_one.mp hfl with h0 | h1
    · left; rw [hcnt, h0, Nat.add_zero, Nat.mod_eq_of_lt hb]
    · right; rw [hcnt, h1]
  refine ⟨?_, ?_⟩
  · intro s hs
    obtain ⟨hinv, _, _⟩ := start_inv debug sameStrand prodInPool poolId pumpId hostActor pre
    rcases run_inv _ es hinv with ⟨s1, hs1, hc, _, _⟩ | ⟨_, herr⟩
    · rw [hs1] at hs
      cases hs
      exact key _ hc
    · rw [herr] at hs; cases hs
  · obtain ⟨hinv, hdb, _⟩ := start_inv false sameStrand prodInPool poolId pumpId hostActor pre
    rcases run_inv _ es hinv with ⟨s1, hs1, hc, _, _⟩ | ⟨hdbg, _⟩
    · exact ⟨s1, hs1, key _ hc⟩
    · rw [hdb] at hdbg; cases hdbg

set_option maxRecDepth 1000000 in
/-- C15 (counterexample): after 255 rounds of request, push and receipt and one more request
and push, with assertions compiled in, the run has failed no assertion, the pool has
dispatched 256 messages and its `_sendCount` has wrapped to 0 while the pump's
`_pumpCount` is 255: the two differ by 255. -/
theorem send_count_wraps :
    ((Sys.start true true true 1 2 3 ([] : List Nat)).run ChanEvent.wrapTrace).toOption.map
      (fun s => (s.pool._sendCount, s.pump._pumpCount)) = some (0, 255) := by
  rfl

theorem mem_hids (q : List (chan_task M)) (ph : pump_handler) (i : Nat)
    (h : chan_task.pump_handler ph i ∈ q) : i ∈ chan_task.hids q :=
  List.mem_filterMap.mpr ⟨_, h, rfl⟩

theorem chanInv_inFlight (s : Sys M) (h : ChanInv s) : InFlight s := by
  have hc := h.core
  have hfl := hc.flight
  have hcnt := hc.count
  have hin := hc.inFlight
  have hpw := hc.poolWaiting
  have hst := hc.stashed
  have hb := hc.bound
  simp only [List.nil_append] at hfl hcnt hin hpw hst
  have hnw : s.pool._waiting = true → chan_task.recvs (s.poolQ ++ s.pumpQ) = [] := by
    intro hw
    by_contra hne
    rw [(hin hne).1] at hw
    cases hw
  have heq : chan_task.recvs (s.poolQ ++ s.pumpQ) = [] →
      s.pool._sendCount = s.pump._pumpCount := by
    intro he
    rw [hcnt, he, List.length_nil, Nat.add_zero, Nat.mod_eq_of_lt hb]
  refine ⟨hfl, hnw, fun hne => (hin hne).2.1, ?_, ?_, ?_, ?_⟩
  · intro hw
    cases hh : s.pump._hasMsg with
    | false => rfl
    | true => rw [(hst hh).1] at hw; cases hw
  · intro hh ph i hmem hi
    have hid := (hst hh).2.2.2 i (mem_hids _ ph i hmem)
    have hre : chan_task.recvs (s.poolQ ++ s.pumpQ) = [] := by
      by_contra hne
      rw [(hin hne).2.1] at hh
      cases hh
    rw [heq hre] at hi
    omega
  · intro ph i hmem hi
    cases hw : s.pool._waiting with
    | false => rfl
    | true =>
      exfalso
      apply hi
      rw [heq (hnw hw)]
      exact (hpw hw).2 i (mem_hids _ ph i hmem)
  · intro hne
    cases hw : s.pool._waiting with
    | false => rfl
    | true => exact absurd (heq (hnw hw)).symm hne

/-- C16: in every state reached from a freshly connected pool and pump by pushes, strand
steps, pump requests and reader timeouts, at most one dispatched message has not been
received, the pool is not flagged waiting while one is in flight, the pump's stash slot
is empty whenever a message can arrive, and the pool is not flagged waiting when a pump
request carries a counter different from `_sendCount`; with assertions compiled out
every trace reaches such a state. -/
theorem msg_pool_pump_in_flight (debug sameStrand prodInPool : Bool)
    (poolId pumpId hostActor : Nat) (pre : List M) (es : List (ChanEvent M)) :
    (∀ s, (Sys.start debug sameStrand prodInPool poolId pumpId hostActor pre).run es = .ok s →
      InFlight s) ∧
    (∃ s, (Sys.start false sameStrand prodInPool poolId pumpId hostActor pre).run es = .ok s ∧
      InFlight s) := by
  refine ⟨?_, ?_⟩
  · intro s hs
    obtain ⟨hinv, _, _⟩ := start_inv debug sameStrand prodInPool poolId pumpId hostActor pre
    rcases run_inv _ es hinv with ⟨s1, hs1, hc, _, _⟩ | ⟨_, herr⟩
    · rw [hs1] at hs
      cases hs
      exact chanInv_inFlight _ hc
    · rw [herr] at hs; cases hs
  · obtain ⟨hinv, hdb, _⟩ := start_inv false sameStrand prodInPool poolId pumpId hostActor pre
    rcases run_inv _ es hinv with ⟨s1, hs1, hc, _, _⟩ | ⟨hdbg, _⟩
    · exact ⟨s1, hs1, chanInv_inFlight _ hc⟩
    · rw [hdb] at hdbg; cases hdbg

/-! ### Timed waits with `tm = 0`, `delay_trig`, and the executor -/

/-- C18 at `tm = 0`: a producer has sent the message 5 before actor 1 calls
`timed_wait_msg(0, amh, r0)`.  The wait posts its timeout closure behind the notifier's
lambda, the strand runs the lambda, and the wait returns true with the message.  The
timeout closure of this wait is then still queued on the strand, and when the strand
runs it the flag of the finished activation is set and the actor is switched in once
more. -/
theorem timed_wait_msg_zero_timeout_runs :
    ∃ w1, my_actor.timed_wait_msg HostWorld.sentBeforeWait 7 0 [.run_strand]
        = .ok (some (true, w1)) ∧
      w1.out = [(7, 5)] ∧ w1.strand = [.delay (.wait_timeout 0)] ∧
      ∃ w2, w1.step .run_strand = .ok w2 ∧ w2.self.timeoutSet = [0] ∧
        w2.self.resumes = w1.self.resumes + 1 :=
  ⟨_, rfl, rfl, rfl, _, rfl, rfl, rfl⟩

/-- C19: `delay_trig(ms, h)` called by the actor of `w`.  For `ms > 0`, the actor having a
timer, it arms the timer with `h` and posts nothing, and at expiry `h` is run on the
actor.  For `ms == 0` it leaves the actor, its timer included, as it is and posts `h` at
the end of the actor's strand, and the strand, once it has run what was queued before,
runs `h` on the actor.  For `ms < 0` it fails the assertion and schedules nothing. -/
theorem delay_trig_schedules (w : HostWorld M) (ms : Int) (h : delay_cb) :
    (0 < ms → w.self._timer.isSome = true →
      HostWorld.delay_trig w ms h
          = .ok { w with self := { w.self with _timer := some ⟨some h⟩ } } ∧
        HostWorld.step { w with self := { w.self with _timer := some ⟨some h⟩ } } .timer_expire
          = .ok { w with self := ({ w.self with _timer := some ⟨none⟩ }).run_delay_cb h }) ∧
    (ms = 0 →
      HostWorld.delay_trig w ms h = .ok { w with strand := w.strand ++ [.delay h] } ∧
        (w.strand = [] →
          HostWorld.step { w with strand := w.strand ++ [.delay h] } .run_strand
            = .ok { w with self := w.self.run_delay_cb h })) ∧
    (ms < 0 → HostWorld.delay_trig w ms h = .error .assert_failed) := by
  refine ⟨?_, ?_, ?_⟩
  · intro hms ht
    cases htm : w.self._timer with
    | none => rw [htm] at ht; cases ht
    | some t =>
      refine ⟨?_, ?_⟩
      · simp [HostWorld.delay_trig, my_actor.delay_trig, hms, htm, my_actor.time_out]
      · simp [HostWorld.step, my_actor.expires_timer]
  · intro hms
    subst hms
    refine ⟨?_, ?_⟩
    · simp [HostWorld.delay_trig, my_actor.delay_trig]
    · intro hs
      simp [HostWorld.step, hs, HostWorld.run_task]
  · intro hms
    have h1 : ¬ (ms > 0) := by omega
    have h2 : ¬ (ms = 0) := by omega
    simp [HostWorld.delay_trig, my_actor.delay_trig, h1, h2]

theorem ios_proxy_call_inv (debug : Bool) (p p1 : ios_proxy) (c : ios_call)
    (hp : p._runLock = p._opend) (h : p.call debug c = .ok p1) : p1._runLock = p1._opend := by
  cases c with
  | run n =>
    simp only [ios_proxy.call, ios_proxy.run] at h
    split at h
    · cases h
    · split at h
      · cases h; rfl
      · cases h; exact hp
  | stop caller ran =>
    simp only [ios_proxy.call, ios_proxy.stop] at h
    split at h
    · split at h
      · cases h
      · split at h
        · cases h
        · cases h; rfl
    · cases h; exact hp

theorem ios_proxy_calls_inv (debug : Bool) (cs : List ios_call) :
    ∀ (p p1 : ios_proxy), p._runLock = p._opend → p.calls debug cs = .ok p1 →
      p1._runLock = p1._opend := by
  induction cs with
  | nil => intro p p1 hp h; simp only [ios_proxy.calls] at h; cases h; exact hp
  | cons c cs ih =>
    intro p p1 hp h
    simp only [ios_proxy.calls] at h
    cases hc : p.call debug c with
    | error e => rw [hc] at h; cases h
    | ok p2 =>
      rw [hc] at h
      exact ih p2 p1 (ios_proxy_call_inv debug p p2 c hp hc) h

theorem ios_proxy_call_ok (debug : Bool) (p : ios_proxy) (c : ios_call)
    (hv : debug = true → c.valid p) : ∃ p1, p.call debug c = .ok p1 := by
  cases c with
  | run n =>
    cases debug with
    | false => cases ho : p._opend <;> simp [ios_proxy.call, ios_proxy.run, ho]
    | true =>
      have hn : 1 ≤ n := hv rfl
      cases ho : p._opend <;> simp [ios_proxy.call, ios_proxy.run, ho, hn]
  | stop caller ran =>
    cases debug with
    | false => cases ho : p._opend <;> simp [ios_proxy.call, ios_proxy.stop, ho]
    | true =>
      have hn : caller ∉ p._threadIDs := hv rfl
      cases ho : p._opend with
      | false => simp [ios_proxy.call, ios_proxy.stop, ho]
      | true => simp [ios_proxy.call, ios_proxy.stop, ho, ios_proxy.runningInThisIos, hn]

/-- C20: for every sequence of `run` and `stop` calls on a newly constructed executor,
the state after the sequence (hence after each call) has the work anchor exactly when
the executor is open; an accepted call always returns; `run` with at least one thread
on an open executor and `stop` on a closed one return the state they were given. -/
theorem ios_proxy_anchor_iff_open (debug : Bool) (cs : List ios_call) (p : ios_proxy)
    (c : ios_call) (n caller ran : Nat) :
    (∀ p1, ios_proxy.new.calls debug cs = .ok p1 → p1._runLock = p1._opend) ∧
    (∃ p1, ios_proxy.new.calls false cs = .ok p1 ∧ p1._runLock = p1._opend) ∧
    ((debug = true → c.valid p) → ∃ p1, p.call debug c = .ok p1) ∧
    (1 ≤ n → p._opend = true → p.run debug n = .ok p) ∧
    (p._opend = false → p.stop debug caller ran = .ok p) := by
  refine ⟨?_, ?_, ios_proxy_call_ok debug p c, ?_, ?_⟩
  · intro p1 h
    exact ios_proxy_calls_inv debug cs _ p1 rfl h
  · have hex : ∀ (cs : List ios_call) (q : ios_proxy), ∃ q1, q.calls false cs = .ok q1 := by
      intro cs
      induction cs with
      | nil => intro q; exact ⟨q, rfl⟩
      | cons c cs ih =>
        intro q
        obtain ⟨q1, hq1⟩ := ios_proxy_call_ok false q c (fun h => by cases h)
        obtain ⟨q2, hq2⟩ := ih q1
        exact ⟨q2, by simp only [ios_proxy.calls, hq1, hq2]⟩
    obtain ⟨p1, h1⟩ := hex cs ios_proxy.new
    exact ⟨p1, h1, ios_proxy_calls_inv false cs _ p1 rfl h1⟩
  · intro hn ho
    have : ¬ (n < 1) := by omega
    simp [ios_proxy.run, ho, hn]
  · intro ho
    simp [ios_proxy.stop, ho]

/-! ### Chain operations: what happens at the last packet -/

theorem chain_getLast (pcks : Nat → pck) (fuel : Nat) :
    ∀ (k : Nat) (l : List Nat), pck.chain pcks fuel k = some l →
      ∃ t, l.getLast? = some t ∧ (pcks t)._next = none := by
  induction fuel with
  | zero => intro k l h; simp [pck.chain] at h
  | succ n ih =>
    intro k l h
    rw [pck.chain] at h
    cases hn : (pcks k)._next with
    | none =>
      rw [hn] at h
      simp only [Option.some.injEq] at h
      exact ⟨k, by rw [← h]; rfl, hn⟩
    | some nx =>
      rw [hn] at h
      simp only [Option.map_eq_some'] at h
      obtain ⟨l1, h1, h2⟩ := h
      obtain ⟨t, ht, hnt⟩ := ih nx l1 h1
      refine ⟨t, ?_, hnt⟩
      rw [← h2]
      cases l1 with
      | nil => simp at ht
      | cons a r => rw [List.getLast?_cons_cons]; exact ht

theorem pump_connect_lock (w : ChainWorld M) (np pm k : Nat) :
    (w.lock k).pump_connect np pm = (w.pump_connect np pm).lock k := by
  simp only [ChainWorld.pump_connect, ChainWorld.lock]
  cases hh : (w.pumps pm)._hostActor with
  | none => rfl
  | some a => cases hq : w.quited a <;> simp [hq]

theorem pump_clear_lock (w wt : ChainWorld M) (pm k : Nat) (h : w.pump_clear pm = .ok wt) :
    (w.lock k).pump_clear pm = .ok (wt.lock k) := by
  simp only [ChainWorld.pump_clear, ChainWorld.lock] at h ⊢
  cases hc : msg_pump.clear w.debug (w.pumps pm) with
  | error e => rw [hc] at h; cases h
  | ok pr =>
    rw [hc] at h
    cases h
    rfl

theorem update_tail_lock (w wt : ChainWorld M) (t k : Nat) (newPool : Option Nat)
    (h : w.update_tail t newPool = .ok wt) :
    (w.lock k).update_tail t newPool = .ok (wt.lock k) := by
  have hd : ∀ (o : Option Nat),
      (match o with
        | some pl => (w.lock k).pool_disconnect pl
        | none => w.lock k) =
      (match o with
        | some pl => w.pool_disconnect pl
        | none => w).lock k := by
    intro o; cases o <;> rfl
  have hpk0 : (w.lock k).pcks = w.pcks := rfl
  simp only [ChainWorld.update_tail] at h ⊢
  rw [hpk0, hd]
  generalize (match (w.pcks t)._msgPool with
    | some pl => w.pool_disconnect pl
    | none => w) = w1 at h ⊢
  have hpk : (w1.lock k).pcks = w1.pcks := rfl
  rw [hpk]
  cases hm : (w1.pcks t)._msgPump with
  | none => rw [hm] at h; cases h; rfl
  | some pm =>
    rw [hm] at h
    cases newPool with
    | some np => cases h; simp only [pump_connect_lock]
    | none => exact pump_clear_lock w1 wt pm k h

theorem sameHeap_set_pool (wt w1 : ChainWorld M) (k : Nat) (p : Option Nat)
    (h : wt.SameHeap w1) : wt.SameHeap (w1.set_pool k p) :=
  ⟨h.debug, h.pools, h.pumps, h.poolCount, h.pumpCount, h.parent, h.quited, h.posted,
    h.resumed, h.dispatched⟩

theorem sameHeap_refl (w : ChainWorld M) : w.SameHeap w :=
  ⟨rfl, rfl, rfl, rfl, rfl, rfl, rfl, rfl, rfl, rfl⟩

theorem sameHeap_trans (w w1 w2 : ChainWorld M) (h1 : w.SameHeap w1) (h2 : w1.SameHeap w2) :
    w.SameHeap w2 :=
  ⟨h2.debug.trans h1.debug, h2.pools.trans h1.pools, h2.pumps.trans h1.pumps,
    h2.poolCount.trans h1.poolCount, h2.pumpCount.trans h1.pumpCount,
    h2.parent.trans h1.parent, h2.quited.trans h1.quited, h2.posted.trans h1.posted,
    h2.resumed.trans h1.resumed, h2.dispatched.trans h1.dispatched⟩

theorem repooled_single (w w2 : ChainWorld M) (pk : Nat) (p : Option Nat)
    (h : w2.pcks = w.pcks) : w.Repooled (w2.set_pool pk p) [pk] p := by
  have hk : ∀ k, (w2.set_pool pk p).pcks k =
      if k = pk then { w.pcks pk with _msgPool := p } else w.pcks k := by
    intro k
    by_cases hkp : k = pk
    · subst hkp; simp [ChainWorld.set_pool, h]
    · simp [ChainWorld.set_pool, Function.update_noteq hkp, hkp, h]
  refine ⟨?_, ?_, ?_, ?_, ?_⟩
  · intro k; rw [hk]; split
    · rename_i e; rw [e]
    · rfl
  · intro k; rw [hk]; split
    · rename_i e; rw [e]
    · rfl
  · intro k; rw [hk]; split
    · rename_i e; rw [e]
    · rfl
  · intro k hkm
    rw [hk, if_pos (List.mem_singleton.mp hkm)]
  · intro k hkm
    rw [hk, if_neg (fun e => hkm (List.mem_singleton.mpr e))]

theorem repooled_cons (w w1 : ChainWorld M) (pk : Nat) (l1 : List Nat) (p : Option Nat)
    (h : w.Repooled w1 l1 p) : w.Repooled (w1.set_pool pk p) (pk :: l1) p := by
  have hk : ∀ k, (w1.set_pool pk p).pcks k =
      if k = pk then { w1.pcks pk with _msgPool := p } else w1.pcks k := by
    intro k
    by_cases hkp : k = pk
    · subst hkp; simp [ChainWorld.set_pool]
    · simp [ChainWorld.set_pool, Function.update_noteq hkp, hkp]
  refine ⟨?_, ?_, ?_, ?_, ?_⟩
  · intro k; rw [hk]; split
    · rename_i e; rw [e]; exact h.next pk
    · exact h.next k
  · intro k; rw [hk]; split
    · rename_i e; rw [e]; exact h.head pk
    · exact h.head k
  · intro k; rw [hk]; split
    · rename_i e; rw [e]; exact h.pump pk
    · exact h.pump k
  · intro k hkm
    rw [hk]
    split
    · rfl
    · rename_i hne
      rcases List.mem_cons.mp hkm with e | e
      · exact absurd e hne
      · exact h.inChain k e
  · intro k hkm
    have hne : k ≠ pk := fun e => hkm (by simp [e])
    rw [hk, if_neg hne]
    exact h.offChain k (fun e => hkm (by simp [e]))

theorem pump_connect_pcks (w : ChainWorld M) (np pm : Nat) :
    (w.pump_connect np pm).pcks = w.pcks := by
  simp only [ChainWorld.pump_connect]
  cases hh : (w.pumps pm)._hostActor with
  | none => rfl
  | some a => cases hq : w.quited a <;> simp [hq]

/-- Along a finite chain `update_msg_list` does to pools and pumps what `update_tail`
does at the last packet, and gives every packet of the chain the new pool. -/
theorem update_msg_list_tail (newPool : Option Nat) (fuel : Nat) :
    ∀ (w wt : ChainWorld M) (pk t : Nat) (l : List Nat),
      pck.chain w.pcks fuel pk = some l → l.getLast? = some t →
      w.update_tail t newPool = .ok wt →
      ∃ w1, my_actor.update_msg_list fuel w pk newPool = .ok w1 ∧ wt.SameHeap w1 ∧
        w.Repooled w1 l newPool := by
  induction fuel with
  | zero => intro w wt pk t l h; simp [pck.chain] at h
  | succ n ih =>
    intro w wt pk t l h ht hu
    rw [pck.chain] at h
    rw [my_actor.update_msg_list]
    cases hn : (w.pcks pk)._next with
    | some nx =>
      rw [hn] at h
      simp only [Option.map_eq_some'] at h
      obtain ⟨l1, h1, h2⟩ := h
      have ht1 : l1.getLast? = some t := by
        rw [← h2] at ht
        cases l1 with
        | nil => exact absurd rfl (chain_ne_nil _ _ _ _ h1)
        | cons a r => rw [List.getLast?_cons_cons] at ht; exact ht
      obtain ⟨w1, e1, s1, r1⟩ :=
        ih (w.lock nx) (wt.lock nx) nx t l1 h1 ht1 (update_tail_lock w wt t nx newPool hu)
      have hnx : (w1.pcks pk)._next = some nx := by rw [r1.next pk]; exact hn
      simp only [e1, hnx]
      refine ⟨_, rfl, ?_, ?_⟩
      · exact sameHeap_set_pool _ _ _ _
          ⟨s1.debug, s1.pools, s1.pumps, s1.poolCount, s1.pumpCount, s1.parent, s1.quited,
            s1.posted, s1.resumed, s1.dispatched⟩
      · rw [← h2]
        exact repooled_cons w (w1.unlock nx) pk l1 newPool
          ⟨r1.next, r1.head, r1.pump, r1.inChain, r1.offChain⟩
    | none =>
      rw [hn] at h
      simp only [Option.some.injEq] at h
      rw [← h] at ht
      simp only [List.getLast?_singleton, Option.some.injEq] at ht
      subst ht
      simp only [ChainWorld.update_tail] at hu
      simp only []
      generalize hw1 : (match (w.pcks pk)._msgPool with
        | some pl => w.pool_disconnect pl
        | none => w) = w1 at hu ⊢
      have hpk : w1.pcks = w.pcks := by
        rw [← hw1]; cases (w.pcks pk)._msgPool <;> rfl
      rw [← h]
      cases hm : (w1.pcks pk)._msgPump with
      | none =>
        rw [hm] at hu
        cases hu
        exact ⟨_, rfl, sameHeap_set_pool _ _ _ _ (sameHeap_refl _),
          repooled_single w _ pk newPool hpk⟩
      | some pm =>
        rw [hm] at hu
        cases newPool with
        | some np =>
          cases hu
          exact ⟨_, rfl, sameHeap_set_pool _ _ _ _ (sameHeap_refl _),
            repooled_single w _ pk (some np) ((pump_connect_pcks w1 np pm).trans hpk)⟩
        | none =>
          have hu : w1.pump_clear pm = .ok wt := hu
          refine ⟨wt.set_pool pk none, by
            show (match w1.pump_clear pm with
              | Except.error e => Except.error e
              | Except.ok w2 => Except.ok (w2.set_pool pk none)) = _
            rw [hu], sameHeap_set_pool _ _ _ _ (sameHeap_refl _),
            repooled_single w wt pk none ?_⟩
          simp only [ChainWorld.pump_clear] at hu
          cases hc : msg_pump.clear w1.debug (w1.pumps pm) with
          | error e => rw [hc] at hu; cases hu
          | ok pr => rw [hc] at hu; cases hu; exact hpk

/-- Along a finite chain `clear_msg_list` does to pools and pumps what `update_tail`
without a new pool does at the last packet, and leaves every packet of the chain
without a pool. -/
theorem clear_msg_list_tail (fuel : Nat) :
    ∀ (w wt : ChainWorld M) (pk t : Nat) (l : List Nat),
      pck.chain w.pcks fuel pk = some l → l.getLast? = some t →
      w.update_tail t none = .ok wt →
      ∃ w1, my_actor.clear_msg_list fuel w pk = .ok w1 ∧ wt.SameHeap w1 ∧
        w.Repooled w1 l none := by
  induction fuel with
  | zero => intro w wt pk t l h; simp [pck.chain] at h
  | succ n ih =>
    intro w wt pk t l h ht hu
    rw [pck.chain] at h
    rw [my_actor.clear_msg_list]
    cases hn : (w.pcks pk)._next with
    | some nx =>
      rw [hn] at h
      simp only [Option.map_eq_some'] at h
      obtain ⟨l1, h1, h2⟩ := h
      have ht1 : l1.getLast? = some t := by
        rw [← h2] at ht
        cases l1 with
        | nil => exact absurd rfl (chain_ne_nil _ _ _ _ h1)
        | cons a r => rw [List.getLast?_cons_cons] at ht; exact ht
      obtain ⟨w1, e1, s1, r1⟩ :=
        ih (w.lock nx) (wt.lock nx) nx t l1 h1 ht1 (update_tail_lock w wt t nx none hu)
      have hnx : (w1.pcks pk)._next = some nx := by rw [r1.next pk]; exact hn
      simp only [e1, hnx]
      refine ⟨_, rfl, ?_, ?_⟩
      · exact sameHeap_set_pool _ _ _ _
          ⟨s1.debug, s1.pools, s1.pumps, s1.poolCount, s1.pumpCount, s1.parent, s1.quited,
            s1.posted, s1.resumed, s1.dispatched⟩
      · rw [← h2]
        exact repooled_cons w (w1.unlock nx) pk l1 none
          ⟨r1.next, r1.head, r1.pump, r1.inChain, r1.offChain⟩
    | none =>
      rw [hn] at h
      simp only [Option.some.injEq] at h
      rw [← h] at ht
      simp only [List.getLast?_singleton, Option.some.injEq] at ht
      subst ht
      simp only [ChainWorld.update_tail] at hu
      simp only []
      generalize hw1 : (match (w.pcks pk)._msgPool with
        | some pl => w.pool_disconnect pl
        | none => w) = w1 at hu ⊢
      have hpk : w1.pcks = w.pcks := by
        rw [← hw1]; cases (w.pcks pk)._msgPool <;> rfl
      rw [← h]
      cases hm : (w1.pcks pk)._msgPump with
      | none =>
        rw [hm] at hu
        cases hu
        exact ⟨_, rfl, sameHeap_set_pool _ _ _ _ (sameHeap_refl _),
          repooled_single w _ pk none hpk⟩
      | some pm =>
        rw [hm] at hu
        have hu : w1.pump_clear pm = .ok wt := hu
        refine ⟨wt.set_pool pk none, by
            show (match w1.pump_clear pm with
              | Except.error e => Except.error e
              | Except.ok w2 => Except.ok (w2.set_pool pk none)) = _
            rw [hu], sameHeap_set_pool _ _ _ _ (sameHeap_refl _),
          repooled_single w wt pk none ?_⟩
        simp only [ChainWorld.pump_clear] at hu
        cases hc : msg_pump.clear w1.debug (w1.pumps pm) with
        | error e => rw [hc] at hu; cases hu
        | ok pr => rw [hc] at hu; cases hu; exact hpk

theorem kept_refl (w : ChainWorld M) : w.Kept w :=
  ⟨rfl, rfl, rfl, rfl, rfl, rfl, fun _ => ⟨rfl, rfl⟩, fun _ => ⟨rfl, rfl⟩, fun _ => rfl,
    fun _ h => h, fun _ h => h⟩

theorem kept_trans (w w1 w2 : ChainWorld M) (h1 : w.Kept w1) (h2 : w1.Kept w2) : w.Kept w2 :=
  ⟨h2.debug.trans h1.debug, h2.poolCount.trans h1.poolCount, h2.pumpCount.trans h1.pumpCount,
    h2.parent.trans h1.parent, h2.quited.trans h1.quited, h2.dispatched.trans h1.dispatched,
    fun p => ⟨(h2.stash p).1.trans (h1.stash p).1, (h2.stash p).2.trans (h1.stash p).2⟩,
    fun p => ⟨(h2.host p).1.trans (h1.host p).1, (h2.host p).2.trans (h1.host p).2⟩,
    fun q => (h2.buff q).trans (h1.buff q), fun q h => h1.waiting q (h2.waiting q h),
    fun p h => h1.pumpWaiting p (h2.pumpWaiting p h)⟩

theorem kept_sameHeap (w wt w1 : ChainWorld M) (h1 : w.Kept wt) (h2 : wt.SameHeap w1) :
    w.Kept w1 :=
  ⟨h2.debug.trans h1.debug, h2.poolCount.trans h1.poolCount, h2.pumpCount.trans h1.pumpCount,
    h2.parent.trans h1.parent, h2.quited.trans h1.quited, h2.dispatched.trans h1.dispatched,
    fun p => by rw [h2.pumps]; exact h1.stash p, fun p => by rw [h2.pumps]; exact h1.host p,
    fun q => by rw [h2.pools]; exact h1.buff q, fun q => by rw [h2.pools]; exact h1.waiting q,
    fun p => by rw [h2.pumps]; exact h1.pumpWaiting p⟩

theorem kept_clearable (w w1 : ChainWorld M) (h : w.Kept w1) (hc : w.Clearable) :
    w1.Clearable := by
  intro hd p
  rw [(h.host p).1, (h.host p).2]
  exact hc (h.debug ▸ hd) p

theorem kept_pool_disconnect (w : ChainWorld M) (pl : Nat) : w.Kept (w.pool_disconnect pl) := by
  refine ⟨rfl, rfl, rfl, rfl, rfl, rfl, fun _ => ⟨rfl, rfl⟩, fun _ => ⟨rfl, rfl⟩, ?_, ?_,
    fun _ h => h⟩
  · intro q
    by_cases hq : q = pl
    · subst hq; simp [ChainWorld.pool_disconnect, msg_pool.disconnect]
    · simp [ChainWorld.pool_disconnect, Function.update_noteq hq]
  · intro q
    by_cases hq : q = pl
    · subst hq; simp [ChainWorld.pool_disconnect, msg_pool.disconnect]
    · simp [ChainWorld.pool_disconnect, Function.update_noteq hq]

theorem kept_pump_clear (w wt : ChainWorld M) (pm : Nat) (h : w.pump_clear pm = .ok wt) :
    w.Kept wt ∧ wt.pcks = w.pcks ∧ wt.pools = w.pools ∧ wt.posted = w.posted ∧
      wt.log = w.log ∧
      (wt.pumps pm).isDisconnected = true ∧
      (∀ p, (wt.pumps p)._pumpCount = (w.pumps p)._pumpCount) ∧
      (∀ p, p ≠ pm → wt.pumps p = w.pumps p) := by
  simp only [ChainWorld.pump_clear] at h
  cases hc : msg_pump.clear w.debug (w.pumps pm) with
  | error e => rw [hc] at h; cases h
  | ok pr =>
    rw [hc] at h
    cases h
    have hpr : pr.1._hasMsg = (w.pumps pm)._hasMsg ∧ pr.1._msgSpace = (w.pumps pm)._msgSpace ∧
        pr.1._hostActor = (w.pumps pm)._hostActor ∧
        pr.1._checkDis = (w.pumps pm)._checkDis ∧ pr.1.isDisconnected = true ∧
        pr.1._pumpCount = (w.pumps pm)._pumpCount ∧
        (pr.1._waiting = true → (w.pumps pm)._waiting = true) := by
      simp only [msg_pump.clear] at hc
      split at hc
      · cases hc
      · split at hc
        · rename_i hcd
          split at hc
          · cases hc
          · cases hc
            have hcd1 : (w.pumps pm)._checkDis = true := hcd
            simp [msg_pump.isDisconnected, pump_handler.clear, pump_handler.empty, hcd1]
        · cases hc
          simp [msg_pump.isDisconnected, pump_handler.clear, pump_handler.empty]
    refine ⟨⟨rfl, rfl, rfl, rfl, rfl, rfl, ?_, ?_, fun _ => rfl, fun _ h => h, ?_⟩, rfl, rfl,
      rfl, rfl, ?_, ?_, ?_⟩
    · intro p
      by_cases hp : p = pm
      · subst hp; simp [hpr.1, hpr.2.1]
      · simp [Function.update_noteq hp]
    · intro p
      by_cases hp : p = pm
      · subst hp; simp [hpr.2.2.1, hpr.2.2.2.1]
      · simp [Function.update_noteq hp]
    · intro p
      by_cases hp : p = pm
      · subst hp; simpa using hpr.2.2.2.2.2.2
      · simp [Function.update_noteq hp]
    · simp [hpr.2.2.2.2.1]
    · intro p
      by_cases hp : p = pm
      · subst hp; simp [hpr.2.2.2.2.2.1]
      · simp [Function.update_noteq hp]
    · intro p hp
      simp [Function.update_noteq hp]

theorem kept_pump_connect (w : ChainWorld M) (np pm : Nat) : w.Kept (w.pump_connect np pm) := by
  have hpool : ∀ q,
      ((Function.update w.pools np ((w.pools np).connect_pump np pm).2) q)._msgBuff
          = (w.pools q)._msgBuff ∧
      (((Function.update w.pools np ((w.pools np).connect_pump np pm).2) q)._waiting = true →
        (w.pools q)._waiting = true) := by
    intro q
    by_cases hq : q = np
    · subst hq; simp [msg_pool.connect_pump]
    · simp [Function.update_noteq hq]
  simp only [ChainWorld.pump_connect]
  cases hh : (w.pumps pm)._hostActor with
  | none =>
    exact ⟨rfl, rfl, rfl, rfl, rfl, rfl, fun _ => ⟨rfl, rfl⟩, fun _ => ⟨rfl, rfl⟩,
      fun q => (hpool q).1, fun q => (hpool q).2, fun _ h => h⟩
  | some a =>
    cases hq : w.quited a with
    | true =>
      simp only [hq]
      exact ⟨rfl, rfl, rfl, rfl, rfl, rfl, fun _ => ⟨rfl, rfl⟩, fun _ => ⟨rfl, rfl⟩,
        fun q => (hpool q).1, fun q => (hpool q).2, fun _ h => h⟩
    | false =>
      simp only [hq]
      refine ⟨rfl, rfl, rfl, rfl, rfl, rfl, ?_, ?_, fun q => (hpool q).1,
        fun q => (hpool q).2, ?_⟩
      · intro p
        by_cases hp : p = pm
        · subst hp; simp [msg_pump.connect, hh]
        · simp [Function.update_noteq hp]
      · intro p
        by_cases hp : p = pm
        · subst hp; simp [msg_pump.connect, hh]
        · simp [Function.update_noteq hp]
      · intro p
        by_cases hp : p = pm
        · subst hp; simp [msg_pump.connect, hh]
        · simp [Function.update_noteq hp]

theorem kept_pump_connect_self (w : ChainWorld M) (np pm : Nat) :
    w.Kept (w.pump_connect_self np pm) := by
  simp only [ChainWorld.pump_connect_self]
  refine ⟨rfl, rfl, rfl, rfl, rfl, rfl, ?_, ?_, ?_, ?_, ?_⟩
  · intro p
    by_cases hp : p = pm
    · subst hp
      cases hh : (w.pumps p)._hostActor <;> simp [msg_pump.connect, hh]
    · simp [Function.update_noteq hp]
  · intro p
    by_cases hp : p = pm
    · subst hp
      cases hh : (w.pumps p)._hostActor <;> simp [msg_pump.connect, hh]
    · simp [Function.update_noteq hp]
  · intro q
    by_cases hq : q = np
    · subst hq; simp [msg_pool.connect_pump]
    · simp [Function.update_noteq hq]
  · intro q
    by_cases hq : q = np
    · subst hq; simp [msg_pool.connect_pump]
    · simp [Function.update_noteq hq]
  · intro p
    by_cases hp : p = pm
    · subst hp
      cases hh : (w.pumps p)._hostActor <;> simp [msg_pump.connect, hh]
    · simp [Function.update_noteq hp]

/-- The tail step keeps what `Kept` lists, and touches neither packets nor the log. -/
theorem update_tail_kept (w wt : ChainWorld M) (t : Nat) (newPool : Option Nat)
    (h : w.update_tail t newPool = .ok wt) :
    w.Kept wt ∧ wt.pcks = w.pcks ∧ wt.log = w.log := by
  simp only [ChainWorld.update_tail] at h
  have hd : ∃ w1, (match (w.pcks t)._msgPool with
      | some pl => w.pool_disconnect pl
      | none => w) = w1 ∧ w.Kept w1 ∧ w1.pcks = w.pcks ∧ w1.log = w.log := by
    cases (w.pcks t)._msgPool with
    | none => exact ⟨w, rfl, kept_refl w, rfl, rfl⟩
    | some pl => exact ⟨_, rfl, kept_pool_disconnect w pl, rfl, rfl⟩
  obtain ⟨w1, e1, k1, p1, l1⟩ := hd
  rw [e1] at h
  cases hm : (w1.pcks t)._msgPump with
  | none => rw [hm] at h; cases h; exact ⟨k1, p1, l1⟩
  | some pm =>
    rw [hm] at h
    cases newPool with
    | some np =>
      cases h
      refine ⟨kept_trans _ _ _ k1 (kept_pump_connect w1 np pm),
        (pump_connect_pcks w1 np pm).trans p1, ?_⟩
      rw [← l1]
      simp only [ChainWorld.pump_connect]
      cases hh : (w1.pumps pm)._hostActor with
      | none => rfl
      | some a => cases hq : w1.quited a <;> simp [hq]
    | none =>
      have h : w1.pump_clear pm = .ok wt := h
      obtain ⟨k2, p2, _, _, l2, _⟩ := kept_pump_clear w1 wt pm h
      exact ⟨kept_trans _ _ _ k1 k2, p2.trans p1, l2.trans l1⟩

/-- The tail step returns when a pool is given or the assertions of `clear` hold. -/
theorem update_tail_ok (w : ChainWorld M) (t : Nat) (newPool : Option Nat)
    (hc : newPool = none → w.Clearable) : ∃ wt, w.update_tail t newPool = .ok wt := by
  simp only [ChainWorld.update_tail]
  have hd : ∃ w1, (match (w.pcks t)._msgPool with
      | some pl => w.pool_disconnect pl
      | none => w) = w1 ∧ w.Kept w1 := by
    cases (w.pcks t)._msgPool with
    | none => exact ⟨w, rfl, kept_refl w⟩
    | some pl => exact ⟨_, rfl, kept_pool_disconnect w pl⟩
  obtain ⟨w1, e1, k1⟩ := hd
  rw [e1]
  cases hm : (w1.pcks t)._msgPump with
  | none => exact ⟨w1, rfl⟩
  | some pm =>
    cases newPool with
    | some np => exact ⟨_, rfl⟩
    | none =>
      obtain ⟨w2, e2, _⟩ := pump_clear_ok w1 pm (kept_clearable _ _ k1 (hc rfl))
      exact ⟨w2, e2⟩

/-- `update_msg_list` on a finite chain returns (for `newPool = none` provided the
assertions of `clear` hold), with the effect of the tail step at the last packet. -/
theorem update_msg_list_spec (newPool : Option Nat) (fuel : Nat) (w : ChainWorld M)
    (pk : Nat) (l : List Nat) (h : pck.chain w.pcks fuel pk = some l)
    (hc : newPool = none → w.Clearable) :
    ∃ t wt w1, l.getLast? = some t ∧ (w.pcks t)._next = none ∧
      w.update_tail t newPool = .ok wt ∧
      my_actor.update_msg_list fuel w pk newPool = .ok w1 ∧ wt.SameHeap w1 ∧
      w.Repooled w1 l newPool ∧ w.Kept w1 := by
  obtain ⟨t, ht, hnt⟩ := chain_getLast w.pcks fuel pk l h
  obtain ⟨wt, hwt⟩ := update_tail_ok w t newPool hc
  obtain ⟨w1, e1, s1, r1⟩ := update_msg_list_tail newPool fuel w wt pk t l h ht hwt
  exact ⟨t, wt, w1, ht, hnt, hwt, e1, s1, r1,
    kept_sameHeap _ _ _ (update_tail_kept w wt t newPool hwt).1 s1⟩

/-- `clear_msg_list` on a finite chain returns when the assertions of `clear` hold, with
the effect of the tail step at the last packet. -/
theorem clear_msg_list_spec (fuel : Nat) (w : ChainWorld M) (pk : Nat) (l : List Nat)
    (h : pck.chain w.pcks fuel pk = some l) (hc : w.Clearable) :
    ∃ t wt w1, l.getLast? = some t ∧ (w.pcks t)._next = none ∧
      w.update_tail t none = .ok wt ∧
      my_actor.clear_msg_list fuel w pk = .ok w1 ∧ wt.SameHeap w1 ∧
      w.Repooled w1 l none ∧ w.Kept w1 := by
  obtain ⟨t, ht, hnt⟩ := chain_getLast w.pcks fuel pk l h
  obtain ⟨wt, hwt⟩ := update_tail_ok w t none (fun _ => hc)
  obtain ⟨w1, e1, s1, r1⟩ := clear_msg_list_tail fuel w wt pk t l h ht hwt
  exact ⟨t, wt, w1, ht, hnt, hwt, e1, s1, r1,
    kept_sameHeap _ _ _ (update_tail_kept w wt t none hwt).1 s1⟩

theorem pump_connect_posted (w : ChainWorld M) (np pm : Nat)
    (h : (w.pumps pm)._waiting = false) : (w.pump_connect np pm).posted = w.posted := by
  simp only [ChainWorld.pump_connect]
  cases hh : (w.pumps pm)._hostActor with
  | none => rfl
  | some a => cases hq : w.quited a <;> simp [hq, msg_pump.connect, hh, h]

theorem pump_connect_self_posted (w : ChainWorld M) (np pm : Nat)
    (h : (w.pumps pm)._waiting = false) : (w.pump_connect_self np pm).posted = w.posted := by
  simp only [ChainWorld.pump_connect_self]
  cases hh : (w.pumps pm)._hostActor <;> simp [msg_pump.connect, hh, h]

/-- The tail step posts no pump request when it clears, or when the pump of the last
packet is not waiting. -/
theorem update_tail_posted (w wt : ChainWorld M) (t : Nat) (newPool : Option Nat)
    (h : w.update_tail t newPool = .ok wt)
    (hw : newPool = none ∨ ∀ pm, (w.pcks t)._msgPump = some pm → (w.pumps pm)._waiting = false) :
    wt.posted = w.posted := by
  simp only [ChainWorld.update_tail] at h
  have hd : ∃ w1, (match (w.pcks t)._msgPool with
      | some pl => w.pool_disconnect pl
      | none => w) = w1 ∧ w1.pcks = w.pcks ∧ w1.pumps = w.pumps ∧ w1.posted = w.posted := by
    cases (w.pcks t)._msgPool with
    | none => exact ⟨w, rfl, rfl, rfl, rfl⟩
    | some pl => exact ⟨_, rfl, rfl, rfl, rfl⟩
  obtain ⟨w1, e1, p1, u1, o1⟩ := hd
  rw [e1] at h
  cases hm : (w1.pcks t)._msgPump with
  | none => rw [hm] at h; cases h; exact o1
  | some pm =>
    rw [hm] at h
    cases newPool with
    | some np =>
      cases h
      rcases hw with hw | hw
      · cases hw
      · rw [pump_connect_posted w1 np pm (by rw [u1]; exact hw pm (by rw [← p1]; exact hm))]
        exact o1
    | none =>
      have h : w1.pump_clear pm = .ok wt := h
      exact (kept_pump_clear w1 wt pm h).2.2.2.1.trans o1

/-- The statement with which `msg_agent_to` and `connect_msg_pump` begin: the chain `l0`
below the packet `k` (empty if there is none) is left without pools, pools and pumps
change as at its last packet, and `k` itself keeps its pool. -/
theorem clear_next_spec (fuel : Nat) (w : ChainWorld M) (k : Nat)
    (hold : ∀ nx, (w.pcks k)._next = some nx → ∃ l0, pck.chain w.pcks fuel nx = some l0)
    (hc : w.Clearable) :
    ∃ w1 l0, my_actor.clear_next fuel w k = .ok w1 ∧ w.Kept w1 ∧ w.Repooled w1 l0 none ∧
      k ∉ l0 ∧ w1.posted = w.posted ∧
      (∀ nx, (w.pcks k)._next = some nx → pck.chain w.pcks fuel nx = some l0) ∧
      ((w.pcks k)._next = none → l0 = [] ∧ w1 = w) := by
  simp only [my_actor.clear_next]
  cases hn : (w.pcks k)._next with
  | none =>
    exact ⟨w, [], rfl, kept_refl w,
      ⟨fun _ => rfl, fun _ => rfl, fun _ => rfl, fun _ h => absurd h (List.not_mem_nil _),
        fun _ _ => rfl⟩,
      List.not_mem_nil _, rfl, (fun nx h => by cases h), fun _ => ⟨rfl, rfl⟩⟩
  | some nx =>
    obtain ⟨l0, h0⟩ := hold nx hn
    obtain ⟨t, wt, w1, ht, _, hwt, e1, s1, r1, k1⟩ :=
      clear_msg_list_spec fuel (w.lock nx) nx l0 h0 hc
    have hnx : (w1.pcks k)._next = some nx := by rw [r1.next k]; exact hn
    simp only [e1, hnx]
    refine ⟨_, l0, rfl, ?_, ?_, chain_no_cycle w.pcks fuel k nx l0 h0 hn, ?_, ?_, ?_⟩
    · exact ⟨k1.debug, k1.poolCount, k1.pumpCount, k1.parent, k1.quited, k1.dispatched,
        k1.stash, k1.host, k1.buff, k1.waiting, k1.pumpWaiting⟩
    · exact ⟨r1.next, r1.head, r1.pump, r1.inChain, r1.offChain⟩
    · show w1.posted = w.posted
      rw [s1.posted]
      exact update_tail_posted (w.lock nx) wt t none hwt (Or.inl rfl)
    · intro nx1 h1
      cases h1
      exact h0
    · intro h; cases h

theorem make_pump_pcks (w : ChainWorld M) (k a j : Nat) :
    ((w.make_pump k a).pcks j)._next = (w.pcks j)._next ∧
    ((w.make_pump k a).pcks j)._isHead = (w.pcks j)._isHead ∧
    ((w.make_pump k a).pcks j)._msgPool = (w.pcks j)._msgPool ∧
    ((w.make_pump k a).pcks j)._msgPump =
      (if j = k then some w.pumpCount else (w.pcks j)._msgPump) := by
  by_cases hj : j = k
  · subst hj; simp [ChainWorld.make_pump]
  · simp [ChainWorld.make_pump, Function.update_noteq hj, hj]

theorem pump_connect_self_spec (w : ChainWorld M) (np pm : Nat) :
    (w.pump_connect_self np pm).pcks = w.pcks ∧
    ((w.pump_connect_self np pm).pools np)._msgPump = some pm ∧
    ((w.pump_connect_self np pm).pools np)._sendCount = 0 ∧
    ((w.pump_connect_self np pm).pumps pm)._waiting = (w.pumps pm)._waiting ∧
    ((w.pumps pm)._hostActor.isSome = true →
      ((w.pump_connect_self np pm).pumps pm)._pumpCount = 0 ∧
      ((w.pump_connect_self np pm).pumps pm)._pumpHandler = ⟨some np, some pm⟩) := by
  simp only [ChainWorld.pump_connect_self]
  refine ⟨trivial, by simp [msg_pool.connect_pump], by simp [msg_pool.connect_pump], ?_, ?_⟩
  · cases hh : (w.pumps pm)._hostActor <;> simp [msg_pump.connect, hh]
  · intro hh
    simp [msg_pump.connect, hh, msg_pool.connect_pump]

/-- The last step of `connect_msg_pump`: the packet's pump `pm` is connected to the
packet's pool, or cleared when there is none. -/
theorem connect_msg_pump_bind (w : ChainWorld M) (self pm : Nat) (hc : w.Clearable) :
    ∃ w1, (match (w.pcks self)._msgPool with
        | some msgPool =>
          .ok (pm, ((w.pump_connect_self msgPool pm).unlock self).unlock_quit)
        | none =>
          match w.pump_clear pm with
          | .error e => .error e
          | .ok w4 => .ok (pm, (w4.unlock self).unlock_quit)
        : Except Err (Nat × ChainWorld M)) = .ok (pm, w1) ∧
      w.Kept w1 ∧ w1.pcks = w.pcks ∧
      ((w.pumps pm)._waiting = false → w1.posted = w.posted) ∧
      (∀ pl, (w.pcks self)._msgPool = some pl →
        (w1.pools pl)._msgPump = some pm ∧ (w1.pools pl)._sendCount = 0 ∧
        ((w.pumps pm)._hostActor.isSome = true →
          (w1.pumps pm)._pumpCount = 0 ∧
          (w1.pumps pm)._pumpHandler = ⟨some pl, some pm⟩)) ∧
      ((w.pcks self)._msgPool = none →
        (w1.pumps pm).isDisconnected = true ∧
        (w1.pumps pm)._pumpCount = (w.pumps pm)._pumpCount ∧ w1.pools = w.pools) := by
  cases hp : (w.pcks self)._msgPool with
  | some pl =>
    obtain ⟨a1, a2, a3, _, a5⟩ := pump_connect_self_spec w pl pm
    have hk := kept_pump_connect_self w pl pm
    refine ⟨_, rfl, ?_, a1, fun hw => pump_connect_self_posted w pl pm hw, ?_, (fun h => by cases h)⟩
    · exact ⟨hk.debug, hk.poolCount, hk.pumpCount, hk.parent, hk.quited, hk.dispatched,
        hk.stash, hk.host, hk.buff, hk.waiting, hk.pumpWaiting⟩
    · intro pl1 h1
      cases h1
      exact ⟨a2, a3, a5⟩
  | none =>
    obtain ⟨w2, e2, _⟩ := pump_clear_ok w pm hc
    obtain ⟨k2, p2, o2, q2, _, d2, c2, _⟩ := kept_pump_clear w w2 pm e2
    refine ⟨(w2.unlock self).unlock_quit, by simp only [e2], ?_, p2, fun _ => q2,
      (fun pl h => by cases h), fun _ => ⟨d2, c2 pm, o2⟩⟩
    exact ⟨k2.debug, k2.poolCount, k2.pumpCount, k2.parent, k2.quited, k2.dispatched,
      k2.stash, k2.host, k2.buff, k2.waiting, k2.pumpWaiting⟩

/-- What `connect_msg_pump` does: the delegation below the caller's packet is cleared and
unlinked, no head flag changes, no pool is made, and the packet's pump (a new one only
if the packet had none) is connected to the packet's pool or, without one, cleared. -/
theorem connect_msg_pump_spec (fuel : Nat) (w : ChainWorld M) (self : Nat)
    (hold : ∀ nx, (w.pcks self)._next = some nx → ∃ l0, pck.chain w.pcks fuel nx = some l0)
    (hc : w.Clearable) :
    ∃ pm w1, my_actor.connect_msg_pump fuel w self = .ok (pm, w1) ∧
      (∀ j, (w1.pcks j)._next = if j = self then none else (w.pcks j)._next) ∧
      (∀ j, (w1.pcks j)._isHead = (w.pcks j)._isHead) ∧
      (w1.pcks self)._msgPool = (w.pcks self)._msgPool ∧
      (w1.pcks self)._msgPump = some pm ∧
      w1.poolCount = w.poolCount ∧
      ((w.pcks self)._msgPump = none →
        pm = w.pumpCount ∧ (w1.pumps pm)._hasMsg = false ∧ (w1.pumps pm)._waiting = false ∧
        (w1.pumps pm)._pumpCount = 0 ∧ (w1.pumps pm)._hostActor = some self) ∧
      (∀ pm0, (w.pcks self)._msgPump = some pm0 →
        pm = pm0 ∧ (w1.pumps pm)._hasMsg = (w.pumps pm)._hasMsg ∧
        (w1.pumps pm)._msgSpace = (w.pumps pm)._msgSpace) ∧
      (∀ pl, (w.pcks self)._msgPool = some pl →
        (w1.pools pl)._msgPump = some pm ∧ (w1.pools pl)._sendCount = 0 ∧
        (w1.pools pl)._msgBuff = (w.pools pl)._msgBuff ∧
        ((w1.pumps pm)._hostActor.isSome = true →
          (w1.pumps pm)._pumpCount = 0 ∧
          (w1.pumps pm)._pumpHandler = ⟨some pl, some pm⟩)) ∧
      ((w.pcks self)._msgPool = none → (w1.pumps pm).isDisconnected = true) := by
  obtain ⟨w1, l0, e1, k1, r1, hnot, _, _, _⟩ :=
    clear_next_spec fuel ((w.lock_quit).lock self) self hold hc
  have hk1 : w.Kept w1 :=
    ⟨k1.debug, k1.poolCount, k1.pumpCount, k1.parent, k1.quited, k1.dispatched,
      k1.stash, k1.host, k1.buff, k1.waiting, k1.pumpWaiting⟩
  have hc1 : w1.Clearable := kept_clearable _ _ hk1 hc
  have hw2 : ∃ w2, w2 = w1.set_next self none := ⟨_, rfl⟩
  obtain ⟨w2, e2⟩ := hw2
  have p2 : ∀ j, ((w2.pcks j)._next = if j = self then none else (w.pcks j)._next) ∧
      (w2.pcks j)._isHead = (w.pcks j)._isHead ∧
      (w2.pcks j)._msgPool = (w1.pcks j)._msgPool ∧
      (w2.pcks j)._msgPump = (w.pcks j)._msgPump := by
    intro j
    obtain ⟨b1, b2, b3, b4⟩ := set_next_pcks w1 self none j
    rw [e2]
    refine ⟨b1.trans ?_, b2.trans (r1.head j), b3, b4.trans (r1.pump j)⟩
    rw [r1.next j]; rfl
  have hk2 : w.Kept w2 := by
    rw [e2]
    exact ⟨hk1.debug, hk1.poolCount, hk1.pumpCount, hk1.parent, hk1.quited, hk1.dispatched,
      hk1.stash, hk1.host, hk1.buff, hk1.waiting, hk1.pumpWaiting⟩
  have hc2 : w2.Clearable := kept_clearable _ _ hk2 hc
  have hpool2 : (w2.pcks self)._msgPool = (w.pcks self)._msgPool :=
    (p2 self).2.2.1.trans (r1.offChain self hnot)
  simp only [my_actor.connect_msg_pump, e1, ← e2]
  cases hp : (w.pcks self)._msgPump with
  | some pm0 =>
    have hp2 : (w2.pcks self)._msgPump = some pm0 := (p2 self).2.2.2.trans hp
    simp only [hp2]
    obtain ⟨w4, e4, k4, q4, _, a4, b4⟩ := connect_msg_pump_bind w2 self pm0 hc2
    have hk4 : w.Kept w4 := kept_trans _ _ _ hk2 k4
    refine ⟨pm0, w4, e4, ?_, ?_, ?_, ?_, hk4.poolCount, (fun h => by cases h), ?_, ?_, ?_⟩
    · intro j; rw [q4]; exact (p2 j).1
    · intro j; rw [q4]; exact (p2 j).2.1
    · rw [q4]; exact hpool2
    · rw [q4]; exact hp2
    · intro pm1 h1
      cases h1
      exact ⟨rfl, (hk4.stash pm0).1, (hk4.stash pm0).2⟩
    · intro pl hpl
      obtain ⟨c1, c2, c3⟩ := a4 pl (hpool2.trans hpl)
      refine ⟨c1, c2, hk4.buff pl, ?_⟩
      intro hh
      rw [(k4.host pm0).1] at hh
      exact c3 hh
    · intro hpl
      exact (b4 (hpool2.trans hpl)).1
  | none =>
    have hp2 : (w2.pcks self)._msgPump = none := (p2 self).2.2.2.trans hp
    simp only [hp2]
    have hw3 : ∃ w3, w3 = w2.make_pump self self := ⟨_, rfl⟩
    obtain ⟨w3, e3⟩ := hw3
    have hpc : w2.pumpCount = w.pumpCount := hk2.pumpCount
    have p3 : ∀ j, (w3.pcks j)._next = (w2.pcks j)._next ∧
        (w3.pcks j)._isHead = (w2.pcks j)._isHead ∧
        (w3.pcks j)._msgPool = (w2.pcks j)._msgPool ∧
        (w3.pcks j)._msgPump =
          (if j = self then some w2.pumpCount else (w2.pcks j)._msgPump) := by
      intro j; rw [e3]; exact make_pump_pcks w2 self self j
    have hp3 : (w3.pcks self)._msgPump = some w.pumpCount := by
      rw [(p3 self).2.2.2, if_pos rfl, hpc]
    have hu3 : w3.pumps w.pumpCount = msg_pump.make self := by
      rw [e3, ← hpc]; simp [ChainWorld.make_pump]
    have hc3 : w3.Clearable := by
      intro hd p
      by_cases hpp : p = w.pumpCount
      · rw [hpp, hu3]; simp [msg_pump.make]
      · have : w3.pumps p = w2.pumps p := by
          rw [e3]
          simp only [ChainWorld.make_pump]
          rw [Function.update_noteq (by rw [hpc]; exact hpp)]
        rw [this]
        exact hc2 (by rw [e3] at hd; exact hd) p
    simp only [← e3, hp3]
    obtain ⟨w4, e4, k4, q4, _, a4, b4⟩ := connect_msg_pump_bind w3 self w.pumpCount hc3
    refine ⟨w.pumpCount, w4, e4, ?_, ?_, ?_, ?_, ?_, ?_, (fun pm1 h => by cases h), ?_, ?_⟩
    · intro j; rw [q4, (p3 j).1]; exact (p2 j).1
    · intro j; rw [q4, (p3 j).2.1]; exact (p2 j).2.1
    · rw [q4, (p3 self).2.2.1]; exact hpool2
    · rw [q4]; exact hp3
    · rw [k4.poolCount, e3]; exact hk2.poolCount
    · intro _
      have hst := k4.stash w.pumpCount
      have hho := k4.host w.pumpCount
      rw [hu3] at hst hho
      refine ⟨rfl, hst.1, ?_, ?_, hho.1⟩
      · cases hw : (w4.pumps w.pumpCount)._waiting with
        | false => rfl
        | true =>
          have := k4.pumpWaiting _ hw
          rw [hu3] at this
          exact absurd this (by simp [msg_pump.make])
      · cases hpl : (w.pcks self)._msgPool with
        | some pl =>
          have h3pl : (w3.pcks self)._msgPool = some pl :=
            ((p3 self).2.2.1.trans hpool2).trans hpl
          exact ((a4 pl h3pl).2.2 (by rw [hu3]; rfl)).1
        | none =>
          have h3pl : (w3.pcks self)._msgPool = none :=
            ((p3 self).2.2.1.trans hpool2).trans hpl
          rw [(b4 h3pl).2.1, hu3]; rfl
    · intro pl hpl
      have h3pl : (w3.pcks self)._msgPool = some pl :=
        ((p3 self).2.2.1.trans hpool2).trans hpl
      obtain ⟨c1, c2, c3⟩ := a4 pl h3pl
      refine ⟨c1, c2, ?_, ?_⟩
      · rw [k4.buff pl]
        have : w3.pools = w2.pools := by rw [e3]; rfl
        rw [this]
        exact hk2.buff pl
      · intro _
        exact c3 (by rw [hu3]; rfl)
    · intro hpl
      have h3pl : (w3.pcks self)._msgPool = none :=
        ((p3 self).2.2.1.trans hpool2).trans hpl
      exact (b4 h3pl).1

/-- What `msg_agent_to` does to the packets, and what it keeps: the caller's packet links
to the child's, the child's is no head, every packet of the child's chain gets the
caller's pool, and no pump request is posted when the pump of the last packet is not
waiting. -/
theorem msg_agent_to_spec (fuel : Nat) (w : ChainWorld M) (self child : Nat) (l : List Nat)
    (hpar : w.parent child = some self)
    (hold : ∀ nx, (w.pcks self)._next = some nx → ∃ l0, pck.chain w.pcks fuel nx = some l0)
    (hch : pck.chain w.pcks fuel child = some l) (hself : self ∉ l)
    (hc : w.Clearable) :
    ∃ w1, my_actor.msg_agent_to fuel w self child = .ok w1 ∧
      (∀ j, (w1.pcks j)._next = if j = self then some child else (w.pcks j)._next) ∧
      (∀ j, (w1.pcks j)._isHead = if j = child then false else (w.pcks j)._isHead) ∧
      (∀ j, (w1.pcks j)._msgPump = (w.pcks j)._msgPump) ∧
      (w1.pcks self)._msgPool = (w.pcks self)._msgPool ∧
      (∀ j, j ∈ l → (w1.pcks j)._msgPool = (w.pcks self)._msgPool) ∧
      w.Kept w1 ∧
      ((∀ t pm, l.getLast? = some t → (w.pcks t)._msgPump = some pm →
          (w.pumps pm)._waiting = false) → w1.posted = w.posted) := by
  obtain ⟨w1, l0, e1, k1, r1, hnot, o1, _, _⟩ :=
    clear_next_spec fuel ((w.lock_quit).lock self) self hold hc
  have hk1 : w.Kept w1 :=
    ⟨k1.debug, k1.poolCount, k1.pumpCount, k1.parent, k1.quited, k1.dispatched,
      k1.stash, k1.host, k1.buff, k1.waiting, k1.pumpWaiting⟩
  have hw4 : ∃ w4, w4 = ((w1.set_next self (some child)).lock child).set_head child false :=
    ⟨_, rfl⟩
  obtain ⟨w4, e4⟩ := hw4
  have k4 : ∀ j, ((w4.pcks j)._next = if j = self then some child else (w.pcks j)._next) ∧
      ((w4.pcks j)._isHead = if j = child then false else (w.pcks j)._isHead) ∧
      (w4.pcks j)._msgPool = (w1.pcks j)._msgPool ∧
      (w4.pcks j)._msgPump = (w.pcks j)._msgPump := by
    intro j
    obtain ⟨a1, a2, a3, a4⟩ := set_head_pcks ((w1.set_next self (some child)).lock child)
      child false j
    obtain ⟨b1, b2, b3, b4⟩ := set_next_pcks w1 self (some child) j
    rw [e4]
    refine ⟨a1.trans (b1.trans ?_), a2.trans ?_, a3.trans b3, a4.trans (b4.trans (r1.pump j))⟩
    · rw [r1.next j]; rfl
    · have : (((w1.set_next self (some child)).lock child).pcks j)._isHead
          = (w.pcks j)._isHead := b2.trans (r1.head j)
      rw [this]
  have hch4 : pck.chain w4.pcks fuel child = some l := by
    refine chain_congr w.pcks w4.pcks fuel child l hch ?_
    intro j hj
    have hjs : j ≠ self := fun e => hself (e ▸ hj)
    rw [(k4 j).1, if_neg hjs]
  have hk4 : w.Kept w4 := by
    rw [e4]
    exact ⟨hk1.debug, hk1.poolCount, hk1.pumpCount, hk1.parent, hk1.quited, hk1.dispatched,
      hk1.stash, hk1.host, hk1.buff, hk1.waiting, hk1.pumpWaiting⟩
  have hc4 : w4.Clearable := kept_clearable _ _ hk4 hc
  obtain ⟨t, wt, w5, ht, _, hwt, e5, s5, r5, k5⟩ :=
    update_msg_list_spec (w4.pcks self)._msgPool fuel w4 child l hch4 (fun _ => hc4)
  have hpool : (w4.pcks self)._msgPool = (w.pcks self)._msgPool :=
    (k4 self).2.2.1.trans (r1.offChain self hnot)
  have e1m := e1
  simp only [my_actor.clear_next] at e1m
  rw [my_actor.msg_agent_to, if_pos hpar]
  simp only [e1m, ← e4, e5]
  have k5u : w4.Kept (((w5.unlock child).unlock self).unlock_quit) :=
    ⟨k5.debug, k5.poolCount, k5.pumpCount, k5.parent, k5.quited, k5.dispatched,
      k5.stash, k5.host, k5.buff, k5.waiting, k5.pumpWaiting⟩
  refine ⟨_, rfl, ?_, ?_, ?_, ?_, ?_, kept_trans _ _ _ hk4 k5u, ?_⟩
  · intro j
    show (w5.pcks j)._next = _
    rw [r5.next j]; exact (k4 j).1
  · intro j
    show (w5.pcks j)._isHead = _
    rw [r5.head j]; exact (k4 j).2.1
  · intro j
    show (w5.pcks j)._msgPump = _
    rw [r5.pump j]; exact (k4 j).2.2.2
  · show (w5.pcks self)._msgPool = _
    rw [r5.offChain self hself, hpool]
  · intro j hj
    show (w5.pcks j)._msgPool = _
    rw [r5.inChain j hj, hpool]
  · intro hw
    show w5.posted = w.posted
    rw [s5.posted, update_tail_posted w4 wt t _ hwt (Or.inr ?_)]
    · rw [e4]; exact o1
    · intro pm hpm
      have hpm0 : (w.pcks t)._msgPump = some pm := by rw [← (k4 t).2.2.2]; exact hpm
      have h0 := hw t pm ht hpm0
      cases hwp : (w4.pumps pm)._waiting with
      | false => rfl
      | true => rw [hk4.pumpWaiting pm hwp] at h0; cases h0

theorem agentWorld_clearable (q : Bool) : (agentWorld q).Clearable := by
  intro _ p
  simp only [agentWorld]
  split_ifs <;> simp [msg_pump.make]

theorem agentWorld_old_chain (q : Bool) (nx : Nat)
    (h : ((agentWorld q).pcks 1)._next = some nx) :
    ∃ l0, pck.chain (agentWorld q).pcks 5 nx = some l0 := by
  have h3 : ((agentWorld q).pcks 1)._next = some 3 := rfl
  rw [h3] at h
  cases h
  exact ⟨[3], rfl⟩

/-! ### Connecting a pump -/

/-- C17 (counterexample): in `agentWorld false` the parent (actor 1) has delegated to
child 3.  After the parent's `msg_agent_to(2)`, and likewise after the parent's
`connect_msg_pump()`, no packet links to the packet of child 3, yet that packet's
`_isHead` is still false. -/
theorem is_head_not_restored :
    (∃ w1, my_actor.msg_agent_to 5 (agentWorld false) 1 2 = .ok w1 ∧
      (∀ k, (w1.pcks k)._next ≠ some 3) ∧ (w1.pcks 3)._isHead = false) ∧
    (∃ pm w1, my_actor.connect_msg_pump 5 (agentWorld false) 1 = .ok (pm, w1) ∧
      (∀ k, (w1.pcks k)._next ≠ some 3) ∧ (w1.pcks 3)._isHead = false) := by
  have hnext : ∀ k, k ≠ 1 → ((agentWorld false).pcks k)._next = none := by
    intro k hk
    simp only [agentWorld]
    split_ifs <;> simp_all [pck.new]
  refine ⟨?_, ?_⟩
  · obtain ⟨w1, e1, n1, h1, _⟩ :=
      msg_agent_to_spec 5 (agentWorld false) 1 2 [2] rfl (agentWorld_old_chain false) rfl
        (by decide) (agentWorld_clearable false)
    refine ⟨w1, e1, ?_, ?_⟩
    · intro k
      rw [n1 k]
      by_cases hk : k = 1
      · rw [if_pos hk]; decide
      · rw [if_neg hk, hnext k hk]; simp
    · rw [h1 3]; rfl
  · obtain ⟨pm, w1, e1, n1, h1, _⟩ :=
      connect_msg_pump_spec 5 (agentWorld false) 1 (agentWorld_old_chain false)
        (agentWorld_clearable false)
    refine ⟨pm, w1, e1, ?_, ?_⟩
    · intro k
      rw [n1 k]
      by_cases hk : k = 1
      · rw [if_pos hk]; simp
      · rw [if_neg hk, hnext k hk]; simp
    · rw [h1 3]; rfl

/-! ### Connecting a notifier to a buddy -/

theorem assert_not_ancestor_congr (fuel : Nat) (w w1 : ChainWorld M) (h : w1.parent = w.parent) :
    ∀ (pa : Option Nat) (b : Nat),
      my_actor.assert_not_ancestor fuel w1 pa b = my_actor.assert_not_ancestor fuel w pa b := by
  induction fuel with
  | zero => intro pa b; rfl
  | succ n ih =>
    intro pa b
    cases pa with
    | none => rfl
    | some a =>
      simp only [my_actor.assert_not_ancestor]
      rw [h, ih]

/-- The part of `connect_msg_notifer_to` for `makeNew = false`: what it returns, and that
it leaves the build, the actor tree, the links and the head flags as they were. -/
theorem connect_msg_notifer_to_old_spec (fuel : Nat) (w : ChainWorld M) (self buddy : Nat)
    (l : List Nat) (hch : pck.chain w.pcks fuel buddy = some l)
    (hlink : w.debug = true → (w.pcks buddy)._isHead = true →
      (w.pcks self)._next ≠ some buddy) :
    ∃ r w1, my_actor.connect_msg_notifer_to_old fuel w self buddy = .ok (r, w1) ∧
      ((w.pcks buddy)._isHead = false → r = none) ∧
      ((w.pcks buddy)._isHead = true →
        (∀ pl, (w.pcks buddy)._msgPool = some pl → r = some pl ∧ w1.poolCount = w.poolCount) ∧
        ((w.pcks buddy)._msgPool = none →
          r = some w.poolCount ∧ w1.poolCount = w.poolCount + 1 ∧
          (w1.pools w.poolCount)._msgBuff = []) ∧
        (w1.pcks buddy)._msgPool = r ∧ r.isSome = true) ∧
      w1.debug = w.debug ∧ w1.parent = w.parent ∧
      (∀ j, (w1.pcks j)._next = (w.pcks j)._next ∧ (w1.pcks j)._isHead = (w.pcks j)._isHead) := by
  have hbm : buddy ∈ l := chain_head_mem _ _ _ _ hch
  simp only [my_actor.connect_msg_notifer_to_old]
  cases hh : (w.pcks buddy)._isHead with
  | false =>
    have hh0 : ((w.lock buddy).pcks buddy)._isHead = false := hh
    simp only [hh0, Bool.false_eq_true, if_false]
    refine ⟨none, _, rfl, ?_, ?_, ?_, ?_, ?_⟩
    · intro _; rfl
    · intro h; cases h
    · rfl
    · rfl
    · intro j; exact ⟨rfl, rfl⟩
  | true =>
    have hh0 : ((w.lock buddy).pcks buddy)._isHead = true := hh
    have hl0 : ((w.lock buddy).debug &&
        decide (((w.lock buddy).pcks self)._next = some buddy)) = false := by
      cases hd : w.debug with
      | false =>
        have : (w.lock buddy).debug = false := hd
        simp [this]
      | true =>
        have h1 : (w.lock buddy).debug = true := hd
        have h2 : ((w.lock buddy).pcks self)._next ≠ some buddy := hlink hd hh
        simp [h1, h2]
    simp only [hh0, if_true, hl0, Bool.false_eq_true, if_false]
    cases hp : (w.pcks buddy)._msgPool with
    | some pl =>
      have hp0 : ((w.lock buddy).pcks buddy)._msgPool = some pl := hp
      simp only [hp0]
      obtain ⟨t, wt, w2, _, _, _, e2, _, r2, k2⟩ :=
        update_msg_list_spec (some pl) fuel (w.lock buddy) buddy l hch (fun h => by cases h)
      simp only [e2]
      refine ⟨some pl, _, rfl, (fun h => by cases h),
        fun _ => ⟨?_, (fun h => by cases h), ?_, rfl⟩,
        k2.debug, k2.parent, fun j => ⟨r2.next j, r2.head j⟩⟩
      · intro pl1 h1
        cases h1
        exact ⟨rfl, k2.poolCount⟩
      · exact r2.inChain buddy hbm
    | none =>
      have hp0 : ((w.lock buddy).pcks buddy)._msgPool = none := hp
      simp only [hp0]
      obtain ⟨t, wt, w2, _, _, _, e2, _, r2, k2⟩ :=
        update_msg_list_spec (some w.poolCount) fuel ((w.lock buddy).make_pool).2 buddy l hch
          (fun h => by cases h)
      have e2m : my_actor.update_msg_list fuel ((w.lock buddy).make_pool).2 buddy
          (some ((w.lock buddy).make_pool).1) = .ok w2 := e2
      simp only [e2m]
      refine ⟨some w.poolCount, _, rfl, (fun h => by cases h),
        fun _ => ⟨(fun pl h => by cases h), fun _ => ⟨rfl, ?_, ?_⟩, ?_, rfl⟩,
        k2.debug, k2.parent, fun j => ⟨r2.next j, r2.head j⟩⟩
      · exact k2.poolCount
      · show (w2.pools w.poolCount)._msgBuff = []
        rw [k2.buff]
        simp [ChainWorld.make_pool, ChainWorld.lock, msg_pool.make]
      · exact r2.inChain buddy hbm

/-- The checks with which `connect_msg_notifer_to` begins pass for a buddy that is a
child of the caller or has no parent and, in a build with assertions, is no ancestor
of the caller. -/
theorem connect_msg_notifer_to_enter (fuel : Nat) (w : ChainWorld M) (self buddy : Nat)
    (makeNew : Bool)
    (hrel : w.parent buddy = none ∨ w.parent buddy = some self)
    (hanc : w.debug = true →
      my_actor.assert_not_ancestor fuel w (w.parent self) buddy = .ok ()) :
    my_actor.connect_msg_notifer_to fuel w self buddy makeNew =
      if makeNew then
        my_actor.connect_msg_notifer_to_new fuel ((w.lock_quit).lock self) self buddy
      else my_actor.connect_msg_notifer_to_old fuel ((w.lock_quit).lock self) self buddy := by
  have hcond : (!(decide (w.parent buddy = none) || decide (w.parent buddy = some self)))
      = false := by
    rcases hrel with h | h <;> simp [h]
  have hdbg : (if w.debug = true then
      my_actor.assert_not_ancestor fuel w (w.parent self) buddy else .ok ()) = .ok () := by
    cases hd : w.debug with
    | false => simp
    | true => simp [hanc hd]
  simp only [my_actor.connect_msg_notifer_to, hcond, Bool.false_eq_true, if_false, hdbg]

/-- C12: for a buddy that is a child of the caller or has no parent (and, in a build with
assertions, passes the checks of the method), `connect_msg_notifer_to(buddy, false)`
returns; the notifier is empty exactly when the buddy's packet is not head; when it is
head the notifier posts to the pool the packet had, or else to a new, empty pool, which
in both cases is the packet's pool afterwards; and a second call then returns a
notifier for the same pool. -/
theorem connect_msg_notifer_to_same_pool (fuel : Nat) (w : ChainWorld M) (self buddy : Nat)
    (l : List Nat)
    (hrel : w.parent buddy = none ∨ w.parent buddy = some self)
    (hanc : w.debug = true →
      my_actor.assert_not_ancestor fuel w (w.parent self) buddy = .ok ())
    (hch : pck.chain w.pcks fuel buddy = some l)
    (hlink : w.debug = true → (w.pcks buddy)._isHead = true →
      (w.pcks self)._next ≠ some buddy) :
    ∃ r w1, my_actor.connect_msg_notifer_to fuel w self buddy false = .ok (r, w1) ∧
      (r = none ↔ (w.pcks buddy)._isHead = false) ∧
      ((w.pcks buddy)._isHead = true →
        (∀ pl, (w.pcks buddy)._msgPool = some pl → r = some pl ∧ w1.poolCount = w.poolCount) ∧
        ((w.pcks buddy)._msgPool = none →
          r = some w.poolCount ∧ w1.poolCount = w.poolCount + 1 ∧
          (w1.pools w.poolCount)._msgBuff = []) ∧
        (w1.pcks buddy)._msgPool = r) ∧
      ∃ w2, my_actor.connect_msg_notifer_to fuel w1 self buddy false = .ok (r, w2) := by
  obtain ⟨r, w1, e1, a1, a2, d1, q1, f1⟩ :=
    connect_msg_notifer_to_old_spec fuel ((w.lock_quit).lock self) self buddy l hch hlink
  have hrel1 : w1.parent buddy = none ∨ w1.parent buddy = some self := by
    rw [q1]; exact hrel
  have hanc1 : w1.debug = true →
      my_actor.assert_not_ancestor fuel w1 (w1.parent self) buddy = .ok () := by
    intro hd
    rw [assert_not_ancestor_congr fuel w w1 q1, q1]
    exact hanc (d1 ▸ hd)
  have hch1 : pck.chain w1.pcks fuel buddy = some l :=
    chain_congr w.pcks w1.pcks fuel buddy l hch (fun j _ => (f1 j).1)
  have hlink1 : w1.debug = true → (w1.pcks buddy)._isHead = true →
      (w1.pcks self)._next ≠ some buddy := by
    intro hd hh
    rw [(f1 self).1]
    exact hlink (d1 ▸ hd) ((f1 buddy).2 ▸ hh)
  obtain ⟨r2, w2, e2, b1, b2, _, _, _⟩ :=
    connect_msg_notifer_to_old_spec fuel ((w1.lock_quit).lock self) self buddy l hch1 hlink1
  have hr : r2 = r := by
    cases hh : (w.pcks buddy)._isHead with
    | false =>
      rw [a1 hh]
      exact b1 ((f1 buddy).2.trans hh)
    | true =>
      obtain ⟨_, _, c3, c4⟩ := a2 hh
      obtain ⟨d2, _, _, _⟩ := b2 ((f1 buddy).2.trans hh)
      cases hr0 : r with
      | none => rw [hr0] at c4; cases c4
      | some pl =>
        rw [hr0] at c3
        exact (d2 pl c3).1
  refine ⟨r, w1, ?_, ?_, ?_, w2, ?_⟩
  · rw [connect_msg_notifer_to_enter fuel w self buddy false hrel hanc]
    exact e1
  · constructor
    · intro hr0
      cases hh : (w.pcks buddy)._isHead with
      | false => rfl
      | true =>
        have := (a2 hh).2.2.2
        rw [hr0] at this
        cases this
    · exact a1
  · intro hh
    exact ⟨(a2 hh).1, (a2 hh).2.1, (a2 hh).2.2.1⟩
  · rw [connect_msg_notifer_to_enter fuel w1 self buddy false hrel1 hanc1, ← hr]
    exact e2

/-- Witness of `connect_msg_notifer_to_same_pool`: in `agentWorld false` the parent asks
twice for a notifier to child 2, whose packet is head and has pool 11. -/
theorem connect_msg_notifer_to_same_pool_witness :
    ∃ w1 w2, my_actor.connect_msg_notifer_to 5 (agentWorld false) 1 2 false
        = .ok (some 11, w1) ∧
      my_actor.connect_msg_notifer_to 5 w1 1 2 false = .ok (some 11, w2) := by
  obtain ⟨r, w1, e1, _, a2, w2, e2⟩ :=
    connect_msg_notifer_to_same_pool 5 (agentWorld false) 1 2 [2] (Or.inr rfl)
      (fun _ => rfl) rfl (fun _ _ => by decide)
  have hr : r = some 11 := ((a2 rfl).1 11 rfl).1
  subst hr
  exact ⟨w1, w2, e1, e2⟩

theorem receiver_pool (s s1 : Sys M) (msg : M) (h : msg_pump.receiver s msg = .ok s1) :
    s1.pool = s.pool := by
  unfold msg_pump.receiver at h
  by_cases hh : s.pump._hostActor.isSome = true
  · rw [if_pos hh] at h
    by_cases hg : (s.debug && s.pump._hasMsg) = true
    · rw [if_pos hg] at h; cases h
    · rw [if_neg hg] at h
      cases hd : s.pump._dstRef with
      | some d =>
        cases hw : s.pump._waiting with
        | true =>
          simp only [hd, hw, if_true] at h
          cases h; rfl
        | false =>
          simp only [hd, hw, Bool.false_eq_true, if_false] at h
          cases h; rfl
      | none =>
        simp only [hd] at h
        split at h
        · cases h
        · cases h; rfl
  · rw [if_neg hh] at h
    cases h; rfl

theorem receive_msg_post_pool (s : Sys M) (msg : M) :
    (msg_pump.receive_msg_post s msg).pool = s.pool := by
  unfold msg_pump.receive_msg_post Sys.post_pump
  split <;> rfl

theorem receive_msg_pool (s s1 : Sys M) (msg : M) (h : msg_pump.receive_msg s msg = .ok s1) :
    s1.pool = s.pool := by
  unfold msg_pump.receive_msg at h
  split at h
  · exact receiver_pool _ _ _ h
  · cases h; exact receive_msg_post_pool _ _

/-- C21: `msg_pool::send_msg(mt, post)` on a pool whose connected pump is the pump of the
system.  When the pool is flagged waiting, the call is the delivery to that pump
(`receive_msg_post` for `post`, else `receive_msg`) of the oldest buffered message, or
of `mt` itself when the buffer is empty, made in the state in which the flag is cleared,
`_sendCount` is incremented modulo 256 and `mt` has taken the place of the delivered
message at the end of the buffer; the buffer has its old length, and every state the
delivery returns has exactly that pool.  When the pool is not flagged waiting, the call
appends `mt` to the buffer and changes nothing else. -/
theorem send_msg_waiting_or_buffer (s : Sys M) (mt : M) (post : Bool)
    (hp : s.pool._msgPump = some s.pumpId) :
    (s.pool._waiting = true →
      ∃ s1 : Sys M,
        s1 = { s with pool := { s.pool with _waiting := false
                                            _sendCount := (s.pool._sendCount + 1) % 256
                                            _msgBuff := (s.pool._msgBuff ++ [mt]).tail } } ∧
        s1.pool._msgBuff.length = s.pool._msgBuff.length ∧
        msg_pool.send_msg s mt post =
          (if post then .ok (msg_pump.receive_msg_post s1 (s.pool._msgBuff.head?.getD mt))
           else msg_pump.receive_msg s1 (s.pool._msgBuff.head?.getD mt)) ∧
        ∀ s2, msg_pool.send_msg s mt post = .ok s2 → s2.pool = s1.pool) ∧
    (s.pool._waiting = false →
      msg_pool.send_msg s mt post =
        .ok { s with pool := { s.pool with _msgBuff := s.pool._msgBuff ++ [mt] } }) := by
  refine ⟨fun hw => ⟨_, rfl, by simp, ?_⟩, fun hw => ?_⟩
  · have hsend : msg_pool.send_msg s mt post =
        (if post then .ok (msg_pump.receive_msg_post
            { s with pool := { s.pool with _waiting := false
                                           _sendCount := (s.pool._sendCount + 1) % 256
                                           _msgBuff := (s.pool._msgBuff ++ [mt]).tail } }
            (s.pool._msgBuff.head?.getD mt))
         else msg_pump.receive_msg
            { s with pool := { s.pool with _waiting := false
                                           _sendCount := (s.pool._sendCount + 1) % 256
                                           _msgBuff := (s.pool._msgBuff ++ [mt]).tail } }
            (s.pool._msgBuff.head?.getD mt)) := by
      unfold msg_pool.send_msg
      cases hb : s.pool._msgBuff with
      | nil =>
        simp [hw, hp, hb, msg_pool.with_pump]
      | cons front rest =>
        simp [hw, hp, hb, msg_pool.with_pump, msg_queue.pop_front, msg_queue.push_back]
    refine ⟨hsend, fun s2 h2 => ?_⟩
    rw [hsend] at h2
    cases post with
    | true =>
      simp only [if_true] at h2
      cases h2
      exact receive_msg_post_pool _ _
    | false =>
      simp only [Bool.false_eq_true, if_false] at h2
      exact receive_msg_pool _ _ _ h2
  · unfold msg_pool.send_msg
    simp [hw, msg_queue.push_back]

/-- Witness for C21: a pool that the reader's request found empty is flagged waiting; the
next `send_msg` clears the flag, counts the message and posts the `receiver` of the
message itself on the pump strand. -/
theorem send_msg_waiting_or_buffer_witness :
    ∃ s2 : Sys Nat,
      msg_pool.send_msg
        { (Sys.start true false true 1 2 3 ([] : List Nat)) with
          pool := { _msgPump := some 2, _msgBuff := [], _sendCount := 0, _waiting := true } }
        5 true = .ok s2 ∧
      s2.pool = { _msgPump := some 2, _msgBuff := [], _sendCount := 1, _waiting := false } ∧
      chan_task.recvs s2.pumpQ = [5] := by
  obtain ⟨s1, hs1, _, hsend, _⟩ :=
    (send_msg_waiting_or_buffer
      { (Sys.start true false true 1 2 3 ([] : List Nat)) with
        pool := { _msgPump := some 2, _msgBuff := [], _sendCount := 0, _waiting := true } }
      5 true rfl).1 rfl
  subst hs1
  exact ⟨_, hsend.trans (if_pos rfl), rfl, rfl⟩

/-- C22 (amended): the pump handler of the connected pump, run on the pool strand.  If the
passed counter equals `_sendCount` and the buffer is empty, nothing is dispatched and the
pool is flagged waiting.  If it equals `_sendCount` and the buffer is not empty, the
oldest buffered message is taken out, `_sendCount` is incremented modulo 256 and the
message is handed to the pump's `receive_msg`; the waiting flag is not changed.  If
it differs from `_sendCount`, the state is left as it is, unless assertions are compiled
in and one of the two assertions of that branch fails. -/
theorem pump_handler_call_cases (s : Sys M) (pumpID : Nat)
    (hp : s.pool._msgPump = some s.pumpId) :
    (pumpID = s.pool._sendCount → s.pool._msgBuff = [] →
      pump_handler.call s ⟨some s.poolId, some s.pumpId⟩ pumpID true =
        .ok { s with pool := { s.pool with _waiting := true } }) ∧
    (pumpID = s.pool._sendCount → ∀ mt rest, s.pool._msgBuff = mt :: rest →
      pump_handler.call s ⟨some s.poolId, some s.pumpId⟩ pumpID true =
        msg_pump.receive_msg
          { s with pool := { s.pool with _msgBuff := rest
                                         _sendCount := (s.pool._sendCount + 1) % 256 } } mt ∧
      ∀ s1, pump_handler.call s ⟨some s.poolId, some s.pumpId⟩ pumpID true = .ok s1 →
        s1.pool = { s.pool with _msgBuff := rest
                                _sendCount := (s.pool._sendCount + 1) % 256 }) ∧
    (pumpID ≠ s.pool._sendCount →
      pump_handler.call s ⟨some s.poolId, some s.pumpId⟩ pumpID true = .ok s ∨
      (s.debug = true ∧ (s.pool._waiting = true ∨ pumpID + 1 ≠ s.pool._sendCount) ∧
        pump_handler.call s ⟨some s.poolId, some s.pumpId⟩ pumpID true =
          .error .assert_failed)) := by
  refine ⟨fun he hb => ?_, fun he mt rest hb => ?_, fun hne => ?_⟩
  · unfold pump_handler.call
    simp [hp, he, hb]
  · have hcall : pump_handler.call s ⟨some s.poolId, some s.pumpId⟩ pumpID true =
        msg_pump.receive_msg
          { s with pool := { s.pool with _msgBuff := rest
                                         _sendCount := (s.pool._sendCount + 1) % 256 } } mt := by
      unfold pump_handler.call
      simp [hp, he, hb, msg_pool.with_pump]
    refine ⟨hcall, fun s1 h1 => ?_⟩
    rw [hcall] at h1
    exact receive_msg_pool _ _ _ h1
  · unfold pump_handler.call
    cases hd : s.debug with
    | false => left; simp [hp, hne, hd]
    | true =>
      cases hw : s.pool._waiting with
      | true => right; simp [hp, hne, hd, hw]
      | false =>
        by_cases hs : pumpID + 1 = s.pool._sendCount
        · left; simp [hp, hne, hd, hw, hs]
        · right; simp [hp, hne, hd, hw, hs]

/-- Witness for C22: the request of a reader that finds the connected pool empty. -/
theorem pump_handler_call_cases_witness :
    pump_handler.call (Sys.start true false true 1 2 3 ([] : List Nat)) ⟨some 1, some 2⟩ 0 true =
      .ok { (Sys.start true false true 1 2 3 ([] : List Nat)) with
            pool := { (Sys.start true false true 1 2 3 ([] : List Nat)).pool with
                      _waiting := true } } :=
  (pump_handler_call_cases (Sys.start true false true 1 2 3 ([] : List Nat)) 0 rfl).1 rfl rfl

/-- C22 (counterexample): the message 5 was pushed before the pump was connected, so the
pool's buffer holds it and `_sendCount` is 0.  The handler run with the counter 0, which
equals `_sendCount`, does not flag the pool waiting: it takes 5 out of the buffer,
increments `_sendCount` and posts the `receiver` of 5 on the pump strand. -/
theorem pump_handler_dispatches_buffered :
    (Sys.start true false true 1 2 3 [5]).pool._msgPump = some 2 ∧
    (Sys.start true false true 1 2 3 [5]).pool._sendCount = 0 ∧
    (Sys.start true false true 1 2 3 [5]).pool._msgBuff = [5] ∧
    (pump_handler.call (Sys.start true false true 1 2 3 [5]) ⟨some 1, some 2⟩ 0 true).toOption.map
      (fun s => (s.pool._waiting, s.pool._sendCount, s.pool._msgBuff,
                 chan_task.recvs s.pumpQ)) = some (false, 1, [], [5]) := by
  refine ⟨rfl, rfl, rfl, rfl⟩

/-- C23: `msg_pump::receiver(msg)` on an open pump whose stash slot is empty.  With a
registered destination the message is written into it, the destination is cleared,
`_pumpCount` is incremented modulo 256 and a waiting actor is resumed exactly once (an
actor that is not waiting is not resumed).  With no destination registered (and no
waiting actor) the message is stored in the stash slot and nothing is written; the next
`read_msg` returns true, writes exactly that message into its destination, empties the
stash, posts nothing on either strand and leaves the pool untouched. -/
theorem msg_pump_receiver_cases (s : Sys M) (msg : M)
    (hh : s.pump._hostActor.isSome = true) (hm : s.pump._hasMsg = false) :
    (∀ d, s.pump._dstRef = some d →
      ∃ s1, msg_pump.receiver s msg = .ok s1 ∧
        s1.out = s.out ++ [(d, msg)] ∧ s1.pump._dstRef = none ∧ s1.pump._waiting = false ∧
        s1.pump._hasMsg = false ∧ s1.pump._pumpCount = (s.pump._pumpCount + 1) % 256 ∧
        s1.host.resumes = s.host.resumes + (if s.pump._waiting then 1 else 0) ∧
        s1.pool = s.pool ∧ s1.poolQ = s.poolQ ∧ s1.pumpQ = s.pumpQ) ∧
    (s.pump._dstRef = none → s.pump._waiting = false →
      ∃ s1, msg_pump.receiver s msg = .ok s1 ∧
        s1.out = s.out ∧ s1.pump._hasMsg = true ∧ s1.pump._msgSpace = some msg ∧
        s1.pump._pumpCount = (s.pump._pumpCount + 1) % 256 ∧ s1.host = s.host ∧
        ∀ dst, ∃ s2, msg_pump.read_msg s1 dst = .ok (true, s2) ∧
          s2.out = s.out ++ [(dst, msg)] ∧ s2.pump._hasMsg = false ∧
          s2.pump._msgSpace = none ∧ s2.pump._dstRef = none ∧ s2.pump._waiting = false ∧
          s2.poolQ = s.poolQ ∧ s2.pumpQ = s.pumpQ ∧ s2.pool = s.pool ∧ s2.host = s.host) := by
  have hg : (s.debug && s.pump._hasMsg) = false := by simp [hm]
  refine ⟨fun d hd => ?_, fun hd hw => ?_⟩
  · cases hw : s.pump._waiting with
    | true =>
      refine ⟨{ s with out := s.out ++ [(d, msg)]
                       pump := { s.pump with _pumpCount := (s.pump._pumpCount + 1) % 256
                                             _dstRef := none, _waiting := false
                                             _checkDis := false }
                       host := s.host.pull_yield }, ?_, rfl, rfl, rfl, hm, rfl, ?_, rfl, rfl, rfl⟩
      · unfold msg_pump.receiver
        simp only [hh, hg, hd, hw, if_true, Bool.false_eq_true, if_false]
      · simp [my_actor.pull_yield]
    | false =>
      refine ⟨{ s with out := s.out ++ [(d, msg)]
                       pump := { s.pump with _pumpCount := (s.pump._pumpCount + 1) % 256
                                             _dstRef := none } },
        ?_, rfl, rfl, hw, hm, rfl, ?_, rfl, rfl, rfl⟩
      · unfold msg_pump.receiver
        simp only [hh, hg, hd, hw, if_true, Bool.false_eq_true, if_false]
      · simp
  · refine ⟨{ s with pump := { s.pump with _pumpCount := (s.pump._pumpCount + 1) % 256
                                           _hasMsg := true, _msgSpace := some msg } },
      ?_, rfl, rfl, rfl, rfl, rfl, fun dst => ?_⟩
    · unfold msg_pump.receiver
      simp only [hh, hg, hd, hw, if_true, Bool.false_eq_true, if_false, Bool.and_false]
    · refine ⟨{ s with out := s.out ++ [(dst, msg)]
                       pump := { s.pump with _pumpCount := (s.pump._pumpCount + 1) % 256
                                             _hasMsg := false, _msgSpace := none } },
        ?_, rfl, rfl, rfl, hd, hw, rfl, rfl, rfl, rfl⟩
      unfold msg_pump.read_msg
      simp [hd, hw]

/-- Witness for C23: a message arrives at a newly made pump that nobody reads. -/
theorem msg_pump_receiver_cases_witness :
    ∃ s1, msg_pump.receiver (Sys.create true false false 1 2 3 : Sys Nat) 5 = .ok s1 ∧
      ∃ s2, msg_pump.read_msg s1 7 = .ok (true, s2) ∧ s2.out = [(7, 5)] := by
  obtain ⟨s1, h1, _, _, _, _, _, hr⟩ :=
    (msg_pump_receiver_cases (Sys.create true false false 1 2 3 : Sys Nat) 5 rfl rfl).2 rfl rfl
  obtain ⟨s2, h2, ho, _⟩ := hr 7
  exact ⟨s1, h1, s2, h2, ho⟩

set_option maxRecDepth 1000000 in
/-- C26: with assertions compiled in, on one strand, a reader and a producer exchange
255 messages; the reader asks again, the producer pushes and the pool dispatches the
256th message by post, so `_sendCount` wraps to 0 while `_pumpCount` is 255; the
reader's wait times out before the posted `receiver` runs.  No assertion has failed up
to here and the pool is not flagged waiting.  The reader's next `read_msg` calls the
handler with 255, which differs from `_sendCount`; the handler evaluates
`255 + 1 == 0` in `int`, and the assertion fails.  The same exchange at the counters 0
and 1 passes the assertion. -/
theorem pump_handler_assert_fails_at_wrap :
    ((Sys.start true true true 1 2 3 ([] : List Nat)).run
        (ChanEvent.wrapTrace ++ [.timeout])).toOption.map
      (fun s => (s.pool._sendCount, s.pump._pumpCount, s.pool._waiting, s.pump._waiting,
                 s.pump._pumpHandler)) = some (0, 255, false, false, ⟨some 1, some 2⟩) ∧
    (Sys.start true true true 1 2 3 ([] : List Nat)).run
        (ChanEvent.wrapTrace ++ [.timeout, .read 0]) = .error .assert_failed ∧
    ((Sys.start true true true 1 2 3 ([] : List Nat)).run
        [.read 0, .push 0, .timeout, .read 0]).toOption.map
      (fun s => (s.pool._sendCount, s.pump._pumpCount)) = some (1, 0) := by
  refine ⟨by rfl, by rfl, by rfl⟩

/-! ### The pool's waiting flag and its buffer -/

theorem with_pump_pool (s s1 : Sys M) (f : Sys M → Except Err (Sys M))
    (h : msg_pool.with_pump s f = .ok s1) (hf : ∀ s2, f s = .ok s2 → s2.pool = s.pool) :
    s1.pool = s.pool := by
  unfold msg_pool.with_pump at h
  split at h
  · cases h
  · split at h
    · exact hf _ h
    · cases h; rfl

theorem send_msg_not_waiting (s s1 : Sys M) (mt : M) (post : Bool)
    (h : msg_pool.send_msg s mt post = .ok s1) : s1.pool._waiting = false := by
  unfold msg_pool.send_msg at h
  cases hw : s.pool._waiting with
  | false =>
    simp only [hw, Bool.false_eq_true, if_false] at h
    cases h
    rfl
  | true =>
    simp only [hw, if_true] at h
    split at h
    · cases h
    · have hdel : ∀ (m : M) (s2 s3 : Sys M),
          (if post then .ok (msg_pump.receive_msg_post s2 m) else msg_pump.receive_msg s2 m)
            = Except.ok s3 → s3.pool = s2.pool := by
        intro m s2 s3 h3
        cases post with
        | true =>
          simp only [if_true] at h3
          cases h3
          exact receive_msg_post_pool _ _
        | false =>
          simp only [Bool.false_eq_true, if_false] at h3
          exact receive_msg_pool _ _ _ h3
      cases hb : s.pool._msgBuff with
      | nil =>
        simp only [hb] at h
        rw [with_pump_pool _ _ _ h (fun s3 h3 => hdel _ _ _ h3)]
      | cons front rest =>
        simp only [hb] at h
        rw [with_pump_pool _ _ _ h (fun s3 h3 => hdel _ _ _ h3)]

theorem pump_handler_call_quiet (s s1 : Sys M) (ph : pump_handler) (pumpID : Nat) (b : Bool)
    (hq : s.pool._waiting = true → s.pool._msgBuff = [])
    (h : pump_handler.call s ph pumpID b = .ok s1) :
    s1.pool._waiting = true → s1.pool._msgBuff = [] := by
  unfold pump_handler.call at h
  cases hpl : ph._thisPool with
  | none => simp only [hpl] at h; cases h
  | some pl =>
    simp only [hpl] at h
    by_cases h1 : pl ≠ s.poolId
    · rw [if_pos h1] at h; cases h; exact hq
    · rw [if_neg h1] at h
      cases b with
      | false =>
        simp only [Bool.false_eq_true, if_false] at h
        cases h
        exact hq
      | true =>
        simp only [if_true] at h
        by_cases h2 : ph._msgPump = s.pool._msgPump
        · rw [if_pos h2] at h
          by_cases h3 : pumpID = s.pool._sendCount
          · rw [if_pos h3] at h
            cases hb : s.pool._msgBuff with
            | nil =>
              simp only [hb] at h
              cases h
              intro _
              rfl
            | cons mt rest =>
              simp only [hb] at h
              rw [with_pump_pool _ _ _ h (fun s3 h3 => receive_msg_pool _ _ _ h3)]
              intro hw
              have hnil := hq hw
              rw [hb] at hnil
              cases hnil
          · rw [if_neg h3] at h
            split at h
            · cases h
            · cases h; exact hq
        · rw [if_neg h2] at h; cases h; exact hq

theorem read_msg_quiet (s : Sys M) (dst : Nat) (rs : Bool × Sys M)
    (hq : s.pool._waiting = true → s.pool._msgBuff = [])
    (h : msg_pump.read_msg s dst = .ok rs) :
    rs.2.pool._waiting = true → rs.2.pool._msgBuff = [] := by
  unfold msg_pump.read_msg at h
  split at h
  · cases h
  · split at h
    · cases h; exact hq
    · simp only at h
      split at h
      · split at h
        · cases h
        · next s2 h2 =>
          cases h
          show s2.pool._waiting = true → s2.pool._msgBuff = []
          refine pump_handler_call_quiet _ s2 _ _ _ ?_ h2
          exact hq
      · cases h; exact hq

theorem run_task_quiet (s s1 : Sys M) (t : chan_task M)
    (hq : s.pool._waiting = true → s.pool._msgBuff = [])
    (h : s.run_task t = .ok s1) :
    s1.pool._waiting = true → s1.pool._msgBuff = [] := by
  cases t with
  | send_msg mt =>
    intro hw
    rw [send_msg_not_waiting _ _ _ _ h] at hw
    cases hw
  | pump_handler ph pumpID => exact pump_handler_call_quiet _ _ _ _ _ hq h
  | receiver msg =>
    rw [receiver_pool _ _ _ h]
    exact hq
  | delay d =>
    cases h
    exact hq

theorem step_quiet (s s1 : Sys M) (e : ChanEvent M)
    (hq : s.pool._waiting = true → s.pool._msgBuff = [])
    (h : s.step e = .ok s1) :
    s1.pool._waiting = true → s1.pool._msgBuff = [] := by
  cases e with
  | push m =>
    simp only [Sys.step, msg_pool.push_msg] at h
    split at h
    · intro hw
      rw [send_msg_not_waiting _ _ _ _ h] at hw
      cases hw
    · cases h; exact hq
  | run_pool =>
    simp only [Sys.step] at h
    split at h
    · cases h; exact hq
    · refine run_task_quiet _ _ _ ?_ h
      exact hq
  | run_pump =>
    simp only [Sys.step] at h
    split at h
    · cases h; exact hq
    · refine run_task_quiet _ _ _ ?_ h
      exact hq
  | read dst =>
    cases hw : s.pump._waiting with
    | true =>
      simp only [Sys.step, hw, if_true] at h
      cases h; exact hq
    | false =>
      simp only [Sys.step, hw, Bool.false_eq_true, if_false] at h
      split at h
      · cases h
      · next rs hrs =>
        cases h
        exact read_msg_quiet _ _ _ hq hrs
  | timeout =>
    cases hw : s.pump._waiting with
    | true =>
      simp only [Sys.step, hw, if_true] at h
      cases h; exact hq
    | false =>
      simp only [Sys.step, hw, Bool.false_eq_true, if_false] at h
      cases h; exact hq

theorem connect_not_waiting (s : Sys M) : s.connect.pool._waiting = false := by
  unfold Sys.connect
  simp only
  split <;> rfl

theorem pool_step_quiet (s s1 : Sys M) (e : PoolEvent M)
    (hq : s.pool._waiting = true → s.pool._msgBuff = [])
    (h : s.pool_step e = .ok s1) :
    s1.pool._waiting = true → s1.pool._msgBuff = [] := by
  cases e with
  | chan e => exact step_quiet _ _ _ hq h
  | connect_pump =>
    cases h
    intro hw
    rw [connect_not_waiting] at hw
    cases hw
  | disconnect =>
    cases h
    intro hw
    cases hw

theorem pool_run_quiet (es : List (PoolEvent M)) (s s1 : Sys M)
    (hq : s.pool._waiting = true → s.pool._msgBuff = [])
    (h : s.pool_run es = .ok s1) :
    s1.pool._waiting = true → s1.pool._msgBuff = [] := by
  induction es generalizing s with
  | nil => cases h; exact hq
  | cons e es ih =>
    unfold Sys.pool_run at h
    split at h
    · cases h
    · next s2 h2 => exact ih _ (pool_step_quiet _ _ _ hq h2) h

/-- C28: in every state that a newly made pool and pump reach by pushes, strand steps,
pump requests, reader timeouts, connections of the pump and disconnections of the pool,
a pool flagged waiting has an empty buffer; so no call of `send_msg` finds the pool
waiting with a non-empty buffer. -/
theorem msg_pool_waiting_buffer_empty (debug sameStrand prodInPool : Bool)
    (poolId pumpId hostActor : Nat) (es : List (PoolEvent M)) (s : Sys M)
    (h : (Sys.create debug sameStrand prodInPool poolId pumpId hostActor : Sys M).pool_run es
      = .ok s) :
    (s.pool._waiting = true → s.pool._msgBuff = []) ∧
    ¬ (s.pool._waiting = true ∧ s.pool._msgBuff ≠ []) := by
  have hq := pool_run_quiet es _ s (fun hw => by cases hw) h
  exact ⟨hq, fun hc => hc.2 (hq hc.1)⟩

/-- Witness for C28: a message is pushed before the pump is connected, the reader takes
it and asks again, which flags the emptied pool waiting. -/
theorem msg_pool_waiting_buffer_empty_witness :
    ∃ s : Sys Nat,
      (Sys.create true true true 1 2 3 : Sys Nat).pool_run
        [.chan (.push 5), .connect_pump, .chan (.read 0), .chan (.read 1)] = .ok s ∧
      s.pool._waiting = true ∧ s.pool._msgBuff = [] ∧ s.out = [(0, 5)] := by
  have hrun : ∃ s : Sys Nat,
      (Sys.create true true true 1 2 3 : Sys Nat).pool_run
        [.chan (.push 5), .connect_pump, .chan (.read 0), .chan (.read 1)] = .ok s ∧
      s.pool._waiting = true ∧ s.out = [(0, 5)] := ⟨_, rfl, rfl, rfl⟩
  obtain ⟨s, hs, hw, ho⟩ := hrun
  exact ⟨s, hs, hw, (msg_pool_waiting_buffer_empty true true true 1 2 3 _ s hs).1 hw, ho⟩

/-! ### A trigger fired before the wait -/

/-- C25: actor 1 makes a trigger notifier, a producer fires it with 5 and the strand runs
the notifier's lambda before the actor waits.  `push_msg` has stored 5 in the slot and
has set the shared `closed` cell, so the entry assertion of `timed_wait_trig`
(`ath._closed && !(*ath._closed)`) is false and the call, like `wait_trig`, fails it.
The rest of the method, `_timed_wait_msg`, returns true at once with the message. -/
theorem timed_wait_trig_after_fire :
    ∃ w, HostWorld.firedBeforeWait = .ok w ∧
      w.ath._hasMsg = true ∧ w.ath._msgBuff = some 5 ∧ w.trigPushed = [5] ∧
      w.ath._closed = some 0 ∧ w.closed 0 = true ∧
      my_actor.timed_wait_trig_assert w = false ∧
      my_actor.timed_wait_trig_enter w 7 50 = .error .assert_failed ∧
      my_actor.wait_trig_enter w 7 = .error .assert_failed ∧
      ∃ w1, my_actor._timed_wait_trig_enter w 7 50 = .ok (.returned true w1) ∧
        w1.out = [(7, 5)] :=
  ⟨_, rfl, rfl, rfl, rfl, rfl, rfl, rfl, rfl, rfl, _, rfl, rfl⟩

/-! ### The invariant of a mailbox handle and the notifiers of earlier `make_notifer` calls -/

theorem make_notifer_waiting_inv (w : HostWorld M) (hostActor : Nat) :
    ((actor_msg_handle.make_notifer w hostActor).2.amh._waiting = true ↔
      (actor_msg_handle.make_notifer w hostActor).2.amh._dstRef.isSome = true) ∧
    ((actor_msg_handle.make_notifer w hostActor).2.amh._waiting = true →
      (actor_msg_handle.make_notifer w hostActor).2.amh._msgBuff = []) := by
  simp [actor_msg_handle.make_notifer, actor_msg_handle.close, msg_queue.clear]

theorem mailbox_op_inv (w : HostWorld M) (o : MailboxOp M)
    (h1 : w.amh._waiting = true ↔ w.amh._dstRef.isSome = true)
    (h2 : w.amh._waiting = true → w.amh._msgBuff = []) :
    ∃ w1, actor_msg_handle.op w o = .ok w1 ∧
      (w1.amh._waiting = true ↔ w1.amh._dstRef.isSome = true) ∧
      (w1.amh._waiting = true → w1.amh._msgBuff = []) := by
  cases o with
  | make_notifer hostActor => exact ⟨_, rfl, make_notifer_waiting_inv w hostActor⟩
  | push_msg m =>
    cases hw : w.amh._waiting with
    | true =>
      have hb := h2 hw
      have hd := h1.mp hw
      obtain ⟨d, hd⟩ := Option.isSome_iff_exists.mp hd
      refine ⟨HostWorld.run_one
          { w with msgPushed := w.msgPushed ++ [m], out := w.out ++ [(d, m)]
                   amh := { w.amh with _waiting := false, _dstRef := none } }, ?_, ?_, ?_⟩
      · simp [actor_msg_handle.op, actor_msg_handle.push_msg, hw, hb, hd, msg_queue.empty]
      · simp [HostWorld.run_one]
      · simp [HostWorld.run_one]
    | false =>
      refine ⟨{ w with msgPushed := w.msgPushed ++ [m]
                       amh := { w.amh with _msgBuff := msg_queue.push_back w.amh._msgBuff m } },
        ?_, ?_, ?_⟩
      · simp [actor_msg_handle.op, actor_msg_handle.push_msg, hw]
      · simpa [hw] using h1
      · simp [hw]
  | read_msg dst =>
    refine ⟨_, rfl, ?_⟩
    cases hb : w.amh._msgBuff with
    | nil =>
      simp [actor_msg_handle.read_msg, msg_queue.front, hb]
    | cons m rest =>
      have hw : w.amh._waiting = false := by
        cases hw : w.amh._waiting with
        | false => rfl
        | true => have := h2 hw; rw [hb] at this; cases this
      have hd : w.amh._dstRef.isSome = false := by
        cases hd : w.amh._dstRef.isSome with
        | false => rfl
        | true => have := h1.mpr hd; rw [hw] at this; cases this
      simp [actor_msg_handle.read_msg, msg_queue.front, hb, hw, hd]
  | close =>
    refine ⟨_, rfl, ?_⟩
    simp [actor_msg_handle.close, msg_queue.clear]
  | resume frame tm =>
    refine ⟨_, rfl, ?_⟩
    unfold my_actor._timed_wait_msg_resume
    by_cases hf : frame ∉ w.self.timeoutSet
    · rw [if_pos hf]
      by_cases htm : tm ≥ 0
      · simp only [htm, if_true]; exact ⟨h1, h2⟩
      · simp only [htm, if_false]; exact ⟨h1, h2⟩
    · rw [if_neg hf]
      simp

theorem mailbox_ops_inv (os : List (MailboxOp M)) (w : HostWorld M)
    (h1 : w.amh._waiting = true ↔ w.amh._dstRef.isSome = true)
    (h2 : w.amh._waiting = true → w.amh._msgBuff = []) :
    ∃ w1, actor_msg_handle.ops w os = .ok w1 ∧
      (w1.amh._waiting = true ↔ w1.amh._dstRef.isSome = true) ∧
      (w1.amh._waiting = true → w1.amh._msgBuff = []) := by
  induction os generalizing w with
  | nil => exact ⟨w, rfl, h1, h2⟩
  | cons o os ih =>
    obtain ⟨w1, ho, h3, h4⟩ := mailbox_op_inv w o h1 h2
    obtain ⟨w2, hos, h5⟩ := ih w1 h3 h4
    refine ⟨w2, ?_, h5⟩
    unfold actor_msg_handle.ops
    rw [ho]
    exact hos

/-- C27: on a mailbox handle, `_waiting` is true exactly when a destination is registered,
and then the buffer is empty.  Every operation (`make_notifer`, `push_msg`, `read_msg`,
`close`, the part of `_timed_wait_msg` after the actor is switched back in) started in
a state with this invariant fails no assertion and ends in a state with it;
`make_notifer` establishes it from any state; so every sequence of operations after a
`make_notifer` runs without a failed assertion, those of `push_msg` included, and ends
in a state with the invariant. -/
theorem actor_msg_handle_waiting_inv :
    (∀ (w : HostWorld M) (o : MailboxOp M),
      (w.amh._waiting = true ↔ w.amh._dstRef.isSome = true) →
      (w.amh._waiting = true → w.amh._msgBuff = []) →
      ∃ w1, actor_msg_handle.op w o = .ok w1 ∧
        (w1.amh._waiting = true ↔ w1.amh._dstRef.isSome = true) ∧
        (w1.amh._waiting = true → w1.amh._msgBuff = [])) ∧
    (∀ (w : HostWorld M) (hostActor : Nat) (os : List (MailboxOp M)),
      ∃ w1, actor_msg_handle.ops (actor_msg_handle.make_notifer w hostActor).2 os = .ok w1 ∧
        (w1.amh._waiting = true ↔ w1.amh._dstRef.isSome = true) ∧
        (w1.amh._waiting = true → w1.amh._msgBuff = [])) :=
  ⟨mailbox_op_inv, fun w hostActor os =>
    mailbox_ops_inv os _ (make_notifer_waiting_inv w hostActor).1
      (make_notifer_waiting_inv w hostActor).2⟩

theorem mailbox_op_closed (w w1 : HostWorld M) (o : MailboxOp M) (c : Nat)
    (h : actor_msg_handle.op w o = .ok w1) (hc : c < w.closedCount)
    (hcl : w.amh._closed = some c ∨ w.closed c = true) :
    c < w1.closedCount ∧ (w1.amh._closed = some c ∨ w1.closed c = true) ∧
    ((w.closed c = true ∧ w.amh._closed ≠ some c) →
      (w1.closed c = true ∧ w1.amh._closed ≠ some c)) ∧
    (o.closes = true → w1.closed c = true) := by
  cases o with
  | make_notifer hostActor =>
    cases h
    have hne : c ≠ w.closedCount := Nat.ne_of_lt hc
    have hcc : (actor_msg_handle.make_notifer w hostActor).2.closed c = true := by
      cases ha : w.amh._closed with
      | none =>
        rcases hcl with h0 | h0
        · rw [ha] at h0; cases h0
        · simp [actor_msg_handle.make_notifer, actor_msg_handle.close, ha, Function.update, hne, h0]
      | some c0 =>
        by_cases hc0 : c = c0
        · subst hc0
          simp [actor_msg_handle.make_notifer, actor_msg_handle.close, ha, Function.update, hne]
        · rcases hcl with h0 | h0
          · rw [ha] at h0; cases h0; exact absurd rfl hc0
          · simp [actor_msg_handle.make_notifer, actor_msg_handle.close, ha, Function.update, hne,
              hc0, h0]
    have hnew : (actor_msg_handle.make_notifer w hostActor).2.amh._closed = some w.closedCount := rfl
    have hcnt : (actor_msg_handle.make_notifer w hostActor).2.closedCount = w.closedCount + 1 := rfl
    refine ⟨by rw [hcnt]; omega, Or.inr hcc, fun _ => ⟨hcc, ?_⟩, fun _ => hcc⟩
    rw [hnew]
    intro he
    cases he
    exact hne rfl
  | push_msg m =>
    have hk : w1.closed = w.closed ∧ w1.closedCount = w.closedCount ∧
        w1.amh._closed = w.amh._closed := by
      simp only [actor_msg_handle.op, actor_msg_handle.push_msg] at h
      split at h
      · split at h
        · cases h
        · split at h
          · cases h
          · cases h; exact ⟨rfl, rfl, rfl⟩
      · cases h; exact ⟨rfl, rfl, rfl⟩
    rw [hk.1, hk.2.1, hk.2.2]
    exact ⟨hc, hcl, fun h0 => h0, fun h0 => by cases h0⟩
  | read_msg dst =>
    have hk : w1.closed = w.closed ∧ w1.closedCount = w.closedCount ∧
        w1.amh._closed = w.amh._closed := by
      simp only [actor_msg_handle.op, actor_msg_handle.read_msg] at h
      cases h
      split <;> exact ⟨rfl, rfl, rfl⟩
    rw [hk.1, hk.2.1, hk.2.2]
    exact ⟨hc, hcl, fun h0 => h0, fun h0 => by cases h0⟩
  | close =>
    cases h
    have hcc : (actor_msg_handle.close w).closed c = true := by
      cases ha : w.amh._closed with
      | none =>
        rcases hcl with h0 | h0
        · rw [ha] at h0; cases h0
        · simp [actor_msg_handle.close, ha, h0]
      | some c0 =>
        by_cases hc0 : c = c0
        · subst hc0
          simp [actor_msg_handle.close, ha, Function.update]
        · rcases hcl with h0 | h0
          · rw [ha] at h0; cases h0; exact absurd rfl hc0
          · simp [actor_msg_handle.close, ha, Function.update, hc0, h0]
    exact ⟨hc, Or.inr hcc, fun h0 => ⟨hcc, h0.2⟩, fun _ => hcc⟩
  | resume frame tm =>
    have hk : w1.closed = w.closed ∧ w1.closedCount = w.closedCount ∧
        w1.amh._closed = w.amh._closed := by
      simp only [actor_msg_handle.op, my_actor._timed_wait_msg_resume] at h
      cases h
      split
      · split <;> exact ⟨rfl, rfl, rfl⟩
      · exact ⟨rfl, rfl, rfl⟩
    rw [hk.1, hk.2.1, hk.2.2]
    exact ⟨hc, hcl, fun h0 => h0, fun h0 => by cases h0⟩

theorem mailbox_ops_closed (os : List (MailboxOp M)) (w w1 : HostWorld M) (c : Nat)
    (h : actor_msg_handle.ops w os = .ok w1) (hc : c < w.closedCount) :
    ((w.amh._closed = some c ∨ w.closed c = true) →
      c < w1.closedCount ∧ (w1.amh._closed = some c ∨ w1.closed c = true)) ∧
    ((w.closed c = true ∧ w.amh._closed ≠ some c) →
      (w1.closed c = true ∧ w1.amh._closed ≠ some c)) := by
  induction os generalizing w with
  | nil => cases h; exact ⟨fun h0 => ⟨hc, h0⟩, fun h0 => h0⟩
  | cons o os ih =>
    unfold actor_msg_handle.ops at h
    split at h
    · cases h
    · next w2 h2 =>
      refine ⟨fun h0 => ?_, fun h0 => ?_⟩
      · obtain ⟨hc2, hcl2, _, _⟩ := mailbox_op_closed w w2 o c h2 hc h0
        exact (ih w2 h hc2).1 hcl2
      · obtain ⟨hc2, _, hk2, _⟩ := mailbox_op_closed w w2 o c h2 hc (Or.inr h0.1)
        exact (ih w2 h hc2).2 (hk2 h0)

theorem mailbox_op_open (w w1 : HostWorld M) (o : MailboxOp M)
    (h : actor_msg_handle.op w o = .ok w1) (hk : o.closes = false) :
    w1.closed = w.closed ∧ w1.amh._closed = w.amh._closed ∧
    w1.self._quited = w.self._quited := by
  cases o with
  | make_notifer hostActor => cases hk
  | close => cases hk
  | push_msg m =>
    simp only [actor_msg_handle.op, actor_msg_handle.push_msg] at h
    split at h
    · split at h
      · cases h
      · split at h
        · cases h
        · cases h; exact ⟨rfl, rfl, rfl⟩
    · cases h; exact ⟨rfl, rfl, rfl⟩
  | read_msg dst =>
    simp only [actor_msg_handle.op, actor_msg_handle.read_msg] at h
    cases h
    split <;> exact ⟨rfl, rfl, rfl⟩
  | resume frame tm =>
    simp only [actor_msg_handle.op, my_actor._timed_wait_msg_resume] at h
    cases h
    split
    · split <;> exact ⟨rfl, rfl, rfl⟩
    · exact ⟨rfl, rfl, rfl⟩

theorem mailbox_ops_open (os : List (MailboxOp M)) (w w1 : HostWorld M)
    (h : actor_msg_handle.ops w os = .ok w1) (hk : ∀ o ∈ os, MailboxOp.closes o = false) :
    w1.closed = w.closed ∧ w1.amh._closed = w.amh._closed ∧
    w1.self._quited = w.self._quited := by
  induction os generalizing w with
  | nil => cases h; exact ⟨rfl, rfl, rfl⟩
  | cons o os ih =>
    unfold actor_msg_handle.ops at h
    split at h
    · cases h
    · next w2 h2 =>
      obtain ⟨a1, a2, a3⟩ := mailbox_op_open w w2 o h2 (hk o (List.mem_cons_self _ _))
      obtain ⟨b1, b2, b3⟩ := ih w2 h (fun o1 ho1 => hk o1 (List.mem_cons_of_mem _ ho1))
      exact ⟨b1.trans a1, b2.trans a2, b3.trans a3⟩

/-- C29: a mailbox handle gets a notifier by `make_notifer`, any operations follow, and
`make_notifer` is called again.  The second call leaves the buffer empty and no
destination registered, and after it, whatever operations follow (further calls of
`make_notifer` and `close` included), the lambda posted by the first notifier returns
without calling `push_msg` and changes nothing.  The lambda posted by the second
notifier calls `push_msg`, which fails no assertion, as long as the host has not quited
and the handle has not been closed or given yet another notifier. -/
theorem make_notifer_again_closes (w : HostWorld M) (h1 h2 : Nat)
    (os1 os2 : List (MailboxOp M)) :
    ∃ w2, actor_msg_handle.ops (actor_msg_handle.make_notifer w h1).2 os1 = .ok w2 ∧
      (actor_msg_handle.make_notifer w2 h2).2.amh._msgBuff = [] ∧
      (actor_msg_handle.make_notifer w2 h2).2.amh._dstRef = none ∧
      (actor_msg_handle.make_notifer w2 h2).2.amh._waiting = false ∧
      ∃ w4, actor_msg_handle.ops (actor_msg_handle.make_notifer w2 h2).2 os2 = .ok w4 ∧
        (∀ m, (actor_msg_handle.make_notifer w h1).1.task w4 m = .ok w4) ∧
        ((∀ o ∈ os2, MailboxOp.closes o = false) → w4.self._quited = false → ∀ m,
          (actor_msg_handle.make_notifer w2 h2).1.task w4 m = actor_msg_handle.push_msg w4 m ∧
          ∃ w5, actor_msg_handle.push_msg w4 m = .ok w5) := by
  obtain ⟨w2, hw2, _, _⟩ := mailbox_ops_inv os1 (actor_msg_handle.make_notifer w h1).2
    (make_notifer_waiting_inv w h1).1 (make_notifer_waiting_inv w h1).2
  obtain ⟨w4, hw4, hi1, hi2⟩ := mailbox_ops_inv os2 (actor_msg_handle.make_notifer w2 h2).2
    (make_notifer_waiting_inv w2 h2).1 (make_notifer_waiting_inv w2 h2).2
  have hc1 : w.closedCount < (actor_msg_handle.make_notifer w h1).2.closedCount :=
    Nat.lt_succ_self _
  obtain ⟨hc2, hcl2⟩ := (mailbox_ops_closed os1 _ w2 w.closedCount hw2 hc1).1 (Or.inl rfl)
  obtain ⟨hc3, _, _, hcl3⟩ :=
    mailbox_op_closed w2 (actor_msg_handle.make_notifer w2 h2).2 (.make_notifer h2)
      w.closedCount rfl hc2 hcl2
  have hne3 : (actor_msg_handle.make_notifer w2 h2).2.amh._closed ≠ some w.closedCount := by
    show some w2.closedCount ≠ some w.closedCount
    intro he
    have he1 := Option.some.inj he
    omega
  have hcl4 := (mailbox_ops_closed os2 _ w4 w.closedCount hw4 hc3).2 ⟨hcl3 rfl, hne3⟩
  refine ⟨w2, hw2, rfl, rfl, rfl, w4, hw4, fun m => ?_, fun hk hq m => ?_⟩
  · have hn : (actor_msg_handle.make_notifer w h1).1 =
        ({ _msgHandle := true, _hostActor := some h1, _closed := some w.closedCount }
          : actor_msg_notifer) := rfl
    rw [hn]
    simp [actor_msg_notifer.task, hcl4.1]
  · obtain ⟨hk1, _, hk3⟩ := mailbox_ops_open os2 _ w4 hw4 hk
    have hopen : w4.closed w2.closedCount = false := by
      rw [hk1]
      simp [actor_msg_handle.make_notifer, actor_msg_handle.close]
    have hn : (actor_msg_handle.make_notifer w2 h2).1 =
        ({ _msgHandle := true, _hostActor := some h2, _closed := some w2.closedCount }
          : actor_msg_notifer) := rfl
    refine ⟨?_, ?_⟩
    · rw [hn]
      simp [actor_msg_notifer.task, hopen, hq]
    · obtain ⟨w5, h5, _⟩ := mailbox_op_inv w4 (.push_msg m) hi1 hi2
      exact ⟨w5, h5⟩

/-! ### Clearing a chain with an intermediate pump -/

/-- C24: actor 1 has delegated to actor 2 and actor 2, which has connected its pump 20,
has delegated to actor 3, whose pump 21 is then the one connected to pool 10.  Actor 1
calls `msg_agent_to` for actor 4, which clears the sub-chain 2, 3.  Afterwards the
packets of actors 2 and 3 have no pool, pool 10 has no pump and pump 21 of the last
packet has no handler; but pump 20 of the intermediate packet still has the handler
bound to pool 10.
A `timed_pump_msg` of actor 2 on pump 20 with `checkDis` and no timeout therefore does
not throw: the actor yields, its request is posted to pool 10, which ignores it, and
nothing is left that could resume the actor. -/
theorem clear_msg_list_keeps_intermediate_handler :
    ∃ w0 w, lineWorld.delegated = .ok w0 ∧
      pck.chain w0.pcks 8 1 = some [1, 2, 3] ∧
      (w0.pcks 2)._msgPump = some 20 ∧ (w0.pcks 3)._msgPump = some 21 ∧
      lineWorld.cleared = .ok w ∧
      pck.chain w.pcks 8 1 = some [1, 4] ∧ (w.pcks 2)._next = some 3 ∧
      (w.pcks 2)._msgPool = none ∧ (w.pcks 3)._msgPool = none ∧
      (w.pcks 2)._msgPump = some 20 ∧ (w.pcks 3)._msgPump = some 21 ∧
      (w.pools 10)._msgPump = none ∧
      (w.pumps 21).isDisconnected = true ∧
      (w.pumps 20).isDisconnected = false ∧
      (w.pumps 20)._pumpHandler = ⟨some 10, some 20⟩ ∧
      ∃ s1, my_actor._timed_pump_msg_enter (w.chan false false 10 20 2) 7 (-1) true
          = .ok (.yielded 0 s1) ∧
        s1.poolQ = [.pump_handler ⟨some 10, some 20⟩ 0] ∧ s1.pumpQ = [] ∧
        ∃ s2, s1.step .run_pool = .ok s2 ∧
          s2.poolQ = [] ∧ s2.pumpQ = [] ∧ s2.pump._waiting = true ∧
          s2.pool._waiting = false ∧ s2.host.resumes = 0 ∧ s2.host._timer = some ⟨none⟩ :=
  ⟨_, _, rfl, rfl, rfl, rfl, rfl, rfl, rfl, rfl, rfl, rfl, rfl, rfl, rfl, rfl, rfl,
    _, rfl, rfl, rfl, _, rfl, rfl, rfl, rfl, rfl, rfl, rfl⟩

/-! ### Mutexes and the quit lock in the chain operations -/

theorem chain_event_run_append (a b : List chain_event) :
    ∀ st, chain_event.run st (a ++ b) =
      (chain_event.run st a).bind (fun s => chain_event.run s b) := by
  induction a with
  | nil => intro st; rfl
  | cons e es ih =>
    intro st
    cases e with
    | lock k => simp only [List.cons_append, chain_event.run]; exact ih _
    | unlock k =>
      simp only [List.cons_append, chain_event.run]
      cases st.1 with
      | nil => rfl
      | cons h hs =>
        simp only
        split
        · exact ih _
        · rfl
    | lock_quit => simp only [List.cons_append, chain_event.run]; exact ih _
    | unlock_quit =>
      simp only [List.cons_append, chain_event.run]
      cases st.2 with
      | zero => rfl
      | succ d => exact ih _

theorem chain_event_run_locks (l : List Nat) :
    ∀ st, chain_event.run st (pck.locks l) = some st := by
  induction l with
  | nil => intro st; rfl
  | cons k ks ih =>
    intro st
    simp only [pck.locks, chain_event.run]
    rw [chain_event_run_append, ih]
    simp [chain_event.run]

theorem chain_event_acquired_append (a b : List chain_event) :
    chain_event.acquired (a ++ b) = chain_event.acquired a ++ chain_event.acquired b := by
  induction a with
  | nil => rfl
  | cons e es ih =>
    cases e <;> simp [chain_event.acquired, ih]

theorem chain_event_acquired_locks (l : List Nat) :
    chain_event.acquired (pck.locks l) = l := by
  induction l with
  | nil => rfl
  | cons k ks ih =>
    simp [pck.locks, chain_event.acquired, chain_event_acquired_append, ih]

/-- Balance of an operation's events: the quit lock around the caller's packet mutex
around balanced events. -/
theorem chain_event_run_wrap (k : Nat) (mid : List chain_event)
    (hmid : ∀ st, chain_event.run st mid = some st) :
    ∀ st, chain_event.run st
      ([.lock_quit, .lock k] ++ mid ++ [.unlock k, .unlock_quit]) = some st := by
  intro st
  rw [chain_event_run_append, chain_event_run_append]
  simp [chain_event.run, hmid]

theorem chain_event_acquired_wrap (k : Nat) (mid : List chain_event) :
    chain_event.acquired ([.lock_quit, .lock k] ++ mid ++ [.unlock k, .unlock_quit]) =
      k :: chain_event.acquired mid := by
  simp [chain_event_acquired_append, chain_event.acquired]

theorem chain_head (pcks : Nat → pck) (fuel k : Nat) (l : List Nat)
    (h : pck.chain pcks fuel k = some l) : ∃ r, l = k :: r := by
  cases fuel with
  | zero => cases h
  | succ n =>
    simp only [pck.chain] at h
    split at h
    · cases h; exact ⟨[], rfl⟩
    · cases hc : pck.chain pcks n _ with
      | none => rw [hc] at h; cases h
      | some l1 => rw [hc] at h; cases h; exact ⟨l1, rfl⟩

theorem set_pool_next (w : ChainWorld M) (k : Nat) (p : Option Nat) (j : Nat) :
    ((w.set_pool k p).pcks j)._next = (w.pcks j)._next := by
  by_cases hj : j = k
  · subst hj; simp [ChainWorld.set_pool]
  · rw [set_pool_other w k j p hj]

theorem pump_connect_log (w : ChainWorld M) (np pm : Nat) :
    (w.pump_connect np pm).log = w.log := by
  simp only [ChainWorld.pump_connect]
  cases hh : (w.pumps pm)._hostActor with
  | none => rfl
  | some a => cases hq : w.quited a <;> simp [hq]

/-- What a tail step of `clear_msg_list` and `update_msg_list` returns has the log and
the packets of the world it started in. -/
theorem update_tail_log (w wt : ChainWorld M) (t : Nat) (newPool : Option Nat)
    (h : w.update_tail t newPool = .ok wt) : wt.log = w.log ∧ wt.pcks = w.pcks := by
  simp only [ChainWorld.update_tail] at h
  obtain ⟨w1, hw1, _, hp1, _⟩ := tail_disconnect w (w.pcks t)._msgPool
  have hl1 : w1.log = w.log := by
    rw [← hw1]; cases (w.pcks t)._msgPool <;> rfl
  rw [hw1] at h
  cases hpm : (w1.pcks t)._msgPump with
  | none =>
    simp only [hpm] at h
    cases h
    exact ⟨hl1, hp1⟩
  | some pm =>
    simp only [hpm] at h
    cases newPool with
    | some np =>
      simp only at h
      cases h
      exact ⟨(pump_connect_log _ _ _).trans hl1, (pump_connect_pcks _ _ _).trans hp1⟩
    | none =>
      simp only at h
      obtain ⟨_, hp, _, _, hl, _⟩ := kept_pump_clear _ _ _ h
      exact ⟨hl.trans hl1, hp.trans hp1⟩

theorem update_msg_list_last (newPool : Option Nat) (n : Nat) (w w1 : ChainWorld M) (k : Nat)
    (hn : (w.pcks k)._next = none)
    (h : my_actor.update_msg_list (n + 1) w k newPool = .ok w1) :
    ∃ wt, w.update_tail k newPool = .ok wt ∧ w1 = wt.set_pool k newPool := by
  simp only [my_actor.update_msg_list, hn] at h
  simp only [ChainWorld.update_tail]
  generalize (match (w.pcks k)._msgPool with
    | some pl => w.pool_disconnect pl
    | none => w) = w0 at h ⊢
  cases hpm : (w0.pcks k)._msgPump with
  | none =>
    simp only [hpm] at h
    cases h
    exact ⟨_, rfl, rfl⟩
  | some pm =>
    simp only [hpm] at h
    cases newPool with
    | some np =>
      simp only at h
      cases h
      exact ⟨_, rfl, rfl⟩
    | none =>
      simp only at h
      cases hc : w0.pump_clear pm with
      | error e => rw [hc] at h; cases h
      | ok w2 =>
        rw [hc] at h
        cases h
        exact ⟨w2, hc, rfl⟩

theorem clear_msg_list_last (n : Nat) (w w1 : ChainWorld M) (k : Nat)
    (hn : (w.pcks k)._next = none)
    (h : my_actor.clear_msg_list (n + 1) w k = .ok w1) :
    ∃ wt, w.update_tail k none = .ok wt ∧ w1 = wt.set_pool k none := by
  simp only [my_actor.clear_msg_list, hn] at h
  simp only [ChainWorld.update_tail]
  generalize (match (w.pcks k)._msgPool with
    | some pl => w.pool_disconnect pl
    | none => w) = w0 at h ⊢
  cases hpm : (w0.pcks k)._msgPump with
  | none =>
    simp only [hpm] at h
    cases h
    exact ⟨_, rfl, rfl⟩
  | some pm =>
    simp only [hpm] at h
    cases hc : w0.pump_clear pm with
    | error e => rw [hc] at h; cases h
    | ok w2 =>
      rw [hc] at h
      cases h
      exact ⟨w2, hc, rfl⟩

/-- Every return of `update_msg_list` has walked a finite chain, has appended to the log
the nested locks of the packets below the first one, and has left every `_next` as it
was. -/
theorem update_msg_list_log (newPool : Option Nat) (fuel : Nat) :
    ∀ (w w1 : ChainWorld M) (k : Nat),
      my_actor.update_msg_list fuel w k newPool = .ok w1 →
      ∃ l, pck.chain w.pcks fuel k = some l ∧ w1.log = w.log ++ pck.locks l.tail ∧
        ∀ j, (w1.pcks j)._next = (w.pcks j)._next := by
  induction fuel with
  | zero => intro w w1 k h; cases h
  | succ n ih =>
    intro w w1 k h
    cases hn : (w.pcks k)._next with
    | some nx =>
      simp only [my_actor.update_msg_list, hn] at h
      cases hr : my_actor.update_msg_list n (w.lock nx) nx newPool with
      | error e => rw [hr] at h; cases h
      | ok w2 =>
        rw [hr] at h
        simp only at h
        obtain ⟨l1, hl1, hlog, hnext⟩ := ih _ _ _ hr
        have hnx : (w2.pcks k)._next = some nx := (hnext k).trans hn
        simp only [hnx] at h
        cases h
        obtain ⟨r, hr1⟩ := chain_head _ _ _ _ hl1
        have hl1w : pck.chain w.pcks n nx = some l1 := hl1
        refine ⟨k :: l1, ?_, ?_, ?_⟩
        · simp only [pck.chain, hn, hl1w]
          rfl
        · show (w2.log ++ [chain_event.unlock nx]) = _
          rw [hlog, hr1]
          simp [ChainWorld.lock, pck.locks]
        · intro j
          rw [set_pool_next]
          exact hnext j
    | none =>
      obtain ⟨wt, hwt, hw1⟩ := update_msg_list_last newPool n w w1 k hn h
      obtain ⟨hl, hp⟩ := update_tail_log _ _ _ _ hwt
      refine ⟨[k], by simp [pck.chain, hn], ?_, ?_⟩
      · rw [hw1]
        show wt.log = _
        rw [hl]
        simp [pck.locks]
      · intro j
        rw [hw1, set_pool_next, hp]

/-- Every return of `clear_msg_list` has walked a finite chain, has appended to the log
the nested locks of the packets below the first one, and has left every `_next` as it
was. -/
theorem clear_msg_list_log (fuel : Nat) :
    ∀ (w w1 : ChainWorld M) (k : Nat),
      my_actor.clear_msg_list fuel w k = .ok w1 →
      ∃ l, pck.chain w.pcks fuel k = some l ∧ w1.log = w.log ++ pck.locks l.tail ∧
        ∀ j, (w1.pcks j)._next = (w.pcks j)._next := by
  induction fuel with
  | zero => intro w w1 k h; cases h
  | succ n ih =>
    intro w w1 k h
    cases hn : (w.pcks k)._next with
    | some nx =>
      simp only [my_actor.clear_msg_list, hn] at h
      cases hr : my_actor.clear_msg_list n (w.lock nx) nx with
      | error e => rw [hr] at h; cases h
      | ok w2 =>
        rw [hr] at h
        simp only at h
        obtain ⟨l1, hl1, hlog, hnext⟩ := ih _ _ _ hr
        have hnx : (w2.pcks k)._next = some nx := (hnext k).trans hn
        simp only [hnx] at h
        cases h
        obtain ⟨r, hr1⟩ := chain_head _ _ _ _ hl1
        have hl1w : pck.chain w.pcks n nx = some l1 := hl1
        refine ⟨k :: l1, ?_, ?_, ?_⟩
        · simp only [pck.chain, hn, hl1w]
          rfl
        · show (w2.log ++ [chain_event.unlock nx]) = _
          rw [hlog, hr1]
          simp [ChainWorld.lock, pck.locks]
        · intro j
          rw [set_pool_next]
          exact hnext j
    | none =>
      obtain ⟨wt, hwt, hw1⟩ := clear_msg_list_last n w w1 k hn h
      obtain ⟨hl, hp⟩ := update_tail_log _ _ _ _ hwt
      refine ⟨[k], by simp [pck.chain, hn], ?_, ?_⟩
      · rw [hw1]
        show wt.log = _
        rw [hl]
        simp [pck.locks]
      · intro j
        rw [hw1, set_pool_next, hp]

/-- Every return of the statement that clears the old sub-chain of packet `k`: the locks
are those of the chain below `k`, nested, and every `_next` is as it was. -/
theorem clear_next_log (fuel : Nat) (w w1 : ChainWorld M) (k : Nat)
    (h : my_actor.clear_next fuel w k = .ok w1) :
    ∃ l0, pck.chain w.pcks (fuel + 1) k = some (k :: l0) ∧
      w1.log = w.log ++ pck.locks l0 ∧ ∀ j, (w1.pcks j)._next = (w.pcks j)._next := by
  simp only [my_actor.clear_next] at h
  cases hn : (w.pcks k)._next with
  | none =>
    simp only [hn] at h
    cases h
    exact ⟨[], by simp [pck.chain, hn], by simp [pck.locks], fun _ => rfl⟩
  | some nx =>
    simp only [hn] at h
    cases hr : my_actor.clear_msg_list fuel (w.lock nx) nx with
    | error e => rw [hr] at h; cases h
    | ok w2 =>
      rw [hr] at h
      simp only at h
      obtain ⟨l1, hl1, hlog, hnext⟩ := clear_msg_list_log fuel _ _ _ hr
      have hnx : (w2.pcks k)._next = some nx := (hnext k).trans hn
      simp only [hnx] at h
      cases h
      obtain ⟨r, hr1⟩ := chain_head _ _ _ _ hl1
      have hl1w : pck.chain w.pcks fuel nx = some l1 := hl1
      refine ⟨l1, ?_, ?_, hnext⟩
      · simp only [pck.chain, hn, hl1w]
        rfl
      · show (w2.log ++ [chain_event.unlock nx]) = _
        rw [hlog, hr1]
        simp [ChainWorld.lock, pck.locks]

theorem msg_agent_to_unfold (fuel : Nat) (w : ChainWorld M) (self child : Nat)
    (hp : w.parent child = some self) :
    my_actor.msg_agent_to fuel w self child =
      match my_actor.clear_next fuel ((w.lock_quit).lock self) self with
      | .error e => .error e
      | .ok w1 =>
        match my_actor.update_msg_list fuel
            (((w1.set_next self (some child)).lock child).set_head child false) child
            ((((w1.set_next self (some child)).lock child).set_head child false).pcks
              self)._msgPool with
        | .error e => .error e
        | .ok w5 => .ok (((w5.unlock child).unlock self).unlock_quit) := by
  rw [my_actor.msg_agent_to, if_pos hp]
  rfl

/-- Every return of `msg_agent_to`: either nothing was locked, or the log has grown by
the quit lock around the caller's mutex around the nested locks of the old sub-chain
followed by the nested locks of the chain of the new child. -/
theorem msg_agent_to_log (fuel : Nat) (w w1 : ChainWorld M) (self child : Nat)
    (h : my_actor.msg_agent_to fuel w self child = .ok w1) :
    w1 = w ∨ ∃ l0 l, pck.chain w.pcks (fuel + 1) self = some (self :: l0) ∧
      pck.chain w1.pcks (fuel + 1) self = some (self :: l) ∧
      w1.log = w.log ++ ([.lock_quit, .lock self] ++ (pck.locks l0 ++ pck.locks l) ++
        [.unlock self, .unlock_quit]) := by
  by_cases hp : w.parent child = some self
  · right
    rw [msg_agent_to_unfold fuel w self child hp] at h
    cases hr : my_actor.clear_next fuel ((w.lock_quit).lock self) self with
    | error e => rw [hr] at h; cases h
    | ok w2 =>
      rw [hr] at h
      simp only at h
      obtain ⟨l0, hl0, hlog0, hnext0⟩ := clear_next_log fuel _ _ _ hr
      cases hu : my_actor.update_msg_list fuel
          (((w2.set_next self (some child)).lock child).set_head child false) child
          ((((w2.set_next self (some child)).lock child).set_head child false).pcks
            self)._msgPool with
      | error e => rw [hu] at h; cases h
      | ok w5 =>
        rw [hu] at h
        cases h
        obtain ⟨l, hl, hlog, hnext⟩ := update_msg_list_log _ fuel _ _ _ hu
        obtain ⟨r, hr1⟩ := chain_head _ _ _ _ hl
        have hn4 : ((((w2.set_next self (some child)).lock child).set_head child false).pcks
            self)._next = some child := by
          rw [(set_head_pcks _ child false self).1]
          have := (set_next_pcks w2 self (some child) self).1
          simp only [if_true] at this
          exact this
        have hl5 : pck.chain w5.pcks fuel child = some l :=
          chain_congr _ w5.pcks fuel child l hl (fun j _ => hnext j)
        refine ⟨l0, l, hl0, ?_, ?_⟩
        · show pck.chain w5.pcks (fuel + 1) self = _
          simp only [pck.chain, (hnext self).trans hn4, hl5]
          rfl
        · show w5.log ++ [chain_event.unlock child] ++ [chain_event.unlock self] ++
            [chain_event.unlock_quit] = _
          rw [hlog]
          show (w2.log ++ [chain_event.lock child]) ++ pck.locks l.tail ++
            [chain_event.unlock child] ++ [chain_event.unlock self] ++
            [chain_event.unlock_quit] = _
          rw [hlog0, hr1]
          simp [ChainWorld.lock, ChainWorld.lock_quit, pck.locks]
  · left
    rw [my_actor.msg_agent_to, if_neg hp] at h
    split at h
    · cases h
    · cases h; rfl

/-- Every return of `msg_agent_off`: the log has grown by the quit lock around the nested
locks of the caller's chain. -/
theorem msg_agent_off_log (fuel : Nat) (w w1 : ChainWorld M) (self : Nat)
    (h : my_actor.msg_agent_off fuel w self = .ok w1) :
    ∃ l0, pck.chain w.pcks (fuel + 1) self = some (self :: l0) ∧
      w1.log = w.log ++ ([.lock_quit, .lock self] ++ pck.locks l0 ++
        [.unlock self, .unlock_quit]) := by
  simp only [my_actor.msg_agent_off] at h
  have hpk : ((w.lock_quit).lock self).pcks = w.pcks := rfl
  rw [hpk] at h
  cases hn : (w.pcks self)._next with
  | none =>
    simp only [hn] at h
    cases h
    exact ⟨[], by simp [pck.chain, hn],
      by simp [ChainWorld.lock, ChainWorld.lock_quit, ChainWorld.unlock, ChainWorld.unlock_quit,
        pck.locks]⟩
  | some nx =>
    simp only [hn] at h
    cases hr : my_actor.clear_msg_list fuel (((w.lock_quit).lock self).lock nx) nx with
    | error e => rw [hr] at h; cases h
    | ok w2 =>
      rw [hr] at h
      simp only at h
      obtain ⟨l1, hl1, hlog, hnext⟩ := clear_msg_list_log fuel _ _ _ hr
      have hnx : (w2.pcks self)._next = some nx := (hnext self).trans hn
      simp only [hnx] at h
      cases h
      obtain ⟨r, hr1⟩ := chain_head _ _ _ _ hl1
      have hl1w : pck.chain w.pcks fuel nx = some l1 := hl1
      refine ⟨l1, ?_, ?_⟩
      · simp only [pck.chain, hn, hl1w]
        rfl
      · show w2.log ++ [chain_event.unlock nx] ++ [chain_event.unlock self] ++
          [chain_event.unlock_quit] = _
        rw [hlog, hr1]
        simp [ChainWorld.lock, ChainWorld.lock_quit, pck.locks]

/-- Every return of `connect_msg_pump`: the log has grown by the quit lock around the
nested locks of the caller's chain. -/
theorem connect_msg_pump_log (fuel : Nat) (w : ChainWorld M) (self : Nat)
    (r : Nat × ChainWorld M) (h : my_actor.connect_msg_pump fuel w self = .ok r) :
    ∃ l0, pck.chain w.pcks (fuel + 1) self = some (self :: l0) ∧
      r.2.log = w.log ++ ([.lock_quit, .lock self] ++ pck.locks l0 ++
        [.unlock self, .unlock_quit]) := by
  simp only [my_actor.connect_msg_pump] at h
  cases hr : my_actor.clear_next fuel ((w.lock_quit).lock self) self with
  | error e => rw [hr] at h; cases h
  | ok w2 =>
    rw [hr] at h
    simp only at h
    obtain ⟨l0, hl0, hlog0, _⟩ := clear_next_log fuel _ _ _ hr
    have hw3 : ∃ w3 : ChainWorld M, w3 =
        (match ((w2.set_next self none).pcks self)._msgPump with
          | none => (w2.set_next self none).make_pump self self
          | some _ => w2.set_next self none) ∧ w3.log = w2.log := by
      refine ⟨_, rfl, ?_⟩
      cases ((w2.set_next self none).pcks self)._msgPump <;> rfl
    obtain ⟨w3, e3, hlog3⟩ := hw3
    rw [← e3] at h
    have hfin : r.2.log = w3.log ++ [chain_event.unlock self] ++ [chain_event.unlock_quit] := by
      cases hpm : (w3.pcks self)._msgPump with
      | none => rw [hpm] at h; cases h
      | some pm =>
        rw [hpm] at h
        simp only at h
        cases hpl : (w3.pcks self)._msgPool with
        | some pl =>
          rw [hpl] at h
          cases h
          rfl
        | none =>
          rw [hpl] at h
          simp only at h
          cases hc : w3.pump_clear pm with
          | error e => rw [hc] at h; cases h
          | ok w4 =>
            rw [hc] at h
            cases h
            obtain ⟨_, _, _, _, hl, _⟩ := kept_pump_clear _ _ _ hc
            show w4.log ++ [chain_event.unlock self] ++ [chain_event.unlock_quit] = _
            rw [hl]
    refine ⟨l0, hl0, ?_⟩
    rw [hfin, hlog3, hlog0]
    simp [ChainWorld.lock, ChainWorld.lock_quit]

/-- Every return of the branch `if (makeNew)` of `connect_msg_notifer_to`, entered with the
quit lock and the caller's mutex taken: the log has grown by the nested locks of the
buddy's chain and the release of the caller's mutex and of the quit lock. -/
theorem connect_msg_notifer_to_new_log (fuel : Nat) (w0 : ChainWorld M) (msgPck childPck : Nat)
    (r : Option Nat × ChainWorld M)
    (h : my_actor.connect_msg_notifer_to_new fuel w0 msgPck childPck = .ok r) :
    ∃ l, pck.chain w0.pcks fuel childPck = some l ∧
      r.2.log = w0.log ++ (pck.locks l ++ [.unlock msgPck, .unlock_quit]) := by
  simp only [my_actor.connect_msg_notifer_to_new] at h
  cases hu : my_actor.update_msg_list fuel
      ((w0.make_pool.2.lock childPck).set_head childPck true) childPck
      (some w0.make_pool.1) with
  | error e => rw [hu] at h; cases h
  | ok w3 =>
    rw [hu] at h
    simp only at h
    obtain ⟨l, hl, hlog, _⟩ := update_msg_list_log _ fuel _ _ _ hu
    obtain ⟨t, ht⟩ := chain_head _ _ _ _ hl
    have hl0 : pck.chain w0.pcks fuel childPck = some l :=
      chain_congr _ w0.pcks fuel childPck l hl
        (fun j _ => ((set_head_pcks (w0.make_pool.2.lock childPck) childPck true j).1).symm)
    have hfin : r.2.log = w3.log ++ [chain_event.unlock childPck] ++
        [chain_event.unlock msgPck] ++ [chain_event.unlock_quit] := by
      split at h
      · cases hpm : (((w3.unlock childPck).set_next msgPck none).pcks msgPck)._msgPump with
        | none => rw [hpm] at h; cases h; rfl
        | some pm =>
          rw [hpm] at h
          simp only at h
          cases hpl : (((w3.unlock childPck).set_next msgPck none).pcks msgPck)._msgPool with
          | some pl => rw [hpl] at h; cases h; rfl
          | none =>
            rw [hpl] at h
            simp only at h
            cases hc : ((w3.unlock childPck).set_next msgPck none).pump_clear pm with
            | error e => rw [hc] at h; cases h
            | ok w6 =>
              rw [hc] at h
              cases h
              obtain ⟨_, _, _, _, hl6, _⟩ := kept_pump_clear _ _ _ hc
              show w6.log ++ [chain_event.unlock msgPck] ++ [chain_event.unlock_quit] = _
              rw [hl6]
              rfl
      · cases h; rfl
    refine ⟨l, hl0, ?_⟩
    rw [hfin, hlog, ht]
    show (w0.log ++ [chain_event.lock childPck]) ++ _ ++ _ ++ _ ++ _ = _
    simp [pck.locks]

/-- Every return of the part of `connect_msg_notifer_to` after the branch
`if (makeNew)`: the buddy's chain is locked, or only the buddy's packet when it is not a
head. -/
theorem connect_msg_notifer_to_old_log (fuel : Nat) (w0 : ChainWorld M) (msgPck childPck : Nat)
    (r : Option Nat × ChainWorld M)
    (h : my_actor.connect_msg_notifer_to_old fuel w0 msgPck childPck = .ok r) :
    ∃ l, (pck.chain w0.pcks fuel childPck = some l ∨
        ((w0.pcks childPck)._isHead = false ∧ l = [childPck])) ∧
      r.2.log = w0.log ++ (pck.locks l ++ [.unlock msgPck, .unlock_quit]) := by
  simp only [my_actor.connect_msg_notifer_to_old] at h
  have hpk : (w0.lock childPck).pcks = w0.pcks := rfl
  rw [hpk] at h
  cases hh : (w0.pcks childPck)._isHead with
  | false =>
    simp only [hh, Bool.false_eq_true, if_false] at h
    cases h
    refine ⟨[childPck], Or.inr ⟨rfl, rfl⟩, ?_⟩
    simp [ChainWorld.lock, ChainWorld.unlock, ChainWorld.unlock_quit, pck.locks]
  | true =>
    simp only [hh, if_true] at h
    split at h
    · cases h
    · have key : ∀ (w1 w2 : ChainWorld M) (np : Option Nat),
          w1.pcks = w0.pcks → w1.log = w0.log ++ [chain_event.lock childPck] →
          my_actor.update_msg_list fuel w1 childPck np = .ok w2 →
          ∃ l, pck.chain w0.pcks fuel childPck = some l ∧
            (((w2.unlock childPck).unlock msgPck).unlock_quit).log =
              w0.log ++ (pck.locks l ++ [.unlock msgPck, .unlock_quit]) := by
        intro w1 w2 np hp1 hl1 hu
        obtain ⟨l, hl, hlog, _⟩ := update_msg_list_log _ fuel _ _ _ hu
        obtain ⟨t, ht⟩ := chain_head _ _ _ _ hl
        rw [hp1] at hl
        refine ⟨l, hl, ?_⟩
        show w2.log ++ [chain_event.unlock childPck] ++ [chain_event.unlock msgPck] ++
          [chain_event.unlock_quit] = _
        rw [hlog, hl1, ht]
        simp [pck.locks]
      cases hpl : (w0.pcks childPck)._msgPool with
      | some childPool =>
        rw [hpl] at h
        simp only at h
        cases hu : my_actor.update_msg_list fuel (w0.lock childPck) childPck (some childPool) with
        | error e => rw [hu] at h; cases h
        | ok w2 =>
          rw [hu] at h
          cases h
          obtain ⟨l, hl, hlog⟩ := key (w0.lock childPck) _ _ rfl rfl hu
          exact ⟨l, Or.inl hl, hlog⟩
      | none =>
        rw [hpl] at h
        simp only at h
        cases hu : my_actor.update_msg_list fuel (w0.lock childPck).make_pool.2 childPck
            (some (w0.lock childPck).make_pool.1) with
        | error e => rw [hu] at h; cases h
        | ok w2 =>
          rw [hu] at h
          cases h
          obtain ⟨l, hl, hlog⟩ := key (w0.lock childPck).make_pool.2 _ _ rfl rfl hu
          exact ⟨l, Or.inl hl, hlog⟩

/-- Every return of `connect_msg_notifer_to`: either nothing was locked, or the log has
grown by the quit lock around the caller's mutex around the nested locks of the buddy's
chain (of the buddy's packet alone when it is not a head and no new pool is asked
for). -/
theorem connect_msg_notifer_to_log (fuel : Nat) (w : ChainWorld M) (self buddyActor : Nat)
    (makeNew : Bool) (r : Option Nat × ChainWorld M)
    (h : my_actor.connect_msg_notifer_to fuel w self buddyActor makeNew = .ok r) :
    r.2 = w ∨ ∃ l, (pck.chain w.pcks fuel buddyActor = some l ∨
        ((w.pcks buddyActor)._isHead = false ∧ makeNew = false ∧ l = [buddyActor])) ∧
      r.2.log = w.log ++ ([.lock_quit, .lock self] ++ pck.locks l ++
        [.unlock self, .unlock_quit]) := by
  simp only [my_actor.connect_msg_notifer_to] at h
  split at h
  · left
    split at h
    · cases h
    · cases h; rfl
  · right
    split at h
    · cases h
    · cases makeNew with
      | true =>
        simp only [if_true] at h
        obtain ⟨l, hl, hlog⟩ := connect_msg_notifer_to_new_log fuel _ _ _ _ h
        refine ⟨l, Or.inl hl, ?_⟩
        rw [hlog]
        simp [ChainWorld.lock, ChainWorld.lock_quit]
      | false =>
        simp only [Bool.false_eq_true, if_false] at h
        obtain ⟨l, hl, hlog⟩ := connect_msg_notifer_to_old_log fuel _ _ _ _ h
        refine ⟨l, ?_, ?_⟩
        · rcases hl with hl | ⟨h1, h2⟩
          · exact Or.inl hl
          · exact Or.inr ⟨h1, rfl, h2⟩
        · rw [hlog]
          simp [ChainWorld.lock, ChainWorld.lock_quit]

/-- Every return of `connect_msg_notifer_to_self`: the log has grown by the quit lock
around the nested locks of the caller's chain, or of the caller's packet alone when it
is not a head. -/
theorem connect_msg_notifer_to_self_log (fuel : Nat) (w : ChainWorld M) (self : Nat)
    (makeNew : Bool) (r : Option Nat × ChainWorld M)
    (h : my_actor.connect_msg_notifer_to_self fuel w self makeNew = .ok r) :
    ∃ l, (pck.chain w.pcks fuel self = some l ∨
        ((w.pcks self)._isHead = false ∧ l = [self])) ∧
      r.2.log = w.log ++ ([.lock_quit] ++ pck.locks l ++ [.unlock_quit]) := by
  simp only [my_actor.connect_msg_notifer_to_self] at h
  have hpk : ((w.lock_quit).lock self).pcks = w.pcks := rfl
  rw [hpk] at h
  cases hh : (w.pcks self)._isHead with
  | false =>
    simp only [hh, Bool.false_eq_true, if_false] at h
    cases h
    refine ⟨[self], Or.inr ⟨rfl, rfl⟩, ?_⟩
    simp [ChainWorld.lock, ChainWorld.lock_quit, ChainWorld.unlock, ChainWorld.unlock_quit,
      pck.locks]
  | true =>
    simp only [hh, if_true] at h
    have key : ∀ (w1 w2 : ChainWorld M) (np : Option Nat),
        w1.pcks = w.pcks → w1.log = w.log ++ [chain_event.lock_quit, chain_event.lock self] →
        my_actor.update_msg_list fuel w1 self np = .ok w2 →
        ∃ l, pck.chain w.pcks fuel self = some l ∧
          ((w2.unlock self).unlock_quit).log =
            w.log ++ ([.lock_quit] ++ pck.locks l ++ [.unlock_quit]) := by
      intro w1 w2 np hp1 hl1 hu
      obtain ⟨l, hl, hlog, _⟩ := update_msg_list_log _ fuel _ _ _ hu
      obtain ⟨t, ht⟩ := chain_head _ _ _ _ hl
      rw [hp1] at hl
      refine ⟨l, hl, ?_⟩
      show w2.log ++ [chain_event.unlock self] ++ [chain_event.unlock_quit] = _
      rw [hlog, hl1, ht]
      simp [pck.locks]
    have hlog0 : ((w.lock_quit).lock self).log =
        w.log ++ [chain_event.lock_quit, chain_event.lock self] := by
      simp [ChainWorld.lock, ChainWorld.lock_quit]
    split at h
    · cases hu : my_actor.update_msg_list fuel ((w.lock_quit).lock self).make_pool.2 self
          (some ((w.lock_quit).lock self).make_pool.1) with
      | error e => rw [hu] at h; cases h
      | ok w2 =>
        rw [hu] at h
        cases h
        obtain ⟨l, hl, hlog⟩ := key ((w.lock_quit).lock self).make_pool.2 _ _ rfl hlog0 hu
        exact ⟨l, Or.inl hl, hlog⟩
    · next msgPool _ =>
      cases hu : my_actor.update_msg_list fuel ((w.lock_quit).lock self) self
          (some msgPool) with
      | error e => rw [hu] at h; cases h
      | ok w2 =>
        rw [hu] at h
        cases h
        obtain ⟨l, hl, hlog⟩ := key ((w.lock_quit).lock self) _ _ rfl hlog0 hu
        exact ⟨l, Or.inl hl, hlog⟩

theorem chain_event_run_mid (l0 l : List Nat) :
    ∀ st, chain_event.run st (pck.locks l0 ++ pck.locks l) = some st := by
  intro st
  rw [chain_event_run_append, chain_event_run_locks]
  exact chain_event_run_locks l st

theorem chain_event_run_quit (l : List Nat) :
    ∀ st, chain_event.run st ([.lock_quit] ++ pck.locks l ++ [.unlock_quit]) = some st := by
  intro st
  rw [chain_event_run_append, chain_event_run_append]
  simp [chain_event.run, chain_event_run_locks]

/-- C30: every return of `msg_agent_to`, `msg_agent_off`, `connect_msg_pump`,
`connect_msg_notifer_to` and `connect_msg_notifer_to_self` has appended to the log of
mutex and quit-lock operations a sequence that releases every packet mutex it acquired,
the most recently acquired first, and the quit lock as often as it took it, so the
mutexes held and the quit-lock depth are those at entry.  The mutexes are acquired in
this order: the caller's packet, then the packets of the chain that is cleared or
updated, from its first packet to its last (`msg_agent_to` walks the old sub-chain and
then the chain of the new child; `connect_msg_notifer_to` walks the chain of the buddy,
or locks only the buddy's packet when that is not a head).  In the example actor 1, whose
chain is 1, 2, 3, delegates to actor 4. -/
theorem chain_operations_release_locks :
    (∀ (fuel : Nat) (w w1 : ChainWorld M) (self child : Nat),
      my_actor.msg_agent_to fuel w self child = .ok w1 →
      ∃ ev, w1.log = w.log ++ ev ∧ (∀ st, chain_event.run st ev = some st) ∧
        (ev = [] ∨ ∃ l0 l, pck.chain w.pcks (fuel + 1) self = some (self :: l0) ∧
          pck.chain w1.pcks (fuel + 1) self = some (self :: l) ∧
          chain_event.acquired ev = self :: (l0 ++ l))) ∧
    (∀ (fuel : Nat) (w w1 : ChainWorld M) (self : Nat),
      my_actor.msg_agent_off fuel w self = .ok w1 →
      ∃ ev l, w1.log = w.log ++ ev ∧ (∀ st, chain_event.run st ev = some st) ∧
        pck.chain w.pcks (fuel + 1) self = some l ∧ chain_event.acquired ev = l) ∧
    (∀ (fuel : Nat) (w : ChainWorld M) (self : Nat) (r : Nat × ChainWorld M),
      my_actor.connect_msg_pump fuel w self = .ok r →
      ∃ ev l, r.2.log = w.log ++ ev ∧ (∀ st, chain_event.run st ev = some st) ∧
        pck.chain w.pcks (fuel + 1) self = some l ∧ chain_event.acquired ev = l) ∧
    (∀ (fuel : Nat) (w : ChainWorld M) (self buddyActor : Nat) (makeNew : Bool)
        (r : Option Nat × ChainWorld M),
      my_actor.connect_msg_notifer_to fuel w self buddyActor makeNew = .ok r →
      ∃ ev, r.2.log = w.log ++ ev ∧ (∀ st, chain_event.run st ev = some st) ∧
        (ev = [] ∨ ∃ l, (pck.chain w.pcks fuel buddyActor = some l ∨
            ((w.pcks buddyActor)._isHead = false ∧ makeNew = false ∧ l = [buddyActor])) ∧
          chain_event.acquired ev = self :: l)) ∧
    (∀ (fuel : Nat) (w : ChainWorld M) (self : Nat) (makeNew : Bool)
        (r : Option Nat × ChainWorld M),
      my_actor.connect_msg_notifer_to_self fuel w self makeNew = .ok r →
      ∃ ev l, r.2.log = w.log ++ ev ∧ (∀ st, chain_event.run st ev = some st) ∧
        (pck.chain w.pcks fuel self = some l ∨ ((w.pcks self)._isHead = false ∧ l = [self])) ∧
        chain_event.acquired ev = l) ∧
    (∃ w0 w, lineWorld.delegated = .ok w0 ∧ my_actor.msg_agent_to 8 w0 1 4 = .ok w ∧
      w.log = w0.log ++ [.lock_quit, .lock 1, .lock 2, .lock 3, .unlock 3, .unlock 2,
        .lock 4, .unlock 4, .unlock 1, .unlock_quit]) := by
  refine ⟨?_, ?_, ?_, ?_, ?_, ⟨_, _, rfl, rfl, rfl⟩⟩
  · intro fuel w w1 self child h
    rcases msg_agent_to_log fuel w w1 self child h with h0 | ⟨l0, l, h1, h2, h3⟩
    · exact ⟨[], by rw [h0]; simp, fun st => rfl, Or.inl rfl⟩
    · refine ⟨_, h3, chain_event_run_wrap self _ (chain_event_run_mid l0 l), Or.inr
        ⟨l0, l, h1, h2, ?_⟩⟩
      rw [chain_event_acquired_wrap, chain_event_acquired_append, chain_event_acquired_locks,
        chain_event_acquired_locks]
  · intro fuel w w1 self h
    obtain ⟨l0, h1, h2⟩ := msg_agent_off_log fuel w w1 self h
    refine ⟨_, self :: l0, h2, chain_event_run_wrap self _ (chain_event_run_locks l0), h1, ?_⟩
    rw [chain_event_acquired_wrap, chain_event_acquired_locks]
  · intro fuel w self r h
    obtain ⟨l0, h1, h2⟩ := connect_msg_pump_log fuel w self r h
    refine ⟨_, self :: l0, h2, chain_event_run_wrap self _ (chain_event_run_locks l0), h1, ?_⟩
    rw [chain_event_acquired_wrap, chain_event_acquired_locks]
  · intro fuel w self buddyActor makeNew r h
    rcases connect_msg_notifer_to_log fuel w self buddyActor makeNew r h with
      h0 | ⟨l, h1, h2⟩
    · exact ⟨[], by rw [h0]; simp, fun st => rfl, Or.inl rfl⟩
    · refine ⟨_, h2, chain_event_run_wrap self _ (chain_event_run_locks l), Or.inr
        ⟨l, h1, ?_⟩⟩
      rw [chain_event_acquired_wrap, chain_event_acquired_locks]
  · intro fuel w self makeNew r h
    obtain ⟨l, h1, h2⟩ := connect_msg_notifer_to_self_log fuel w self makeNew r h
    refine ⟨_, l, h2, chain_event_run_quit l, h1, ?_⟩
    rw [chain_event_acquired_append, chain_event_acquired_append, chain_event_acquired_locks]
    simp [chain_event.acquired]

/-! ### Delegation and its reversal -/

/-! ### Pools that stay flagged waiting, and pushes onto any pool -/

end ActorFramework
